import Mathlib

/-
Verification of the Neo-to-NIX mapping layer (src/neonix/io/nixio.py).

The Python module converts a tree of Neo recording objects (blocks, segments,
channel groups, signals, epochs, events, spike trains, units) into NIX
primitives (blocks, groups, sources, data arrays, multi tags, metadata
sections).  This file gives a shallow embedding of that mapping: the NIX file
is an arena store threaded through every conversion routine, Python
exceptions become an explicit error monad, and the id-keyed identity table
neo_nix_map is an association list whose keys are produced by an ambient
id assignment.
-/

namespace NeoNix

/-- Scalar values wrapped by nix.Value before being stored on a property. -/
inductive PyVal where
  | str (s : String)
  | int (z : Int)
  | rat (q : Rat)
deriving DecidableEq, Repr

/-- Python exceptions surfaced by the mapping code. -/
inductive PyErr where
  | keyError (msg : String)
  | pyError (msg : String)
deriving DecidableEq, Repr

/-- Unit of measure, as modelled from the quantities library: a unit name
(the string str(x.dimensionality)), a conversion factor into a fixed base
unit, and the corresponding data of the simplified form of the unit
(dimensionality.simplified). -/
structure UnitQ where
  uname : String
  factor : Rat
  sname : String
  sfactor : Rat
deriving DecidableEq, Repr

/-- Unit obtained from dimensionality.simplified. -/
def UnitQ.simplifiedU (u : UnitQ) : UnitQ :=
  ⟨u.sname, u.sfactor, u.sname, u.sfactor⟩

/-- Scalar physical quantity: a magnitude together with its unit. -/
structure Quantity where
  mag : Rat
  qunit : UnitQ
deriving DecidableEq, Repr

/-- Rescaling of a quantity into a target unit, as performed by
quantity.rescale(unit) in the source: magnitudes are converted through the
base-unit factors. -/
def Quantity.rescale (q : Quantity) (tu : UnitQ) : Quantity :=
  ⟨q.mag * q.qunit.factor / tu.factor, tu⟩

/-- Timestamp conversion int(time.mktime(dt.timetuple())): datetimes are
represented directly by their integer timestamps, so the conversion is the
identity on that representation. -/
def calculate_timestamp (dt : Int) : Int := dt

/- ------------------------------------------------------------------ -/
/- Neo source object model: exactly the attributes the mapping reads.
   A missing name, description or file_origin is modelled by the empty
   string or none, matching Python truthiness tests in the source.
   Every object carries a tag, standing for the object identity on which
   Python id() is evaluated. -/

/-- Neo AnalogSignal.  signal_columns is the result of transpose(): the
two-dimensional sample array listed one channel (column) at a time. -/
structure NeoAnalogSignal where
  tag : Nat
  name : String
  description : Option String
  file_origin : String
  annotations : List (String × PyVal)
  units : UnitQ
  sampling_period : Quantity
  t_start : Quantity
  signal_columns : List (List Rat)
deriving DecidableEq, Repr

/-- Neo IrregularlySampledSignal, with explicit sample times. -/
structure NeoIrregularlySampledSignal where
  tag : Nat
  name : String
  description : Option String
  file_origin : String
  annotations : List (String × PyVal)
  units : UnitQ
  times : List Rat
  times_unit : UnitQ
  signal_columns : List (List Rat)
deriving DecidableEq, Repr

/-- Neo Epoch: times with durations and labels. -/
structure NeoEpoch where
  tag : Nat
  name : String
  description : Option String
  file_origin : String
  annotations : List (String × PyVal)
  times : List Rat
  times_unit : UnitQ
  durations : List Rat
  durations_unit : UnitQ
  labels : List String
deriving DecidableEq, Repr

/-- Neo Event: times with labels. -/
structure NeoEvent where
  tag : Nat
  name : String
  description : Option String
  file_origin : String
  annotations : List (String × PyVal)
  times : List Rat
  times_unit : UnitQ
  labels : List String
deriving DecidableEq, Repr

/-- Waveform payload of a spike train: a three-dimensional array
(spike, channel, sample) with its unit. -/
structure NeoWaveforms where
  data : List (List (List Rat))
  wunits : UnitQ
deriving DecidableEq, Repr

/-- Neo SpikeTrain.  t_start and t_stop are always present as quantities
(neo defaults t_start to zero); left_sweep and waveforms are optional. -/
structure NeoSpikeTrain where
  tag : Nat
  name : String
  description : Option String
  file_origin : String
  annotations : List (String × PyVal)
  times : List Rat
  times_unit : UnitQ
  t_start : Quantity
  t_stop : Quantity
  sampling_period : Quantity
  left_sweep : Option Quantity
  waveforms : Option NeoWaveforms
deriving DecidableEq, Repr

/-- Neo Unit.  spiketrains holds the tags (object identities) of the
SpikeTrain objects the unit references; the mapping only ever applies id()
to these references. -/
structure NeoUnit where
  tag : Nat
  name : String
  description : Option String
  file_origin : String
  annotations : List (String × PyVal)
  spiketrains : List Nat
deriving DecidableEq, Repr

/-- Neo RecordingChannelGroup.  analogsignals and irregularlysampledsignals
hold the tags of referenced signal objects; coordinates is present only
when the attribute exists (hasattr test in the source). -/
structure NeoRCG where
  tag : Nat
  name : String
  description : Option String
  file_origin : String
  annotations : List (String × PyVal)
  channel_indexes : List Int
  channel_names : List String
  coordinates : Option (List (List Quantity))
  units : List NeoUnit
  analogsignals : List Nat
  irregularlysampledsignals : List Nat
deriving DecidableEq, Repr

/-- Neo Segment with its five child collections. -/
structure NeoSegment where
  tag : Nat
  name : String
  description : Option String
  rec_datetime : Option Int
  file_datetime : Option Int
  file_origin : String
  annotations : List (String × PyVal)
  analogsignals : List NeoAnalogSignal
  irregularlysampledsignals : List NeoIrregularlySampledSignal
  epochs : List NeoEpoch
  events : List NeoEvent
  spiketrains : List NeoSpikeTrain
deriving DecidableEq, Repr

/-- Neo Block, the root of one mapping call. -/
structure NeoBlock where
  tag : Nat
  name : String
  description : Option String
  rec_datetime : Option Int
  file_datetime : Option Int
  file_origin : String
  annotations : List (String × PyVal)
  segments : List NeoSegment
  recordingchannelgroups : List NeoRCG
deriving DecidableEq, Repr

/- ------------------------------------------------------------------ -/
/- NIX sink object model: an arena store.  Child collections hold arena
   indices, so that the aliasing of the Python bindings (a group holding
   references into the data arrays owned by the block) is preserved. -/

/-- Reference to a NIX entity inside the store (or the file itself). -/
inductive NixRef where
  | file
  | block (i : Nat)
  | group (i : Nat)
  | source (i : Nat)
  | dataArray (i : Nat)
  | multiTag (i : Nat)
deriving DecidableEq, Repr

/-- Dimension descriptor attached to a data array. -/
inductive NDim where
  | sampled (interval : Rat) (dunit : String) (dlabel : String) (offset : Option Rat)
  | range (ticks : List Rat) (dunit : String) (dlabel : String)
  | setDim (dlabels : List String)
deriving DecidableEq, Repr

/-- Numeric payload of a data array (one, two or three dimensional). -/
inductive DAData where
  | one (xs : List Rat)
  | two (xss : List (List Rat))
  | three (x : List (List (List Rat)))
deriving DecidableEq, Repr

/-- Value of a metadata property: a single wrapped value or a tuple. -/
inductive PropVal where
  | single (v : PyVal)
  | tuple (vs : List PyVal)
deriving DecidableEq, Repr

/-- Metadata section.  parent is the arena index of the enclosing section,
or none when the section sits directly under the file root. -/
structure NSection where
  name : String
  type : String
  parent : Option Nat
  props : List (String × PropVal)
deriving DecidableEq, Repr

/-- NIX DataArray. -/
structure NDataArray where
  name : String
  type : String
  data : DAData
  unit : String
  definition : Option String
  dims : List NDim
  metadata : Option Nat
  sources : List Nat
deriving DecidableEq, Repr

/-- NIX MultiTag.  positions and extents are data-array indices; features
lists the data arrays attached as indexed features. -/
structure NMultiTag where
  name : String
  type : String
  positions : Nat
  extents : Option Nat
  definition : Option String
  metadata : Option Nat
  sources : List Nat
  references : List Nat
  features : List Nat
deriving DecidableEq, Repr

/-- NIX Source node; sources lists its child sources. -/
structure NSource where
  name : String
  type : String
  definition : Option String
  metadata : Option Nat
  sources : List Nat
deriving DecidableEq, Repr

/-- NIX Group: holds references to data arrays and multi tags of the block. -/
structure NGroup where
  name : String
  type : String
  definition : Option String
  metadata : Option Nat
  data_arrays : List Nat
  multi_tags : List Nat
  created_at : Option Int
deriving DecidableEq, Repr

/-- NIX Block with its child collections (indices into the store arenas). -/
structure NBlock where
  name : String
  type : String
  definition : Option String
  metadata : Option Nat
  groups : List Nat
  sources : List Nat
  data_arrays : List Nat
  multi_tags : List Nat
  created_at : Option Int
deriving DecidableEq, Repr

/-- The NIX file contents: one arena per entity kind. -/
structure Store where
  blocks : List NBlock
  groups : List NGroup
  sources : List NSource
  data_arrays : List NDataArray
  multi_tags : List NMultiTag
  sections : List NSection
deriving DecidableEq, Repr

/-- The store produced by nix.File.open in Overwrite mode. -/
def emptyStore : Store := ⟨[], [], [], [], [], []⟩

/-- Value recorded in the identity table: a single created object or, for
split signals, the list of created data arrays. -/
inductive MappedVal where
  | single (r : NixRef)
  | multi (rs : List NixRef)
deriving DecidableEq, Repr

/-- Full mapper state: the NIX file plus the id-keyed identity table. -/
structure WState where
  store : Store
  neo_nix_map : List (Nat × MappedVal)
deriving DecidableEq, Repr

/-- State right after constructing the io object: empty file, empty table. -/
def emptyWState : WState := ⟨emptyStore, []⟩

/- ------------------------------------------------------------------ -/
/- Error plumbing and elementary store operations. -/

/-- Sequencing in the error monad: Python statements run in order and any
raised exception aborts the rest of the call. -/
def bindE (e : Except PyErr α) (f : α → Except PyErr β) : Except PyErr β :=
  match e with
  | .error err => .error err
  | .ok a => f a

/-- Arena access; an index outside the arena is a broken reference. -/
def getArena (xs : List α) (i : Nat) : Except PyErr α :=
  match xs[i]? with
  | some x => .ok x
  | none => .error (.pyError ("invalid reference"))

/-- Name attribute of a NIX entity. -/
def Store.nix_name_of (s : Store) (r : NixRef) : Except PyErr String :=
  match r with
  | .file => .error (.pyError ("File object has no attribute name"))
  | .block i => bindE (getArena s.blocks i) fun b => .ok b.name
  | .group i => bindE (getArena s.groups i) fun g => .ok g.name
  | .source i => bindE (getArena s.sources i) fun x => .ok x.name
  | .dataArray i => bindE (getArena s.data_arrays i) fun d => .ok d.name
  | .multiTag i => bindE (getArena s.multi_tags i) fun m => .ok m.name

/-- Type attribute of a NIX entity. -/
def Store.nix_type_of (s : Store) (r : NixRef) : Except PyErr String :=
  match r with
  | .file => .error (.pyError ("File object has no attribute type"))
  | .block i => bindE (getArena s.blocks i) fun b => .ok b.type
  | .group i => bindE (getArena s.groups i) fun g => .ok g.type
  | .source i => bindE (getArena s.sources i) fun x => .ok x.type
  | .dataArray i => bindE (getArena s.data_arrays i) fun d => .ok d.type
  | .multiTag i => bindE (getArena s.multi_tags i) fun m => .ok m.type

/-- Metadata attribute of a NIX entity (none when no section is attached). -/
def Store.metadata_of (s : Store) (r : NixRef) : Except PyErr (Option Nat) :=
  match r with
  | .file => .error (.pyError ("File object has no attribute metadata"))
  | .block i => bindE (getArena s.blocks i) fun b => .ok b.metadata
  | .group i => bindE (getArena s.groups i) fun g => .ok g.metadata
  | .source i => bindE (getArena s.sources i) fun x => .ok x.metadata
  | .dataArray i => bindE (getArena s.data_arrays i) fun d => .ok d.metadata
  | .multiTag i => bindE (getArena s.multi_tags i) fun m => .ok m.metadata

/-- Assignment nix_obj.metadata = section. -/
def Store.set_metadata (s : Store) (r : NixRef) (m : Nat) : Except PyErr Store :=
  match r with
  | .file => .error (.pyError ("File object has no attribute metadata"))
  | .block i => bindE (getArena s.blocks i) fun b =>
      .ok { s with blocks := s.blocks.set i { b with metadata := some m } }
  | .group i => bindE (getArena s.groups i) fun g =>
      .ok { s with groups := s.groups.set i { g with metadata := some m } }
  | .source i => bindE (getArena s.sources i) fun x =>
      .ok { s with sources := s.sources.set i { x with metadata := some m } }
  | .dataArray i => bindE (getArena s.data_arrays i) fun d =>
      .ok { s with data_arrays := s.data_arrays.set i { d with metadata := some m } }
  | .multiTag i => bindE (getArena s.multi_tags i) fun mt =>
      .ok { s with multi_tags := s.multi_tags.set i { mt with metadata := some m } }

/-- Child group indices of an entity (blocks only). -/
def Store.groups_of (s : Store) (r : NixRef) : Except PyErr (List Nat) :=
  match r with
  | .block i => bindE (getArena s.blocks i) fun b => .ok b.groups
  | _ => .error (.pyError ("object has no attribute groups"))

/-- Child source indices of an entity (blocks and sources). -/
def Store.sources_of (s : Store) (r : NixRef) : Except PyErr (List Nat) :=
  match r with
  | .block i => bindE (getArena s.blocks i) fun b => .ok b.sources
  | .source i => bindE (getArena s.sources i) fun x => .ok x.sources
  | _ => .error (.pyError ("object has no attribute sources"))

/-- Data-array indices owned or referenced by an entity (blocks, groups). -/
def Store.data_arrays_of (s : Store) (r : NixRef) : Except PyErr (List Nat) :=
  match r with
  | .block i => bindE (getArena s.blocks i) fun b => .ok b.data_arrays
  | .group i => bindE (getArena s.groups i) fun g => .ok g.data_arrays
  | _ => .error (.pyError ("object has no attribute data_arrays"))

/-- Multi-tag indices owned or referenced by an entity (blocks, groups). -/
def Store.multi_tags_of (s : Store) (r : NixRef) : Except PyErr (List Nat) :=
  match r with
  | .block i => bindE (getArena s.blocks i) fun b => .ok b.multi_tags
  | .group i => bindE (getArena s.groups i) fun g => .ok g.multi_tags
  | _ => .error (.pyError ("object has no attribute multi_tags"))

/-- nix_file.create_block(name, type). -/
def Store.create_block (s : Store) (nm ty : String) : Store × Nat :=
  ({ s with blocks := s.blocks ++ [⟨nm, ty, none, none, [], [], [], [], none⟩] },
   s.blocks.length)

/-- block.create_group(name, type). -/
def Store.create_group_in (s : Store) (r : NixRef) (nm ty : String) :
    Except PyErr (Store × Nat) :=
  match r with
  | .block i => bindE (getArena s.blocks i) fun b =>
      .ok ({ s with groups := s.groups ++ [⟨nm, ty, none, none, [], [], none⟩],
                    blocks := s.blocks.set i { b with groups := b.groups ++ [s.groups.length] } },
           s.groups.length)
  | _ => .error (.pyError ("object has no attribute create_group"))

/-- create_source on a block or on a source (child descriptor). -/
def Store.create_source_in (s : Store) (r : NixRef) (nm ty : String) :
    Except PyErr (Store × Nat) :=
  match r with
  | .block i => bindE (getArena s.blocks i) fun b =>
      .ok ({ s with sources := s.sources ++ [⟨nm, ty, none, none, []⟩],
                    blocks := s.blocks.set i { b with sources := b.sources ++ [s.sources.length] } },
           s.sources.length)
  | .source i => bindE (getArena s.sources i) fun x =>
      .ok ({ s with sources := (s.sources.set i { x with sources := x.sources ++ [s.sources.length] }) ++ [⟨nm, ty, none, none, []⟩] },
           s.sources.length)
  | _ => .error (.pyError ("object has no attribute create_source"))

/-- block.create_data_array(name, type, data). -/
def Store.create_data_array_in (s : Store) (r : NixRef) (nm ty : String) (dat : DAData) :
    Except PyErr (Store × Nat) :=
  match r with
  | .block i => bindE (getArena s.blocks i) fun b =>
      .ok ({ s with data_arrays := s.data_arrays ++ [⟨nm, ty, dat, "", none, [], none, []⟩],
                    blocks := s.blocks.set i { b with data_arrays := b.data_arrays ++ [s.data_arrays.length] } },
           s.data_arrays.length)
  | _ => .error (.pyError ("object has no attribute create_data_array"))

/-- block.create_multi_tag(name, type, positions). -/
def Store.create_multi_tag_in (s : Store) (r : NixRef) (nm ty : String) (pos : Nat) :
    Except PyErr (Store × Nat) :=
  match r with
  | .block i => bindE (getArena s.blocks i) fun b =>
      .ok ({ s with multi_tags := s.multi_tags ++ [⟨nm, ty, pos, none, none, none, [], [], []⟩],
                    blocks := s.blocks.set i { b with multi_tags := b.multi_tags ++ [s.multi_tags.length] } },
           s.multi_tags.length)
  | _ => .error (.pyError ("object has no attribute create_multi_tag"))

/-- create_section under a parent section (some index) or the file root. -/
def Store.create_section (s : Store) (parent : Option Nat) (nm ty : String) :
    Store × Nat :=
  ({ s with sections := s.sections ++ [⟨nm, ty, parent, []⟩] }, s.sections.length)

/-- section.create_property(key, value). -/
def Store.create_property (s : Store) (sec : Nat) (k : String) (v : PropVal) : Store :=
  match s.sections[sec]? with
  | some x => { s with sections := s.sections.set sec { x with props := x.props ++ [(k, v)] } }
  | none => s

/-- Point update of one data array. -/
def Store.modifyDA (s : Store) (i : Nat) (f : NDataArray → NDataArray) : Store :=
  match s.data_arrays[i]? with
  | some x => { s with data_arrays := s.data_arrays.set i (f x) }
  | none => s

/-- Point update of one multi tag. -/
def Store.modifyMT (s : Store) (i : Nat) (f : NMultiTag → NMultiTag) : Store :=
  match s.multi_tags[i]? with
  | some x => { s with multi_tags := s.multi_tags.set i (f x) }
  | none => s

/-- Point update of one source. -/
def Store.modifySrc (s : Store) (i : Nat) (f : NSource → NSource) : Store :=
  match s.sources[i]? with
  | some x => { s with sources := s.sources.set i (f x) }
  | none => s

/-- Point update of one group. -/
def Store.modifyGroup (s : Store) (i : Nat) (f : NGroup → NGroup) : Store :=
  match s.groups[i]? with
  | some x => { s with groups := s.groups.set i (f x) }
  | none => s

/-- Point update of one block. -/
def Store.modifyBlock (s : Store) (i : Nat) (f : NBlock → NBlock) : Store :=
  match s.blocks[i]? with
  | some x => { s with blocks := s.blocks.set i (f x) }
  | none => s

/-- Statement obj.sources.append(src): appends a source descriptor onto the
back-reference list of a data array or multi tag (or onto the child list of
a source). -/
def Store.sources_append (s : Store) (target v : NixRef) : Except PyErr Store :=
  match v with
  | .source j =>
    match target with
    | .multiTag i => bindE (getArena s.multi_tags i) fun m =>
        .ok { s with multi_tags := s.multi_tags.set i { m with sources := m.sources ++ [j] } }
    | .dataArray i => bindE (getArena s.data_arrays i) fun d =>
        .ok { s with data_arrays := s.data_arrays.set i { d with sources := d.sources ++ [j] } }
    | .source i => bindE (getArena s.sources i) fun x =>
        .ok { s with sources := s.sources.set i { x with sources := x.sources ++ [j] } }
    | _ => .error (.pyError ("object has no attribute sources"))
  | _ => .error (.pyError ("sources accepts Source objects only"))

/-- Statement group.data_arrays.append(da). -/
def Store.group_append_data_array (s : Store) (r : NixRef) (da : Nat) :
    Except PyErr Store :=
  match r with
  | .group i => bindE (getArena s.groups i) fun g =>
      .ok { s with groups := s.groups.set i { g with data_arrays := g.data_arrays ++ [da] } }
  | _ => .error (.pyError ("cannot append to data_arrays here"))

/-- Statement group.multi_tags.append(mt). -/
def Store.group_append_multi_tag (s : Store) (r : NixRef) (mt : Nat) :
    Except PyErr Store :=
  match r with
  | .group i => bindE (getArena s.groups i) fun g =>
      .ok { s with groups := s.groups.set i { g with multi_tags := g.multi_tags ++ [mt] } }
  | _ => .error (.pyError ("cannot append to multi_tags here"))

/- ------------------------------------------------------------------ -/
/- Path tracker: _get_object_at replays a list of (kind, name) steps. -/

/-- Location of an object: (kind tag, name) steps from the file root. -/
abbrev Path := List (String × String)

/-- Name-indexed lookup inside one child collection. -/
def findByName (get_name : α → String) (arena : List α) (idxs : List Nat) (nm : String) :
    Option Nat :=
  idxs.find? fun i =>
    match arena[i]? with
    | some o => get_name o == nm
    | none => false

/-- One step of path resolution: dispatch on the kind tag, then look the
name up in the matching child collection of the current object.  The none
result models the source returning None on an unrecognized kind tag. -/
def childLookup (s : Store) (cur : NixRef) (kind nm : String) :
    Except PyErr (Option NixRef) :=
  if kind == "block" then
    match cur with
    | .file =>
      match findByName NBlock.name s.blocks (List.range s.blocks.length) nm with
      | some i => .ok (some (.block i))
      | none => .error (.keyError ("no block with that name"))
    | _ => .error (.pyError ("object has no attribute blocks"))
  else if kind == "group" then
    match cur with
    | .block i => bindE (getArena s.blocks i) fun b =>
        match findByName NGroup.name s.groups b.groups nm with
        | some j => .ok (some (.group j))
        | none => .error (.keyError ("no group with that name"))
    | _ => .error (.pyError ("object has no attribute groups"))
  else if kind == "source" then
    match cur with
    | .block i => bindE (getArena s.blocks i) fun b =>
        match findByName NSource.name s.sources b.sources nm with
        | some j => .ok (some (.source j))
        | none => .error (.keyError ("no source with that name"))
    | .source i => bindE (getArena s.sources i) fun x =>
        match findByName NSource.name s.sources x.sources nm with
        | some j => .ok (some (.source j))
        | none => .error (.keyError ("no source with that name"))
    | _ => .error (.pyError ("object has no attribute sources"))
  else if kind == "data_array" then
    match cur with
    | .block i => bindE (getArena s.blocks i) fun b =>
        match findByName NDataArray.name s.data_arrays b.data_arrays nm with
        | some j => .ok (some (.dataArray j))
        | none => .error (.keyError ("no data array with that name"))
    | .group i => bindE (getArena s.groups i) fun g =>
        match findByName NDataArray.name s.data_arrays g.data_arrays nm with
        | some j => .ok (some (.dataArray j))
        | none => .error (.keyError ("no data array with that name"))
    | _ => .error (.pyError ("object has no attribute data_arrays"))
  else if kind == "tag" then
    match cur with
    | .block _ => .error (.keyError ("no tag with that name"))
    | .group _ => .error (.keyError ("no tag with that name"))
    | _ => .error (.pyError ("object has no attribute tags"))
  else if kind == "multi_tag" then
    match cur with
    | .block i => bindE (getArena s.blocks i) fun b =>
        match findByName NMultiTag.name s.multi_tags b.multi_tags nm with
        | some j => .ok (some (.multiTag j))
        | none => .error (.keyError ("no multi tag with that name"))
    | .group i => bindE (getArena s.groups i) fun g =>
        match findByName NMultiTag.name s.multi_tags g.multi_tags nm with
        | some j => .ok (some (.multiTag j))
        | none => .error (.keyError ("no multi tag with that name"))
    | _ => .error (.pyError ("object has no attribute multi_tags"))
  else if kind == "feature" then
    match cur with
    | .multiTag i => bindE (getArena s.multi_tags i) fun m =>
        match findByName NDataArray.name s.data_arrays m.features nm with
        | some j => .ok (some (.dataArray j))
        | none => .error (.keyError ("no feature with that name"))
    | _ => .error (.pyError ("object has no attribute features"))
  else
    .ok none

/-- Path replay starting from a given object. -/
def _get_object_at_from (s : Store) : NixRef → Path → Except PyErr (Option NixRef)
  | cur, [] => .ok (some cur)
  | cur, (k, nm) :: rest =>
    bindE (childLookup s cur k nm) fun r =>
      match r with
      | none => .ok none
      | some nxt => _get_object_at_from s nxt rest

/-- Method _get_object_at: replay the path from the file root. -/
def _get_object_at (s : Store) (path : Path) : Except PyErr (Option NixRef) :=
  _get_object_at_from s .file path

/-- Body of _get_or_init_metadata with the recursive call abstracted as a
continuation, so that the fuel recursion below stays kernel-computable. -/
def _get_or_init_metadata_body
    (recurse : Store → NixRef → Path → Except PyErr (Store × Nat))
    (s : Store) (nix_obj : NixRef) (obj_path : Path) :
    Except PyErr (Store × Nat) :=
  bindE (s.metadata_of nix_obj) fun md =>
  match md with
  | some m => .ok (s, m)
  | none =>
    if obj_path.length ≤ 1 then
      bindE (s.nix_name_of nix_obj) fun nm =>
      bindE (s.nix_type_of nix_obj) fun ty =>
      let p := s.create_section none nm (ty ++ ".metadata")
      bindE (p.1.set_metadata nix_obj p.2) fun s2 =>
      .ok (s2, p.2)
    else
      bindE (_get_object_at s obj_path.dropLast) fun pobj =>
      match pobj with
      | none => .error (.pyError ("NoneType object has no attribute metadata"))
      | some parentObj =>
        bindE (recurse s parentObj obj_path.dropLast) fun r =>
        bindE (r.1.nix_name_of nix_obj) fun nm =>
        bindE (r.1.nix_type_of nix_obj) fun ty =>
        let p := r.1.create_section (some r.2) nm (ty ++ ".metadata")
        bindE (p.1.set_metadata nix_obj p.2) fun s2 =>
        .ok (s2, p.2)

/-- Recursion worker for _get_or_init_metadata.  The fuel argument bounds
the recursion depth: the recursion of the source shortens the path by one
step per call, so running the worker at fuel equal to the path length
replays the source recursion exactly and the fuel-exhaustion continuation
is unreachable. -/
def _get_or_init_metadata_go : Nat → Store → NixRef → Path →
    Except PyErr (Store × Nat)
  | 0 => _get_or_init_metadata_body fun _ _ _ =>
      .error (.pyError ("maximum recursion depth exceeded"))
  | fuel + 1 => _get_or_init_metadata_body (_get_or_init_metadata_go fuel)

/-- Method _get_or_init_metadata: return the metadata section attached to
the object, creating it first when absent — under the file root for paths
of length at most one, else under the recursively ensured metadata of the
object located at the path without its last step. -/
def _get_or_init_metadata (s : Store) (nix_obj : NixRef) (obj_path : Path) :
    Except PyErr (Store × Nat) :=
  _get_or_init_metadata_go obj_path.length s nix_obj obj_path

/- ------------------------------------------------------------------ -/
/- Identity table (neo_nix_map) and annotation helpers. -/

/-- Dictionary entry assignment neo_nix_map[id(obj)] = value. -/
def mapInsert (m : List (Nat × MappedVal)) (k : Nat) (v : MappedVal) :
    List (Nat × MappedVal) :=
  (k, v) :: m

/-- Dictionary lookup neo_nix_map[id(obj)]. -/
def mapLookup (m : List (Nat × MappedVal)) (k : Nat) : Option MappedVal :=
  match m with
  | [] => none
  | (k2, v) :: rest => if k2 = k then some v else mapLookup rest k

/-- Diagnostic text raised on an unresolved cross reference. -/
def unresolved_ref_msg : String :=
  "Attempting to get reference to NIX equivalent object before writing. This can occur if a signal or spiketrain object is referenced only by a RecordingChannelGroup or Unit and is not part of a Segment."

/-- Method _get_mapped_object: identity-table lookup, raising a KeyError
with diagnostic guidance on a missing entry. -/
def _get_mapped_object (m : List (Nat × MappedVal)) (k : Nat) :
    Except PyErr MappedVal :=
  match mapLookup m k with
  | some v => .ok v
  | none => .error (.keyError unresolved_ref_msg)

/-- Method _get_mapped_objects: list-comprehension of lookups. -/
def _get_mapped_objects (m : List (Nat × MappedVal)) (ks : List Nat) :
    Except PyErr (List MappedVal) :=
  match ks with
  | [] => .ok []
  | k :: rest =>
    bindE (_get_mapped_object m k) fun v =>
    bindE (_get_mapped_objects m rest) fun vs =>
    .ok (v :: vs)

/-- Static method _add_annotations: one property per annotation entry. -/
def _add_annotations (s : Store) (ann : List (String × PyVal)) (md : Nat) : Store :=
  match ann with
  | [] => s
  | (k, v) :: rest => _add_annotations (s.create_property md k (.single v)) rest md

/-- Method _copy_annotations: when the object has annotations, ensure its
metadata section and add them all. -/
def _copy_annotations (s : Store) (ann : List (String × PyVal)) (nix_obj : NixRef)
    (object_path : Path) : Except PyErr Store :=
  if ann.isEmpty then .ok s
  else
    bindE (_get_or_init_metadata s nix_obj object_path) fun r =>
    .ok (_add_annotations r.1 ann r.2)

/-- Static method _get_contained_signals: the data arrays of the object
whose type tag marks them as converted signals. -/
def _get_contained_signals (s : Store) (r : NixRef) : Except PyErr (List Nat) :=
  bindE (s.data_arrays_of r) fun das =>
  .ok (das.filter fun i =>
    match s.data_arrays[i]? with
    | some da => ["neo.analogsignal", "neo.irregularlysampledsignal"].contains da.type
    | none => false)

/- ------------------------------------------------------------------ -/
/- Conversion routines.  Every routine takes the ambient id assignment
   aid (what Python id() returns on an object tag), the Neo object, the
   parent path and the mapper state, and returns the new state together
   with the created NIX object(s). -/

/-- Use of a resolved path target as an object: resolving to None and then
touching an attribute raises. -/
def asObj (r : Option NixRef) : Except PyErr NixRef :=
  match r with
  | some x => .ok x
  | none => .error (.pyError ("NoneType object has no attribute"))

/-- Expression [parent_path[0]]: indexing an empty path raises. -/
def head_path (p : Path) : Except PyErr Path :=
  match p with
  | [] => .error (.pyError ("list index out of range"))
  | x :: _ => .ok [x]

/-- Per-channel loop of write_analogsignal: one data array per column,
each carrying a sampled time dimension and a set dimension, appended to
the parent group and pointed at the shared metadata section. -/
def write_analogsignal_loop (s : Store) (parent_block parent_group : NixRef)
    (nix_name nix_type : String) (nix_definition : Option String)
    (data_units : String) (time_units : UnitQ) (offset sampling_interval : Rat)
    (sec : Nat) (idx : Nat) (cols : List (List Rat)) (acc : List NixRef) :
    Except PyErr (Store × List NixRef) :=
  match cols with
  | [] => .ok (s, acc)
  | sig :: rest =>
    bindE (s.create_data_array_in parent_block (nix_name ++ "." ++ toString idx)
           nix_type (.one sig)) fun p =>
    let s1 := p.1.modifyDA p.2 fun da => { da with definition := nix_definition }
    let s2 := s1.modifyDA p.2 fun da => { da with unit := data_units }
    let s3 := s2.modifyDA p.2 fun da =>
      { da with dims := da.dims ++ [.sampled sampling_interval time_units.uname ("time") (some offset)] }
    let s4 := s3.modifyDA p.2 fun da => { da with dims := da.dims ++ [.setDim []] }
    bindE (s4.group_append_data_array parent_group p.2) fun s5 =>
    let s6 := s5.modifyDA p.2 fun da => { da with metadata := some sec }
    write_analogsignal_loop s6 parent_block parent_group nix_name nix_type
      nix_definition data_units time_units offset sampling_interval sec
      (idx + 1) rest (acc ++ [.dataArray p.2])

/-- Method write_analogsignal. -/
def write_analogsignal (aid : Nat → Nat) (anasig : NeoAnalogSignal)
    (parent_path : Path) (w : WState) : Except PyErr (WState × List NixRef) :=
  bindE (_get_object_at w.store parent_path) fun pg =>
  bindE (asObj pg) fun parent_group =>
  bindE (head_path parent_path) fun hp =>
  bindE (_get_object_at w.store hp) fun pb =>
  bindE (asObj pb) fun parent_block =>
  bindE (if anasig.name = "" then
      bindE (w.store.data_arrays_of parent_block) fun das =>
      bindE (w.store.nix_name_of parent_block) fun bn =>
      .ok (bn ++ ".AnalogSignal" ++ toString das.length)
    else .ok anasig.name) fun nix_name =>
  let nix_type := "neo.analogsignal"
  let nix_definition := anasig.description
  bindE (_get_or_init_metadata w.store parent_group parent_path) fun pm =>
  let ps := pm.1.create_section (some pm.2) nix_name (nix_type ++ ".metadata")
  let s2 := if anasig.file_origin = "" then ps.1
    else ps.1.create_property ps.2 ("file_origin") (.single (.str anasig.file_origin))
  let s3 := if anasig.annotations.isEmpty then s2
    else _add_annotations s2 anasig.annotations ps.2
  let data_units := anasig.units.uname
  let time_units := anasig.sampling_period.qunit.simplifiedU
  let offset := (anasig.t_start.rescale time_units).mag
  let sampling_interval := (anasig.sampling_period.rescale time_units).mag
  bindE (write_analogsignal_loop s3 parent_block parent_group nix_name nix_type
         nix_definition data_units time_units offset sampling_interval ps.2
         0 anasig.signal_columns []) fun res =>
  .ok (⟨res.1, mapInsert w.neo_nix_map (aid anasig.tag) (.multi res.2)⟩, res.2)

/-- Per-channel loop of write_irregularlysampledsignal: one data array per
column with a range time dimension and a set dimension. -/
def write_irregularlysampledsignal_loop (s : Store)
    (parent_block parent_group : NixRef) (nix_name nix_type : String)
    (nix_definition : Option String) (data_units time_units : String)
    (times : List Rat) (sec : Nat) (idx : Nat) (cols : List (List Rat))
    (acc : List NixRef) : Except PyErr (Store × List NixRef) :=
  match cols with
  | [] => .ok (s, acc)
  | sig :: rest =>
    bindE (s.create_data_array_in parent_block (nix_name ++ "." ++ toString idx)
           nix_type (.one sig)) fun p =>
    let s1 := p.1.modifyDA p.2 fun da => { da with definition := nix_definition }
    let s2 := s1.modifyDA p.2 fun da => { da with unit := data_units }
    let s3 := s2.modifyDA p.2 fun da =>
      { da with dims := da.dims ++ [.range times time_units ("time")] }
    let s4 := s3.modifyDA p.2 fun da => { da with dims := da.dims ++ [.setDim []] }
    bindE (s4.group_append_data_array parent_group p.2) fun s5 =>
    let s6 := s5.modifyDA p.2 fun da => { da with metadata := some sec }
    write_irregularlysampledsignal_loop s6 parent_block parent_group nix_name
      nix_type nix_definition data_units time_units times sec (idx + 1) rest
      (acc ++ [.dataArray p.2])

/-- Method write_irregularlysampledsignal. -/
def write_irregularlysampledsignal (aid : Nat → Nat)
    (irsig : NeoIrregularlySampledSignal) (parent_path : Path) (w : WState) :
    Except PyErr (WState × List NixRef) :=
  bindE (_get_object_at w.store parent_path) fun pg =>
  bindE (asObj pg) fun parent_group =>
  bindE (head_path parent_path) fun hp =>
  bindE (_get_object_at w.store hp) fun pb =>
  bindE (asObj pb) fun parent_block =>
  bindE (if irsig.name = "" then
      bindE (w.store.data_arrays_of parent_block) fun das =>
      bindE (w.store.nix_name_of parent_block) fun bn =>
      .ok (bn ++ ".IrregularlySampledSignal" ++ toString das.length)
    else .ok irsig.name) fun nix_name =>
  let nix_type := "neo.irregularlysampledsignal"
  let nix_definition := irsig.description
  bindE (_get_or_init_metadata w.store parent_group parent_path) fun pm =>
  let ps := pm.1.create_section (some pm.2) nix_name (nix_type ++ ".metadata")
  let s2 := if irsig.file_origin = "" then ps.1
    else ps.1.create_property ps.2 ("file_origin") (.single (.str irsig.file_origin))
  let s3 := if irsig.annotations.isEmpty then s2
    else _add_annotations s2 irsig.annotations ps.2
  let data_units := irsig.units.uname
  let time_units := irsig.times_unit.uname
  let times := irsig.times
  bindE (write_irregularlysampledsignal_loop s3 parent_block parent_group
         nix_name nix_type nix_definition data_units time_units times ps.2
         0 irsig.signal_columns []) fun res =>
  .ok (⟨res.1, mapInsert w.neo_nix_map (aid irsig.tag) (.multi res.2)⟩, res.2)

/-- Method write_epoch. -/
def write_epoch (aid : Nat → Nat) (ep : NeoEpoch) (parent_path : Path)
    (w : WState) : Except PyErr (WState × NixRef) :=
  bindE (_get_object_at w.store parent_path) fun pg =>
  bindE (asObj pg) fun parent_group =>
  bindE (head_path parent_path) fun hp =>
  bindE (_get_object_at w.store hp) fun pb =>
  bindE (asObj pb) fun parent_block =>
  bindE (if ep.name = "" then
      bindE (w.store.multi_tags_of parent_group) fun mts =>
      bindE (w.store.nix_name_of parent_group) fun gn =>
      .ok (gn ++ ".Epoch" ++ toString mts.length)
    else .ok ep.name) fun nix_name =>
  let nix_type := "neo.epoch"
  let nix_definition := ep.description
  let times := ep.times
  let time_units := ep.times_unit.uname
  bindE (w.store.create_data_array_in parent_block (nix_name ++ ".times")
         ("neo.epoch.times") (.one times)) fun ptd =>
  let s1 := ptd.1.modifyDA ptd.2 fun da => { da with unit := time_units }
  let durations := ep.durations
  let duration_units := ep.durations_unit.uname
  bindE (s1.create_data_array_in parent_block (nix_name ++ ".durations")
         ("neo.epoch.durations") (.one durations)) fun pdd =>
  let s2 := pdd.1.modifyDA pdd.2 fun da => { da with unit := duration_units }
  bindE (s2.create_multi_tag_in parent_block nix_name nix_type ptd.2) fun pmt =>
  let s3 := pmt.1.modifyDA ptd.2 fun da => { da with dims := da.dims ++ [.setDim ep.labels] }
  let s4 := s3.modifyMT pmt.2 fun m => { m with extents := some pdd.2 }
  bindE (s4.group_append_multi_tag parent_group pmt.2) fun s5 =>
  let s6 := s5.modifyMT pmt.2 fun m => { m with definition := nix_definition }
  let object_path := parent_path ++ [("multi_tag", nix_name)]
  let map1 := mapInsert w.neo_nix_map (aid ep.tag) (.single (.multiTag pmt.2))
  bindE (if ep.file_origin = "" then .ok s6 else
      bindE (_get_or_init_metadata s6 (.multiTag pmt.2) object_path) fun r =>
      .ok (r.1.create_property r.2 ("file_origin") (.single (.str ep.file_origin)))) fun s7 =>
  bindE (_copy_annotations s7 ep.annotations (.multiTag pmt.2) object_path) fun s8 =>
  bindE (_get_contained_signals s8 parent_group) fun contained =>
  let s9 := s8.modifyMT pmt.2 fun m => { m with references := m.references ++ contained }
  .ok (⟨s9, map1⟩, .multiTag pmt.2)

/-- Method write_event. -/
def write_event (aid : Nat → Nat) (ev : NeoEvent) (parent_path : Path)
    (w : WState) : Except PyErr (WState × NixRef) :=
  bindE (_get_object_at w.store parent_path) fun pg =>
  bindE (asObj pg) fun parent_group =>
  bindE (head_path parent_path) fun hp =>
  bindE (_get_object_at w.store hp) fun pb =>
  bindE (asObj pb) fun parent_block =>
  bindE (if ev.name = "" then
      bindE (w.store.multi_tags_of parent_group) fun mts =>
      bindE (w.store.nix_name_of parent_group) fun gn =>
      .ok (gn ++ ".Event" ++ toString mts.length)
    else .ok ev.name) fun nix_name =>
  let nix_type := "neo.event"
  let nix_definition := ev.description
  let times := ev.times
  let time_units := ev.times_unit.uname
  bindE (w.store.create_data_array_in parent_block (nix_name ++ ".times")
         ("neo.event.times") (.one times)) fun ptd =>
  let s1 := ptd.1.modifyDA ptd.2 fun da => { da with unit := time_units }
  bindE (s1.create_multi_tag_in parent_block nix_name nix_type ptd.2) fun pmt =>
  let s2 := pmt.1.modifyDA ptd.2 fun da => { da with dims := da.dims ++ [.setDim ev.labels] }
  bindE (s2.group_append_multi_tag parent_group pmt.2) fun s3 =>
  let s4 := s3.modifyMT pmt.2 fun m => { m with definition := nix_definition }
  let object_path := parent_path ++ [("multi_tag", nix_name)]
  let map1 := mapInsert w.neo_nix_map (aid ev.tag) (.single (.multiTag pmt.2))
  bindE (if ev.file_origin = "" then .ok s4 else
      bindE (_get_or_init_metadata s4 (.multiTag pmt.2) object_path) fun r =>
      .ok (r.1.create_property r.2 ("file_origin") (.single (.str ev.file_origin)))) fun s5 =>
  bindE (_copy_annotations s5 ev.annotations (.multiTag pmt.2) object_path) fun s6 =>
  bindE (_get_contained_signals s6 parent_group) fun contained =>
  let s7 := s6.modifyMT pmt.2 fun m => { m with references := m.references ++ contained }
  .ok (⟨s7, map1⟩, .multiTag pmt.2)

/-- Method write_spiketrain. -/
def write_spiketrain (aid : Nat → Nat) (sptr : NeoSpikeTrain)
    (parent_path : Path) (w : WState) : Except PyErr (WState × NixRef) :=
  bindE (_get_object_at w.store parent_path) fun po =>
  bindE (asObj po) fun parent_obj =>
  bindE (head_path parent_path) fun hp =>
  bindE (_get_object_at w.store hp) fun pb =>
  bindE (asObj pb) fun parent_block =>
  bindE (if sptr.name = "" then
      bindE (w.store.multi_tags_of parent_block) fun mts =>
      bindE (w.store.nix_name_of parent_block) fun bn =>
      .ok (bn ++ ".SpikeTrain" ++ toString mts.length)
    else .ok sptr.name) fun nix_name =>
  let nix_type := "neo.spiketrain"
  let nix_definition := sptr.description
  let time_units := sptr.times_unit
  let times := sptr.times
  bindE (w.store.create_data_array_in parent_block (nix_name ++ ".times")
         ("neo.epoch.times") (.one times)) fun pda =>
  let s1 := pda.1.modifyDA pda.2 fun da => { da with unit := time_units.uname }
  bindE (s1.create_multi_tag_in parent_block nix_name nix_type pda.2) fun pmt =>
  bindE (match parent_obj with
    | .group _ => pmt.1.group_append_multi_tag parent_obj pmt.2
    | .source i => .ok (pmt.1.modifyMT pmt.2 fun m => { m with sources := m.sources ++ [i] })
    | _ => .ok pmt.1) fun s2 =>
  let s3 := s2.modifyMT pmt.2 fun m => { m with definition := nix_definition }
  let object_path := parent_path ++ [("multi_tag", nix_name)]
  let map1 := mapInsert w.neo_nix_map (aid sptr.tag) (.single (.multiTag pmt.2))
  bindE (_get_or_init_metadata s3 (.multiTag pmt.2) object_path) fun rmd =>
  bindE (_copy_annotations rmd.1 sptr.annotations (.multiTag pmt.2) object_path) fun s4 =>
  let s5 := if sptr.file_origin = "" then s4
    else s4.create_property rmd.2 ("file_origin") (.single (.str sptr.file_origin))
  let s6 := if sptr.t_start.mag = 0 then s5
    else s5.create_property rmd.2 ("t_start")
      (.single (.rat ((sptr.t_start.rescale time_units).mag)))
  let s7 := s6.create_property rmd.2 ("t_stop")
    (.single (.rat ((sptr.t_stop.rescale time_units).mag)))
  bindE (match sptr.waveforms with
    | none => .ok s7
    | some wfs =>
      let wf_name := nix_name ++ ".waveforms"
      bindE (s7.create_data_array_in parent_block wf_name ("neo.waveforms")
             (.three wfs.data)) fun pwf =>
      let sa := pwf.1.modifyDA pwf.2 fun da => { da with unit := wfs.wunits.uname }
      let sb := sa.modifyMT pmt.2 fun m => { m with features := m.features ++ [pwf.2] }
      let time_units2 := sptr.sampling_period.qunit.simplifiedU
      let sampling_interval := (sptr.sampling_period.rescale time_units2).mag
      let sc := sb.modifyDA pwf.2 fun da => { da with dims := da.dims ++ [.setDim []] }
      let sd := sc.modifyDA pwf.2 fun da => { da with dims := da.dims ++ [.setDim []] }
      let se := sd.modifyDA pwf.2 fun da =>
        { da with dims := da.dims ++ [.sampled sampling_interval time_units2.uname ("time") none] }
      let wf_path := object_path ++ [("data_array", wf_name)]
      bindE (_get_or_init_metadata se (.dataArray pwf.2) wf_path) fun rwf =>
      bindE (rwf.1.set_metadata (.dataArray pwf.2) rwf.2) fun sf =>
      (match sptr.left_sweep with
        | some ls =>
          if ls.mag = 0 then .ok sf
          else .ok (sf.create_property rwf.2 ("left_sweep")
                 (.single (.rat ((ls.rescale time_units2).mag))))
        | none => .ok sf)) fun s8 =>
  .ok (⟨s8, map1⟩, .multiTag pmt.2)

/-- Back-reference loop of write_unit: every mapped spike train gets the
parent channel-group descriptor and the unit descriptor appended. -/
def write_unit_backrefs (s : Store) (parent_source nix_source : NixRef)
    (vals : List MappedVal) : Except PyErr Store :=
  match vals with
  | [] => .ok s
  | .multi _ :: _ => .error (.pyError ("list object has no attribute sources"))
  | .single r :: rest =>
    bindE (s.sources_append r parent_source) fun s1 =>
    bindE (s1.sources_append r nix_source) fun s2 =>
    write_unit_backrefs s2 parent_source nix_source rest

/-- Method write_unit. -/
def write_unit (aid : Nat → Nat) (ut : NeoUnit) (parent_path : Path)
    (w : WState) : Except PyErr (WState × NixRef) :=
  bindE (_get_object_at w.store parent_path) fun ps =>
  bindE (asObj ps) fun parent_source =>
  bindE (if ut.name = "" then
      bindE (w.store.sources_of parent_source) fun srcs =>
      bindE (w.store.nix_name_of parent_source) fun pn =>
      .ok (pn ++ ".Unit" ++ toString srcs.length)
    else .ok ut.name) fun nix_name =>
  let nix_type := "neo.unit"
  let nix_definition := ut.description
  bindE (w.store.create_source_in parent_source nix_name nix_type) fun p =>
  let s1 := p.1.modifySrc p.2 fun x => { x with definition := nix_definition }
  let object_path := parent_path ++ [("source", nix_name)]
  let map1 := mapInsert w.neo_nix_map (aid ut.tag) (.single (.source p.2))
  bindE (_copy_annotations s1 ut.annotations (.source p.2) object_path) fun s2 =>
  bindE (if ut.file_origin = "" then .ok s2 else
      bindE (_get_or_init_metadata s2 (.source p.2) object_path) fun r =>
      .ok (r.1.create_property r.2 ("file_origin") (.single (.str ut.file_origin)))) fun s3 =>
  bindE (_get_mapped_objects map1 (ut.spiketrains.map aid)) fun vals =>
  bindE (write_unit_backrefs s3 parent_source (.source p.2) vals) fun s4 =>
  .ok (⟨s4, map1⟩, .source p.2)

/-- Channel loop of write_recordingchannelgroup: one child descriptor per
channel index, with optional file origin and coordinates metadata. -/
def write_rcg_channels (s : Store) (rcg : NeoRCG) (nix_source : NixRef)
    (nix_name : String) (nix_definition : Option String) (object_path : Path)
    (idx : Nat) (channels : List Int) : Except PyErr Store :=
  match channels with
  | [] => .ok s
  | _c :: rest =>
    bindE (if rcg.channel_names.length ≠ 0 then
        (match rcg.channel_names[idx]? with
         | some nm => .ok nm
         | none => .error (.pyError ("list index out of range")))
      else .ok (nix_name ++ "." ++ toString idx)) fun nix_chan_name =>
    let nix_chan_type := "neo.recordingchannel"
    bindE (s.create_source_in nix_source nix_chan_name nix_chan_type) fun p =>
    let s1 := p.1.modifySrc p.2 fun x => { x with definition := nix_definition }
    let chan_obj_path := object_path ++ [("source", nix_chan_name)]
    bindE (if rcg.file_origin = "" then .ok s1 else
        bindE (_get_or_init_metadata s1 (.source p.2) chan_obj_path) fun r =>
        .ok (r.1.create_property r.2 ("file_origin") (.single (.str rcg.file_origin)))) fun s2 =>
    bindE (match rcg.coordinates with
      | none => .ok s2
      | some coords =>
        (match coords[idx]? with
         | some chan_coords =>
           bindE (_get_or_init_metadata s2 (.source p.2) chan_obj_path) fun r =>
           let vals := chan_coords.map fun c => PyVal.rat c.mag
           let us := chan_coords.map fun c => PyVal.str c.qunit.uname
           let sa := r.1.create_property r.2 ("coordinates") (.tuple vals)
           .ok (sa.create_property r.2 ("coordinates.units") (.tuple us))
         | none => .error (.pyError ("list index out of range")))) fun s3 =>
    write_rcg_channels s3 rcg nix_source nix_name nix_definition object_path
      (idx + 1) rest

/-- Loop for unit in rcg.units. -/
def write_unit_list (aid : Nat → Nat) (us : List NeoUnit) (object_path : Path)
    (w : WState) : Except PyErr WState :=
  match us with
  | [] => .ok w
  | u :: rest =>
    bindE (write_unit aid u object_path w) fun r =>
    write_unit_list aid rest object_path r.1

/-- Inner loop of the signal back-reference pass: one signal maps to a list
of data arrays, each of which gets the group descriptor appended. -/
def rcg_da_append (s : Store) (nix_source : NixRef) (rs : List NixRef) :
    Except PyErr Store :=
  match rs with
  | [] => .ok s
  | r :: rest =>
    bindE (s.sources_append r nix_source) fun s1 =>
    rcg_da_append s1 nix_source rest

/-- Signal back-reference pass of write_recordingchannelgroup. -/
def rcg_signal_backrefs (s : Store) (nix_source : NixRef)
    (vals : List MappedVal) : Except PyErr Store :=
  match vals with
  | [] => .ok s
  | .single _ :: _ => .error (.pyError ("object is not iterable"))
  | .multi rs :: rest =>
    bindE (rcg_da_append s nix_source rs) fun s1 =>
    rcg_signal_backrefs s1 nix_source rest

/-- Method write_recordingchannelgroup. -/
def write_recordingchannelgroup (aid : Nat → Nat) (rcg : NeoRCG)
    (parent_path : Path) (w : WState) : Except PyErr (WState × NixRef) :=
  bindE (_get_object_at w.store parent_path) fun pb =>
  bindE (asObj pb) fun parent_block =>
  bindE (if rcg.name = "" then
      bindE (w.store.sources_of parent_block) fun srcs =>
      bindE (w.store.nix_name_of parent_block) fun bn =>
      .ok (bn ++ ".RecordingChannelGroup" ++ toString srcs.length)
    else .ok rcg.name) fun nix_name =>
  let nix_type := "neo.recordingchannelgroup"
  let nix_definition := rcg.description
  bindE (w.store.create_source_in parent_block nix_name nix_type) fun p =>
  let s1 := p.1.modifySrc p.2 fun x => { x with definition := nix_definition }
  let object_path := parent_path ++ [("source", nix_name)]
  let map1 := mapInsert w.neo_nix_map (aid rcg.tag) (.single (.source p.2))
  bindE (if rcg.file_origin = "" then .ok s1 else
      bindE (_get_or_init_metadata s1 (.source p.2) object_path) fun r =>
      .ok (r.1.create_property r.2 ("file_origin") (.single (.str rcg.file_origin)))) fun s2 =>
  bindE (_copy_annotations s2 rcg.annotations (.source p.2) object_path) fun s3 =>
  bindE (write_rcg_channels s3 rcg (.source p.2) nix_name nix_definition
         object_path 0 rcg.channel_indexes) fun s4 =>
  bindE (write_unit_list aid rcg.units object_path ⟨s4, map1⟩) fun w2 =>
  bindE (_get_mapped_objects w2.neo_nix_map (rcg.analogsignals.map aid)) fun avals =>
  bindE (rcg_signal_backrefs w2.store (.source p.2) avals) fun s5 =>
  bindE (_get_mapped_objects w2.neo_nix_map (rcg.irregularlysampledsignals.map aid)) fun ivals =>
  bindE (rcg_signal_backrefs s5 (.source p.2) ivals) fun s6 =>
  .ok (⟨s6, w2.neo_nix_map⟩, .source p.2)

/-- Loop for anasig in segment.analogsignals. -/
def write_analogsignal_list (aid : Nat → Nat) (xs : List NeoAnalogSignal)
    (object_path : Path) (w : WState) : Except PyErr WState :=
  match xs with
  | [] => .ok w
  | x :: rest =>
    bindE (write_analogsignal aid x object_path w) fun r =>
    write_analogsignal_list aid rest object_path r.1

/-- Loop for irsig in segment.irregularlysampledsignals. -/
def write_irregularlysampledsignal_list (aid : Nat → Nat)
    (xs : List NeoIrregularlySampledSignal) (object_path : Path) (w : WState) :
    Except PyErr WState :=
  match xs with
  | [] => .ok w
  | x :: rest =>
    bindE (write_irregularlysampledsignal aid x object_path w) fun r =>
    write_irregularlysampledsignal_list aid rest object_path r.1

/-- Loop for ep in segment.epochs. -/
def write_epoch_list (aid : Nat → Nat) (xs : List NeoEpoch)
    (object_path : Path) (w : WState) : Except PyErr WState :=
  match xs with
  | [] => .ok w
  | x :: rest =>
    bindE (write_epoch aid x object_path w) fun r =>
    write_epoch_list aid rest object_path r.1

/-- Loop for ev in segment.events. -/
def write_event_list (aid : Nat → Nat) (xs : List NeoEvent)
    (object_path : Path) (w : WState) : Except PyErr WState :=
  match xs with
  | [] => .ok w
  | x :: rest =>
    bindE (write_event aid x object_path w) fun r =>
    write_event_list aid rest object_path r.1

/-- Loop for sptr in segment.spiketrains. -/
def write_spiketrain_list (aid : Nat → Nat) (xs : List NeoSpikeTrain)
    (object_path : Path) (w : WState) : Except PyErr WState :=
  match xs with
  | [] => .ok w
  | x :: rest =>
    bindE (write_spiketrain aid x object_path w) fun r =>
    write_spiketrain_list aid rest object_path r.1

/-- Method write_segment. -/
def write_segment (aid : Nat → Nat) (segment : NeoSegment) (parent_path : Path)
    (w : WState) : Except PyErr (WState × NixRef) :=
  bindE (_get_object_at w.store parent_path) fun pb =>
  bindE (asObj pb) fun parent_block =>
  bindE (if segment.name = "" then
      bindE (w.store.groups_of parent_block) fun gs =>
      bindE (w.store.nix_name_of parent_block) fun bn =>
      .ok (bn ++ ".Segment" ++ toString gs.length)
    else .ok segment.name) fun nix_name =>
  let nix_type := "neo.segment"
  let nix_definition := segment.description
  bindE (w.store.create_group_in parent_block nix_name nix_type) fun p =>
  let s1 := p.1.modifyGroup p.2 fun g => { g with definition := nix_definition }
  let object_path := parent_path ++ [("group", nix_name)]
  let map1 := mapInsert w.neo_nix_map (aid segment.tag) (.single (.group p.2))
  let s2 := match segment.rec_datetime with
    | some dt => s1.modifyGroup p.2 fun g => { g with created_at := some (calculate_timestamp dt) }
    | none => s1
  bindE (match segment.file_datetime with
    | some fdt =>
      bindE (_get_or_init_metadata s2 (.group p.2) object_path) fun r =>
      .ok (r.1.create_property r.2 ("file_datetime") (.single (.int (calculate_timestamp fdt))))
    | none => .ok s2) fun s3 =>
  bindE (if segment.file_origin = "" then .ok s3 else
      bindE (_get_or_init_metadata s3 (.group p.2) object_path) fun r =>
      .ok (r.1.create_property r.2 ("file_origin") (.single (.str segment.file_origin)))) fun s4 =>
  bindE (_copy_annotations s4 segment.annotations (.group p.2) object_path) fun s5 =>
  bindE (write_analogsignal_list aid segment.analogsignals object_path ⟨s5, map1⟩) fun w1 =>
  bindE (write_irregularlysampledsignal_list aid segment.irregularlysampledsignals object_path w1) fun w2 =>
  bindE (write_epoch_list aid segment.epochs object_path w2) fun w3 =>
  bindE (write_event_list aid segment.events object_path w3) fun w4 =>
  bindE (write_spiketrain_list aid segment.spiketrains object_path w4) fun w5 =>
  .ok (w5, .group p.2)

/-- Loop for segment in neo_block.segments. -/
def write_segment_list (aid : Nat → Nat) (xs : List NeoSegment)
    (object_path : Path) (w : WState) : Except PyErr WState :=
  match xs with
  | [] => .ok w
  | x :: rest =>
    bindE (write_segment aid x object_path w) fun r =>
    write_segment_list aid rest object_path r.1

/-- Loop for rcg in neo_block.recordingchannelgroups. -/
def write_rcg_list (aid : Nat → Nat) (xs : List NeoRCG) (object_path : Path)
    (w : WState) : Except PyErr WState :=
  match xs with
  | [] => .ok w
  | x :: rest =>
    bindE (write_recordingchannelgroup aid x object_path w) fun r =>
    write_rcg_list aid rest object_path r.1

/-- Method write_block.  The two metadata calls for file_datetime and
file_origin use the default empty path, as in the source. -/
def write_block (aid : Nat → Nat) (neo_block : NeoBlock) (w : WState) :
    Except PyErr (WState × NixRef) :=
  let nix_name := if neo_block.name = "" then
      "neo.Block" ++ toString w.store.blocks.length
    else neo_block.name
  let nix_type := "neo.block"
  let nix_definition := neo_block.description
  let p := w.store.create_block nix_name nix_type
  let s1 := p.1.modifyBlock p.2 fun b => { b with definition := nix_definition }
  let object_path : Path := [("block", nix_name)]
  let map1 := mapInsert w.neo_nix_map (aid neo_block.tag) (.single (.block p.2))
  let s2 := match neo_block.rec_datetime with
    | some dt => s1.modifyBlock p.2 fun b => { b with created_at := some (calculate_timestamp dt) }
    | none => s1
  bindE (match neo_block.file_datetime with
    | some fdt =>
      bindE (_get_or_init_metadata s2 (.block p.2) []) fun r =>
      .ok (r.1.create_property r.2 ("file_datetime") (.single (.int (calculate_timestamp fdt))))
    | none => .ok s2) fun s3 =>
  bindE (if neo_block.file_origin = "" then .ok s3 else
      bindE (_get_or_init_metadata s3 (.block p.2) []) fun r =>
      .ok (r.1.create_property r.2 ("file_origin") (.single (.str neo_block.file_origin)))) fun s4 =>
  bindE (_copy_annotations s4 neo_block.annotations (.block p.2) object_path) fun s5 =>
  bindE (write_segment_list aid neo_block.segments object_path ⟨s5, map1⟩) fun w1 =>
  bindE (write_rcg_list aid neo_block.recordingchannelgroups object_path w1) fun w2 =>
  .ok (w2, .block p.2)

/-- Method write_all_blocks. -/
def write_all_blocks (aid : Nat → Nat) (bs : List NeoBlock) (w : WState) :
    Except PyErr (WState × List NixRef) :=
  match bs with
  | [] => .ok (w, [])
  | b :: rest =>
    bindE (write_block aid b w) fun r =>
    bindE (write_all_blocks aid rest r.1) fun r2 =>
    .ok (r2.1, r.2 :: r2.2)

/- ------------------------------------------------------------------ -/
/- Heap model of Python path lists.  The pure embedding above passes
   paths by value; to reason about in-place mutation the path-building
   expressions of the conversion routines are additionally modelled over
   an explicit heap of list cells, where Python list concatenation and
   slicing allocate fresh cells and never touch existing ones. -/

/-- Heap of Python list objects holding paths; a reference is an index. -/
structure ListHeap where
  cells : List Path
deriving DecidableEq, Repr

/-- Allocation of a fresh list object. -/
def ListHeap.alloc (h : ListHeap) (v : Path) : ListHeap × Nat :=
  (⟨h.cells ++ [v]⟩, h.cells.length)

/-- Dereference of a list object. -/
def ListHeap.get (h : ListHeap) (r : Nat) : Path :=
  (h.cells[r]?).getD []

/-- Python expression xs + [x]: allocates a fresh list from the contents
of xs followed by the one extra step. -/
def pyConcatOne (h : ListHeap) (r : Nat) (x : String × String) : ListHeap × Nat :=
  h.alloc (h.get r ++ [x])

/-- Python slice xs[:-1]: allocates a fresh list. -/
def pySliceDropLast (h : ListHeap) (r : Nat) : ListHeap × Nat :=
  h.alloc ((h.get r).dropLast)

/-- Python expression [xs[0]]: allocates a fresh one-element list. -/
def pyHeadSingleton (h : ListHeap) (r : Nat) : ListHeap × Nat :=
  h.alloc ((h.get r).take 1)

/-- Path computation of write_segment: object_path = parent_path + [("group", nix_name)]. -/
def path_step_write_segment (h : ListHeap) (r : Nat) (nm : String) : ListHeap × Nat :=
  pyConcatOne h r ("group", nm)

/-- Path computation of write_recordingchannelgroup (and of its channel
loop and of write_unit): parent_path + [("source", name)]. -/
def path_step_source (h : ListHeap) (r : Nat) (nm : String) : ListHeap × Nat :=
  pyConcatOne h r ("source", nm)

/-- Path computation of write_epoch, write_event and write_spiketrain:
parent_path + [("multi_tag", nix_name)]. -/
def path_step_multi_tag (h : ListHeap) (r : Nat) (nm : String) : ListHeap × Nat :=
  pyConcatOne h r ("multi_tag", nm)

/-- Path computation of the waveform branch of write_spiketrain:
object_path + [("data_array", wf_name)]. -/
def path_step_data_array (h : ListHeap) (r : Nat) (nm : String) : ListHeap × Nat :=
  pyConcatOne h r ("data_array", nm)

/-- Path computation [parent_path[0]] used by the signal, epoch, event and
spike-train writers to reach the root block. -/
def path_step_head (h : ListHeap) (r : Nat) : ListHeap × Nat :=
  pyHeadSingleton h r

/-- Path computation obj_path[:-1] performed by _get_or_init_metadata. -/
def path_step_parent_slice (h : ListHeap) (r : Nat) : ListHeap × Nat :=
  pySliceDropLast h r

/- ================================================================== -/
/- Shared lemmas. -/

/-- Sequencing after a success. -/
@[simp] theorem bindE_ok (a : α) (f : α → Except PyErr β) :
    bindE (.ok a) f = f a := rfl

/-- Sequencing after a failure. -/
@[simp] theorem bindE_error (e : PyErr) (f : α → Except PyErr β) :
    bindE (.error e) f = .error e := rfl

/-- Allocation never changes an existing heap cell. -/
theorem ListHeap.get_alloc_lt (h : ListHeap) (v : Path) (r0 : Nat)
    (hr : r0 < h.cells.length) : (h.alloc v).1.get r0 = h.get r0 := by
  simp [ListHeap.alloc, ListHeap.get, List.getElem?_append_left hr]

/-- Lookup of a key none of whose entries exist fails with the diagnostic
KeyError on list-comprehension lookups as well. -/
theorem _get_mapped_objects_missing (m : List (Nat × MappedVal))
    (ks : List Nat) (k : Nat) (hk : k ∈ ks) (hm : mapLookup m k = none) :
    _get_mapped_objects m ks = .error (.keyError unresolved_ref_msg) := by
  induction ks with
  | nil => cases hk
  | cons k0 rest ih =>
    rcases List.mem_cons.mp hk with h0 | h0
    · subst h0
      simp [_get_mapped_objects, _get_mapped_object, hm]
    · cases hlk : mapLookup m k0 with
      | none => simp [_get_mapped_objects, _get_mapped_object, hlk]
      | some v =>
        simp [_get_mapped_objects, _get_mapped_object, hlk, ih h0]

/- ================================================================== -/
/- C1.  Unresolved cross references raise a KeyError with diagnostic
   guidance. -/

/-- C1: a lookup of a source entity in the identity table before it has
been mapped — as performed for back-referencing during
write_recordingchannelgroup and write_unit — raises a KeyError carrying
the diagnostic guidance text, rather than returning a default value, both
for a single lookup and for the list form used at the call sites. -/
theorem claim_C1_unresolved_lookup :
    (∀ (m : List (Nat × MappedVal)) (k : Nat), mapLookup m k = none →
      _get_mapped_object m k = .error (.keyError unresolved_ref_msg)) ∧
    (∀ (m : List (Nat × MappedVal)) (ks : List Nat) (k : Nat), k ∈ ks →
      mapLookup m k = none →
      _get_mapped_objects m ks = .error (.keyError unresolved_ref_msg)) := by
  constructor
  · intro m k h
    simp [_get_mapped_object, h]
  · intro m ks k hk hm
    exact _get_mapped_objects_missing m ks k hk hm

/-- Witness for C1 at the empty table and key 7. -/
theorem claim_C1_witness :
    mapLookup [] 7 = none ∧
    _get_mapped_object [] 7 = .error (.keyError unresolved_ref_msg) ∧
    _get_mapped_objects [] [7] = .error (.keyError unresolved_ref_msg) :=
  ⟨rfl, claim_C1_unresolved_lookup.1 [] 7 rfl,
   claim_C1_unresolved_lookup.2 [] [7] 7 (by simp) rfl⟩

/- ================================================================== -/
/- Lemmas about set_metadata and section creation. -/

/-- Setting a metadata pointer never touches the section arena. -/
theorem set_metadata_sections {s : Store} {r : NixRef} {m : Nat} {s2 : Store}
    (h : s.set_metadata r m = .ok s2) : s2.sections = s.sections := by
  cases r <;> simp only [Store.set_metadata, getArena] at h <;>
    (try split at h) <;> simp_all <;> rw [← h]

/-- After a successful set_metadata the pointer reads back. -/
theorem metadata_of_set_metadata {s : Store} {r : NixRef} {m : Nat} {s2 : Store}
    (h : s.set_metadata r m = .ok s2) : s2.metadata_of r = .ok (some m) := by
  cases r with
  | file => simp [Store.set_metadata] at h
  | block i =>
    simp only [Store.set_metadata, getArena] at h
    cases hx : s.blocks[i]? with
    | none => rw [hx] at h; simp at h
    | some b =>
      rw [hx] at h; simp only [bindE, Except.ok.injEq] at h
      have hi : i < s.blocks.length := (List.getElem?_eq_some.mp hx).1
      rw [← h]
      simp [Store.metadata_of, getArena, List.getElem?_set_self (by simpa using hi)]
  | group i =>
    simp only [Store.set_metadata, getArena] at h
    cases hx : s.groups[i]? with
    | none => rw [hx] at h; simp at h
    | some b =>
      rw [hx] at h; simp only [bindE, Except.ok.injEq] at h
      have hi : i < s.groups.length := (List.getElem?_eq_some.mp hx).1
      rw [← h]
      simp [Store.metadata_of, getArena, List.getElem?_set_self (by simpa using hi)]
  | source i =>
    simp only [Store.set_metadata, getArena] at h
    cases hx : s.sources[i]? with
    | none => rw [hx] at h; simp at h
    | some b =>
      rw [hx] at h; simp only [bindE, Except.ok.injEq] at h
      have hi : i < s.sources.length := (List.getElem?_eq_some.mp hx).1
      rw [← h]
      simp [Store.metadata_of, getArena, List.getElem?_set_self (by simpa using hi)]
  | dataArray i =>
    simp only [Store.set_metadata, getArena] at h
    cases hx : s.data_arrays[i]? with
    | none => rw [hx] at h; simp at h
    | some b =>
      rw [hx] at h; simp only [bindE, Except.ok.injEq] at h
      have hi : i < s.data_arrays.length := (List.getElem?_eq_some.mp hx).1
      rw [← h]
      simp [Store.metadata_of, getArena, List.getElem?_set_self (by simpa using hi)]
  | multiTag i =>
    simp only [Store.set_metadata, getArena] at h
    cases hx : s.multi_tags[i]? with
    | none => rw [hx] at h; simp at h
    | some b =>
      rw [hx] at h; simp only [bindE, Except.ok.injEq] at h
      have hi : i < s.multi_tags.length := (List.getElem?_eq_some.mp hx).1
      rw [← h]
      simp [Store.metadata_of, getArena, List.getElem?_set_self (by simpa using hi)]

/-- Reading the fresh section created by create_section. -/
theorem create_section_get (s : Store) (par : Option Nat) (nm ty : String) :
    (s.create_section par nm ty).1.sections[(s.create_section par nm ty).2]? =
      some ⟨nm, ty, par, []⟩ := by
  simp [Store.create_section, List.getElem?_concat_length]

/-- Destructuring a successful sequencing step. -/
theorem bindE_ok_elim {X : Except PyErr α} {f : α → Except PyErr β} {y : β}
    (h : bindE X f = .ok y) : ∃ a, X = .ok a ∧ f a = .ok y := by
  cases X with
  | error e => simp at h
  | ok a => exact ⟨a, rfl, h⟩

/-- Decidable equality of run results, for evaluating concrete runs. -/
instance {ε α : Type} [DecidableEq ε] [DecidableEq α] :
    DecidableEq (Except ε α) := fun x y =>
  match x, y with
  | .error a, .error b =>
    match decEq a b with
    | isTrue h => isTrue (by rw [h])
    | isFalse h => isFalse fun hh => by cases hh; exact h rfl
  | .ok a, .ok b =>
    match decEq a b with
    | isTrue h => isTrue (by rw [h])
    | isFalse h => isFalse fun hh => by cases hh; exact h rfl
  | .error _, .ok _ => isFalse fun hh => by cases hh
  | .ok _, .error _ => isFalse fun hh => by cases hh

/- ================================================================== -/
/- C2.  The metadata hierarchy mirrors the structural hierarchy. -/

/-- C2: _get_or_init_metadata returns an already-attached metadata node
with the store unchanged (never creating a duplicate); when it creates a
node for an object whose path has length at most one, the node hangs
directly under the file root (no parent section); and when it creates a
node for a deeper object, the parent of the new node is exactly the
metadata node obtained — recursively created on demand — for the object
located at the path without its last step, and the node is attached to the
object. -/
theorem claim_C2_metadata_mirror :
    (∀ (s : Store) (r : NixRef) (p : Path) (m : Nat),
      s.metadata_of r = .ok (some m) →
      _get_or_init_metadata s r p = .ok (s, m)) ∧
    (∀ (s : Store) (r : NixRef) (p : Path) (s2 : Store) (sec : Nat),
      s.metadata_of r = .ok none → p.length ≤ 1 →
      _get_or_init_metadata s r p = .ok (s2, sec) →
      (s2.sections[sec]?).map NSection.parent = some none ∧
      s2.metadata_of r = .ok (some sec)) ∧
    (∀ (s : Store) (r : NixRef) (p : Path) (s2 : Store) (sec : Nat),
      s.metadata_of r = .ok none → 2 ≤ p.length →
      _get_or_init_metadata s r p = .ok (s2, sec) →
      ∃ pobj smid pm,
        _get_object_at s p.dropLast = .ok (some pobj) ∧
        _get_or_init_metadata s pobj p.dropLast = .ok (smid, pm) ∧
        (s2.sections[sec]?).map NSection.parent = some (some pm) ∧
        s2.metadata_of r = .ok (some sec)) := by
  have go_eq : ∀ fuel : Nat, ∃ rec, _get_or_init_metadata_go fuel =
      _get_or_init_metadata_body rec := by
    intro fuel
    cases fuel with
    | zero => exact ⟨_, rfl⟩
    | succ n => exact ⟨_, rfl⟩
  refine ⟨?_, ?_, ?_⟩
  · intro s r p m h
    obtain ⟨rec, hrec⟩ := go_eq p.length
    rw [_get_or_init_metadata, hrec]
    simp [_get_or_init_metadata_body, h]
  · intro s r p s2 sec hmd hlen h
    obtain ⟨rec, hrec⟩ := go_eq p.length
    rw [_get_or_init_metadata, hrec] at h
    rw [_get_or_init_metadata_body, hmd] at h
    simp only [bindE_ok] at h
    rw [if_pos hlen] at h
    obtain ⟨nm, _hnm, h⟩ := bindE_ok_elim h
    obtain ⟨ty, _hty, h⟩ := bindE_ok_elim h
    obtain ⟨s3, hset, h⟩ := bindE_ok_elim h
    injection h with h
    injection h with h1 h2
    subst h1; subst h2
    refine ⟨?_, metadata_of_set_metadata hset⟩
    rw [set_metadata_sections hset, create_section_get]
    rfl
  · intro s r p s2 sec hmd hlen h
    obtain ⟨n, hn⟩ : ∃ n, p.length = n + 1 := ⟨p.length - 1, by omega⟩
    have hdl : p.dropLast.length = n := by
      simp [List.length_dropLast, hn]
    rw [_get_or_init_metadata, hn, _get_or_init_metadata_go] at h
    rw [_get_or_init_metadata_body, hmd] at h
    simp only [bindE_ok] at h
    rw [if_neg (by omega)] at h
    obtain ⟨pobj?, hpobj, h⟩ := bindE_ok_elim h
    match pobj? with
    | none => simp at h
    | some pobj =>
      obtain ⟨rr, hrec, h⟩ := bindE_ok_elim h
      obtain ⟨nm, _hnm, h⟩ := bindE_ok_elim h
      obtain ⟨ty, _hty, h⟩ := bindE_ok_elim h
      obtain ⟨s3, hset, h⟩ := bindE_ok_elim h
      injection h with h
      injection h with h1 h2
      subst h1; subst h2
      refine ⟨pobj, rr.1, rr.2, hpobj, ?_, ?_, metadata_of_set_metadata hset⟩
      · rw [_get_or_init_metadata, hdl]
        exact hrec
      · rw [set_metadata_sections hset, create_section_get]
        rfl

/-- Store with one block and one group inside it, for concrete runs. -/
def witStore : Store :=
  ⟨[⟨"blk", "neo.block", none, none, [0], [], [], [], none⟩],
   [⟨"seg", "neo.segment", none, none, [], [], none⟩],
   [], [], [], []⟩

/-- Witness for C2: on the one-block-one-group store, ensuring metadata of
the group creates its node under the freshly created node of the block,
and a second call returns the attached node unchanged. -/
theorem claim_C2_witness :
    ∃ pr : Store × Nat,
      witStore.metadata_of (.group 0) = .ok none ∧
      2 ≤ ([("block", "blk"), ("group", "seg")] : Path).length ∧
      _get_or_init_metadata witStore (.group 0) [("block", "blk"), ("group", "seg")] = .ok pr ∧
      (∃ pobj smid pm,
        _get_object_at witStore ([("block", "blk"), ("group", "seg")] : Path).dropLast = .ok (some pobj) ∧
        _get_or_init_metadata witStore pobj ([("block", "blk"), ("group", "seg")] : Path).dropLast = .ok (smid, pm) ∧
        (pr.1.sections[pr.2]?).map NSection.parent = some (some pm) ∧
        pr.1.metadata_of (.group 0) = .ok (some pr.2)) ∧
      _get_or_init_metadata pr.1 (.group 0) [("block", "blk"), ("group", "seg")] = .ok (pr.1, pr.2) := by
  have hok : (_get_or_init_metadata witStore (.group 0)
      [("block", "blk"), ("group", "seg")]).isOk = true := by decide
  match hrun : _get_or_init_metadata witStore (.group 0)
      [("block", "blk"), ("group", "seg")] with
  | .error e => rw [hrun] at hok; simp [Except.isOk, Except.toBool] at hok
  | .ok (s2, sec) =>
    have hmain := claim_C2_metadata_mirror.2.2 witStore (.group 0)
      [("block", "blk"), ("group", "seg")] s2 sec (by decide) (by decide) hrun
    have hattach : s2.metadata_of (.group 0) = .ok (some sec) := by
      obtain ⟨_, _, _, _, _, _, hat⟩ := hmain
      exact hat
    exact ⟨(s2, sec), by decide, by decide, rfl, hmain,
      claim_C2_metadata_mirror.1 s2 (.group 0)
        [("block", "blk"), ("group", "seg")] sec hattach⟩

/- ================================================================== -/
/- Frame lemmas: what the metadata and annotation helpers can and cannot
   change in the store. -/

/-- Block with its metadata pointer forgotten. -/
def dropMetaBlock (b : NBlock) : NBlock := { b with metadata := none }

/-- Group with its metadata pointer forgotten. -/
def dropMetaGroup (g : NGroup) : NGroup := { g with metadata := none }

/-- Source with its metadata pointer forgotten. -/
def dropMetaSrc (x : NSource) : NSource := { x with metadata := none }

/-- Data array with its metadata pointer forgotten. -/
def dropMetaDA (d : NDataArray) : NDataArray := { d with metadata := none }

/-- Multi tag with its metadata pointer forgotten. -/
def dropMetaMT (m : NMultiTag) : NMultiTag := { m with metadata := none }

/-- Identifying part of a section: everything except its property list. -/
def sectionShape (x : NSection) : (String × String) × Option Nat :=
  ((x.name, x.type), x.parent)

/-- Point updates seen through a projection they preserve. -/
theorem getElem?_map_set {α β : Type} {l : List α} {i : Nat} {x y : α}
    (f : α → β) (hx : l[i]? = some x) (hf : f y = f x) (j : Nat) :
    ((l.set i y)[j]?).map f = (l[j]?).map f := by
  rcases eq_or_ne i j with h | h
  · subst h
    rw [List.getElem?_set_self (List.getElem?_eq_some.mp hx).1, hx]
    simpa using hf
  · rw [List.getElem?_set_ne h]

/-- Evolution of the store performed by the metadata mirror: sections are
only ever appended, every pre-existing section is untouched, no arena
changes length apart from sections, and every object keeps all its fields
except possibly the metadata pointer. -/
def MetaFrame (s s2 : Store) : Prop :=
  s.sections.length ≤ s2.sections.length ∧
  (∀ i, i < s.sections.length → s2.sections[i]? = s.sections[i]?) ∧
  s2.blocks.length = s.blocks.length ∧
  s2.groups.length = s.groups.length ∧
  s2.sources.length = s.sources.length ∧
  s2.data_arrays.length = s.data_arrays.length ∧
  s2.multi_tags.length = s.multi_tags.length ∧
  (∀ i : Nat, (s2.blocks[i]?).map dropMetaBlock = (s.blocks[i]?).map dropMetaBlock) ∧
  (∀ i : Nat, (s2.groups[i]?).map dropMetaGroup = (s.groups[i]?).map dropMetaGroup) ∧
  (∀ i : Nat, (s2.sources[i]?).map dropMetaSrc = (s.sources[i]?).map dropMetaSrc) ∧
  (∀ i : Nat, (s2.data_arrays[i]?).map dropMetaDA = (s.data_arrays[i]?).map dropMetaDA) ∧
  (∀ i : Nat, (s2.multi_tags[i]?).map dropMetaMT = (s.multi_tags[i]?).map dropMetaMT)

/-- The frame relation is reflexive. -/
theorem metaframe_refl (s : Store) : MetaFrame s s := by
  refine ⟨le_refl _, ?_, Eq.refl _, Eq.refl _, Eq.refl _, Eq.refl _, Eq.refl _,
    ?_, ?_, ?_, ?_, ?_⟩ <;> intro i <;> try intro hi
  all_goals rfl

/-- The frame relation composes. -/
theorem MetaFrame.trans_meta {s1 s2 s3 : Store} (a : MetaFrame s1 s2)
    (b : MetaFrame s2 s3) : MetaFrame s1 s3 := by
  obtain ⟨a1, a2, a3, a4, a5, a6, a7, a8, a9, a10, a11, a12⟩ := a
  obtain ⟨b1, b2, b3, b4, b5, b6, b7, b8, b9, b10, b11, b12⟩ := b
  refine ⟨le_trans a1 b1, ?_, b3.trans a3, b4.trans a4, b5.trans a5,
    b6.trans a6, b7.trans a7, ?_, ?_, ?_, ?_, ?_⟩
  · intro i hi
    rw [b2 i (lt_of_lt_of_le hi a1), a2 i hi]
  all_goals intro i
  · rw [b8 i, a8 i]
  · rw [b9 i, a9 i]
  · rw [b10 i, a10 i]
  · rw [b11 i, a11 i]
  · rw [b12 i, a12 i]

/-- Projections that forget the metadata pointer factor through it. -/
theorem map_comp_dropMeta {α β : Type} (o : Option α) (drop : α → α)
    (f : α → β) (hf : ∀ a, f (drop a) = f a) :
    (o.map drop).map f = o.map f := by
  cases o with
  | none => rfl
  | some a => simp [hf]

/-- Data-array types are preserved by the frame relation. -/
theorem MetaFrame.da_type_meta {s s2 : Store} (h : MetaFrame s s2) (i : Nat) :
    (s2.data_arrays[i]?).map NDataArray.type =
      (s.data_arrays[i]?).map NDataArray.type := by
  have h11 := h.2.2.2.2.2.2.2.2.2.2.1 i
  have e : ∀ o : Option NDataArray,
      (o.map dropMetaDA).map NDataArray.type = o.map NDataArray.type :=
    fun o => map_comp_dropMeta o _ _ (fun a => Eq.refl _)
  calc (s2.data_arrays[i]?).map NDataArray.type
      = ((s2.data_arrays[i]?).map dropMetaDA).map NDataArray.type := (e _).symm
    _ = ((s.data_arrays[i]?).map dropMetaDA).map NDataArray.type := by rw [h11]
    _ = (s.data_arrays[i]?).map NDataArray.type := e _

/-- Data-array names are preserved by the frame relation. -/
theorem MetaFrame.da_name_meta {s s2 : Store} (h : MetaFrame s s2) (i : Nat) :
    (s2.data_arrays[i]?).map NDataArray.name =
      (s.data_arrays[i]?).map NDataArray.name := by
  have h11 := h.2.2.2.2.2.2.2.2.2.2.1 i
  have e : ∀ o : Option NDataArray,
      (o.map dropMetaDA).map NDataArray.name = o.map NDataArray.name :=
    fun o => map_comp_dropMeta o _ _ (fun a => Eq.refl _)
  calc (s2.data_arrays[i]?).map NDataArray.name
      = ((s2.data_arrays[i]?).map dropMetaDA).map NDataArray.name := (e _).symm
    _ = ((s.data_arrays[i]?).map dropMetaDA).map NDataArray.name := by rw [h11]
    _ = (s.data_arrays[i]?).map NDataArray.name := e _

/-- Group contents (data arrays and multi tags) are preserved by the frame
relation. -/
theorem MetaFrame.group_contents_meta {s s2 : Store} (h : MetaFrame s s2) (i : Nat) :
    (s2.groups[i]?).map (fun g => (g.data_arrays, g.multi_tags)) =
      (s.groups[i]?).map (fun g => (g.data_arrays, g.multi_tags)) := by
  have h9 := h.2.2.2.2.2.2.2.2.1 i
  have e : ∀ o : Option NGroup,
      (o.map dropMetaGroup).map (fun g => (g.data_arrays, g.multi_tags)) =
        o.map (fun g => (g.data_arrays, g.multi_tags)) :=
    fun o => map_comp_dropMeta o _ _ (fun a => Eq.refl _)
  calc (s2.groups[i]?).map (fun g => (g.data_arrays, g.multi_tags))
      = ((s2.groups[i]?).map dropMetaGroup).map (fun g => (g.data_arrays, g.multi_tags)) := (e _).symm
    _ = ((s.groups[i]?).map dropMetaGroup).map (fun g => (g.data_arrays, g.multi_tags)) := by rw [h9]
    _ = (s.groups[i]?).map (fun g => (g.data_arrays, g.multi_tags)) := e _

/-- Multi-tag fields other than the metadata pointer are preserved by the
frame relation. -/
theorem MetaFrame.mt_shape_meta {s s2 : Store} (h : MetaFrame s s2) (i : Nat) :
    (s2.multi_tags[i]?).map (fun m => (m.name, m.sources, m.references)) =
      (s.multi_tags[i]?).map (fun m => (m.name, m.sources, m.references)) := by
  have h12 := h.2.2.2.2.2.2.2.2.2.2.2 i
  have e : ∀ o : Option NMultiTag,
      (o.map dropMetaMT).map (fun m => (m.name, m.sources, m.references)) =
        o.map (fun m => (m.name, m.sources, m.references)) :=
    fun o => map_comp_dropMeta o _ _ (fun a => Eq.refl _)
  calc (s2.multi_tags[i]?).map (fun m => (m.name, m.sources, m.references))
      = ((s2.multi_tags[i]?).map dropMetaMT).map (fun m => (m.name, m.sources, m.references)) := (e _).symm
    _ = ((s.multi_tags[i]?).map dropMetaMT).map (fun m => (m.name, m.sources, m.references)) := by rw [h12]
    _ = (s.multi_tags[i]?).map (fun m => (m.name, m.sources, m.references)) := e _

/-- A successful set_metadata satisfies the frame relation and keeps the
section arena identical. -/
theorem set_metadata_metaframe {s : Store} {r : NixRef} {m : Nat} {s2 : Store}
    (h : s.set_metadata r m = .ok s2) :
    MetaFrame s s2 ∧ s2.sections = s.sections := by
  cases r with
  | file => simp [Store.set_metadata] at h
  | block i =>
    simp only [Store.set_metadata, getArena] at h
    cases hx : s.blocks[i]? with
    | none => rw [hx] at h; simp at h
    | some b =>
      rw [hx] at h; simp only [bindE, Except.ok.injEq] at h
      subst h
      refine ⟨⟨le_refl _, fun i _ => Eq.refl _, by simp, Eq.refl _, Eq.refl _,
        Eq.refl _, Eq.refl _, getElem?_map_set _ hx (Eq.refl _),
        fun i => Eq.refl _, fun i => Eq.refl _, fun i => Eq.refl _,
        fun i => Eq.refl _⟩, Eq.refl _⟩
  | group i =>
    simp only [Store.set_metadata, getArena] at h
    cases hx : s.groups[i]? with
    | none => rw [hx] at h; simp at h
    | some b =>
      rw [hx] at h; simp only [bindE, Except.ok.injEq] at h
      subst h
      refine ⟨⟨le_refl _, fun i _ => Eq.refl _, Eq.refl _, by simp, Eq.refl _,
        Eq.refl _, Eq.refl _, fun i => Eq.refl _,
        getElem?_map_set _ hx (Eq.refl _), fun i => Eq.refl _,
        fun i => Eq.refl _, fun i => Eq.refl _⟩, Eq.refl _⟩
  | source i =>
    simp only [Store.set_metadata, getArena] at h
    cases hx : s.sources[i]? with
    | none => rw [hx] at h; simp at h
    | some b =>
      rw [hx] at h; simp only [bindE, Except.ok.injEq] at h
      subst h
      refine ⟨⟨le_refl _, fun i _ => Eq.refl _, Eq.refl _, Eq.refl _, by simp,
        Eq.refl _, Eq.refl _, fun i => Eq.refl _, fun i => Eq.refl _,
        getElem?_map_set _ hx (Eq.refl _), fun i => Eq.refl _,
        fun i => Eq.refl _⟩, Eq.refl _⟩
  | dataArray i =>
    simp only [Store.set_metadata, getArena] at h
    cases hx : s.data_arrays[i]? with
    | none => rw [hx] at h; simp at h
    | some b =>
      rw [hx] at h; simp only [bindE, Except.ok.injEq] at h
      subst h
      refine ⟨⟨le_refl _, fun i _ => Eq.refl _, Eq.refl _, Eq.refl _, Eq.refl _,
        by simp, Eq.refl _, fun i => Eq.refl _, fun i => Eq.refl _,
        fun i => Eq.refl _, getElem?_map_set _ hx (Eq.refl _),
        fun i => Eq.refl _⟩, Eq.refl _⟩
  | multiTag i =>
    simp only [Store.set_metadata, getArena] at h
    cases hx : s.multi_tags[i]? with
    | none => rw [hx] at h; simp at h
    | some b =>
      rw [hx] at h; simp only [bindE, Except.ok.injEq] at h
      subst h
      refine ⟨⟨le_refl _, fun i _ => Eq.refl _, Eq.refl _, Eq.refl _, Eq.refl _,
        Eq.refl _, by simp, fun i => Eq.refl _, fun i => Eq.refl _,
        fun i => Eq.refl _, fun i => Eq.refl _,
        getElem?_map_set _ hx (Eq.refl _)⟩, Eq.refl _⟩

/-- Section creation satisfies the frame relation. -/
theorem create_section_metaframe (s : Store) (par : Option Nat) (nm ty : String) :
    MetaFrame s (s.create_section par nm ty).1 := by
  refine ⟨by simp [Store.create_section], ?_, Eq.refl _, Eq.refl _, Eq.refl _,
    Eq.refl _, Eq.refl _, fun i => Eq.refl _, fun i => Eq.refl _,
    fun i => Eq.refl _, fun i => Eq.refl _, fun i => Eq.refl _⟩
  intro i hi
  simp [Store.create_section, List.getElem?_append_left hi]

/-- Splitting the fuel recursion into one body application. -/
theorem go_exists_body (fuel : Nat) :
    ∃ rec, _get_or_init_metadata_go fuel = _get_or_init_metadata_body rec := by
  cases fuel with
  | zero => exact ⟨_, Eq.refl _⟩
  | succ n => exact ⟨_, Eq.refl _⟩

/-- Postcondition of the metadata mirror: the store evolves inside the
frame relation, and a node created for an object that had none is fresh
(its index sits past the old section arena) and valid. -/
def GomPost (s : Store) (r : NixRef) (out : Store × Nat) : Prop :=
  MetaFrame s out.1 ∧
  (s.metadata_of r = .ok none →
    s.sections.length ≤ out.2 ∧ out.2 < out.1.sections.length)

/-- The body of the metadata mirror satisfies the postcondition whenever
its recursion continuation does. -/
theorem gom_body_metaframe {recurse : Store → NixRef → Path → Except PyErr (Store × Nat)}
    (hrec : ∀ (s : Store) (r : NixRef) (p : Path) (out : Store × Nat),
      recurse s r p = .ok out → GomPost s r out)
    (s : Store) (r : NixRef) (p : Path) (out : Store × Nat)
    (h : _get_or_init_metadata_body recurse s r p = .ok out) : GomPost s r out := by
  rw [_get_or_init_metadata_body] at h
  obtain ⟨md, hmd, h⟩ := bindE_ok_elim h
  match md with
  | some m =>
    injection h with h
    subst h
    refine ⟨metaframe_refl s, fun hn => ?_⟩
    rw [hmd] at hn
    injection hn with hn
    cases hn
  | none =>
    by_cases hlen : p.length ≤ 1
    · rw [if_pos hlen] at h
      obtain ⟨nm, _hnm, h⟩ := bindE_ok_elim h
      obtain ⟨ty, _hty, h⟩ := bindE_ok_elim h
      obtain ⟨s3, hset, h⟩ := bindE_ok_elim h
      injection h with h
      subst h
      have hsec := (set_metadata_metaframe hset).2
      refine ⟨(create_section_metaframe s none nm (ty ++ ".metadata")).trans_meta
        (set_metadata_metaframe hset).1, fun _ => ⟨le_refl _, ?_⟩⟩
      show (s.create_section none nm (ty ++ ".metadata")).2 < s3.sections.length
      rw [hsec]
      simp [Store.create_section]
    · rw [if_neg hlen] at h
      obtain ⟨pobj?, _hpo, h⟩ := bindE_ok_elim h
      match pobj? with
      | none => simp at h
      | some pobj =>
        obtain ⟨rr, hrecur, h⟩ := bindE_ok_elim h
        have hp := hrec s pobj p.dropLast rr hrecur
        obtain ⟨nm, _hnm, h⟩ := bindE_ok_elim h
        obtain ⟨ty, _hty, h⟩ := bindE_ok_elim h
        obtain ⟨s3, hset, h⟩ := bindE_ok_elim h
        injection h with h
        subst h
        have hsec := (set_metadata_metaframe hset).2
        refine ⟨hp.1.trans_meta ((create_section_metaframe rr.1 (some rr.2) nm
          (ty ++ ".metadata")).trans_meta (set_metadata_metaframe hset).1),
          fun _ => ⟨?_, ?_⟩⟩
        · exact le_trans hp.1.1 (le_refl _)
        · show (rr.1.create_section (some rr.2) nm (ty ++ ".metadata")).2 <
            s3.sections.length
          rw [hsec]
          simp [Store.create_section]

/-- The metadata mirror worker satisfies the postcondition at any fuel. -/
theorem gom_metaframe (fuel : Nat) :
    ∀ (s : Store) (r : NixRef) (p : Path) (out : Store × Nat),
      _get_or_init_metadata_go fuel s r p = .ok out → GomPost s r out := by
  induction fuel with
  | zero =>
    intro s r p out h
    exact gom_body_metaframe (fun s r p out h => absurd h (by simp)) s r p out h
  | succ n ih =>
    intro s r p out h
    exact gom_body_metaframe ih s r p out h

/-- The metadata mirror satisfies the postcondition. -/
theorem gom_frame {s : Store} {r : NixRef} {p : Path} {out : Store × Nat}
    (h : _get_or_init_metadata s r p = .ok out) : GomPost s r out :=
  gom_metaframe p.length s r p out h

/-- An already-attached metadata node is returned with the store unchanged. -/
theorem gom_attached {s : Store} {r : NixRef} (p : Path) {m : Nat}
    (h : s.metadata_of r = .ok (some m)) :
    _get_or_init_metadata s r p = .ok (s, m) := by
  obtain ⟨rec, hrec⟩ := go_exists_body p.length
  rw [_get_or_init_metadata, hrec]
  simp [_get_or_init_metadata_body, h]

/-- Evolution of the store performed by annotation and property writing on
top of the metadata mirror: like the metadata frame, but an existing
section may additionally have acquired properties (its name, type and
parent never change). -/
def AnnFrame (s s2 : Store) : Prop :=
  s.sections.length ≤ s2.sections.length ∧
  (∀ i : Nat, i < s.sections.length →
    (s2.sections[i]?).map sectionShape = (s.sections[i]?).map sectionShape) ∧
  s2.blocks.length = s.blocks.length ∧
  s2.groups.length = s.groups.length ∧
  s2.sources.length = s.sources.length ∧
  s2.data_arrays.length = s.data_arrays.length ∧
  s2.multi_tags.length = s.multi_tags.length ∧
  (∀ i : Nat, (s2.blocks[i]?).map dropMetaBlock = (s.blocks[i]?).map dropMetaBlock) ∧
  (∀ i : Nat, (s2.groups[i]?).map dropMetaGroup = (s.groups[i]?).map dropMetaGroup) ∧
  (∀ i : Nat, (s2.sources[i]?).map dropMetaSrc = (s.sources[i]?).map dropMetaSrc) ∧
  (∀ i : Nat, (s2.data_arrays[i]?).map dropMetaDA = (s.data_arrays[i]?).map dropMetaDA) ∧
  (∀ i : Nat, (s2.multi_tags[i]?).map dropMetaMT = (s.multi_tags[i]?).map dropMetaMT)

/-- The annotation frame is reflexive. -/
theorem annframe_refl (s : Store) : AnnFrame s s :=
  ⟨le_refl _, fun _ _ => Eq.refl _, Eq.refl _, Eq.refl _, Eq.refl _, Eq.refl _,
   Eq.refl _, fun _ => Eq.refl _, fun _ => Eq.refl _, fun _ => Eq.refl _,
   fun _ => Eq.refl _, fun _ => Eq.refl _⟩

/-- The annotation frame composes. -/
theorem AnnFrame.trans_ann {s1 s2 s3 : Store} (a : AnnFrame s1 s2)
    (b : AnnFrame s2 s3) : AnnFrame s1 s3 := by
  obtain ⟨a1, a2, a3, a4, a5, a6, a7, a8, a9, a10, a11, a12⟩ := a
  obtain ⟨b1, b2, b3, b4, b5, b6, b7, b8, b9, b10, b11, b12⟩ := b
  refine ⟨le_trans a1 b1, ?_, b3.trans a3, b4.trans a4, b5.trans a5,
    b6.trans a6, b7.trans a7, ?_, ?_, ?_, ?_, ?_⟩
  · intro i hi
    rw [b2 i (lt_of_lt_of_le hi a1), a2 i hi]
  all_goals intro i
  · rw [b8 i, a8 i]
  · rw [b9 i, a9 i]
  · rw [b10 i, a10 i]
  · rw [b11 i, a11 i]
  · rw [b12 i, a12 i]

/-- The metadata frame is stronger than the annotation frame. -/
theorem MetaFrame.toAnn {s s2 : Store} (h : MetaFrame s s2) : AnnFrame s s2 := by
  obtain ⟨h1, h2, h3, h4, h5, h6, h7, h8, h9, h10, h11, h12⟩ := h
  exact ⟨h1, fun i hi => by rw [h2 i hi], h3, h4, h5, h6, h7, h8, h9, h10, h11, h12⟩

/-- Data-array types are preserved by the annotation frame. -/
theorem AnnFrame.da_type_ann {s s2 : Store} (h : AnnFrame s s2) (i : Nat) :
    (s2.data_arrays[i]?).map NDataArray.type =
      (s.data_arrays[i]?).map NDataArray.type := by
  have h11 := h.2.2.2.2.2.2.2.2.2.2.1 i
  have e : ∀ o : Option NDataArray,
      (o.map dropMetaDA).map NDataArray.type = o.map NDataArray.type :=
    fun o => map_comp_dropMeta o _ _ (fun a => Eq.refl _)
  calc (s2.data_arrays[i]?).map NDataArray.type
      = ((s2.data_arrays[i]?).map dropMetaDA).map NDataArray.type := (e _).symm
    _ = ((s.data_arrays[i]?).map dropMetaDA).map NDataArray.type := by rw [h11]
    _ = (s.data_arrays[i]?).map NDataArray.type := e _

/-- Data-array names are preserved by the annotation frame. -/
theorem AnnFrame.da_name_ann {s s2 : Store} (h : AnnFrame s s2) (i : Nat) :
    (s2.data_arrays[i]?).map NDataArray.name =
      (s.data_arrays[i]?).map NDataArray.name := by
  have h11 := h.2.2.2.2.2.2.2.2.2.2.1 i
  have e : ∀ o : Option NDataArray,
      (o.map dropMetaDA).map NDataArray.name = o.map NDataArray.name :=
    fun o => map_comp_dropMeta o _ _ (fun a => Eq.refl _)
  calc (s2.data_arrays[i]?).map NDataArray.name
      = ((s2.data_arrays[i]?).map dropMetaDA).map NDataArray.name := (e _).symm
    _ = ((s.data_arrays[i]?).map dropMetaDA).map NDataArray.name := by rw [h11]
    _ = (s.data_arrays[i]?).map NDataArray.name := e _

/-- Group contents are preserved by the annotation frame. -/
theorem AnnFrame.group_contents_ann {s s2 : Store} (h : AnnFrame s s2) (i : Nat) :
    (s2.groups[i]?).map (fun g => (g.data_arrays, g.multi_tags)) =
      (s.groups[i]?).map (fun g => (g.data_arrays, g.multi_tags)) := by
  have h9 := h.2.2.2.2.2.2.2.2.1 i
  have e : ∀ o : Option NGroup,
      (o.map dropMetaGroup).map (fun g => (g.data_arrays, g.multi_tags)) =
        o.map (fun g => (g.data_arrays, g.multi_tags)) :=
    fun o => map_comp_dropMeta o _ _ (fun a => Eq.refl _)
  calc (s2.groups[i]?).map (fun g => (g.data_arrays, g.multi_tags))
      = ((s2.groups[i]?).map dropMetaGroup).map (fun g => (g.data_arrays, g.multi_tags)) := (e _).symm
    _ = ((s.groups[i]?).map dropMetaGroup).map (fun g => (g.data_arrays, g.multi_tags)) := by rw [h9]
    _ = (s.groups[i]?).map (fun g => (g.data_arrays, g.multi_tags)) := e _

/-- Multi-tag fields other than the metadata pointer are preserved by the
annotation frame. -/
theorem AnnFrame.mt_shape_ann {s s2 : Store} (h : AnnFrame s s2) (i : Nat) :
    (s2.multi_tags[i]?).map (fun m => (m.name, m.sources, m.references)) =
      (s.multi_tags[i]?).map (fun m => (m.name, m.sources, m.references)) := by
  have h12 := h.2.2.2.2.2.2.2.2.2.2.2 i
  have e : ∀ o : Option NMultiTag,
      (o.map dropMetaMT).map (fun m => (m.name, m.sources, m.references)) =
        o.map (fun m => (m.name, m.sources, m.references)) :=
    fun o => map_comp_dropMeta o _ _ (fun a => Eq.refl _)
  calc (s2.multi_tags[i]?).map (fun m => (m.name, m.sources, m.references))
      = ((s2.multi_tags[i]?).map dropMetaMT).map (fun m => (m.name, m.sources, m.references)) := (e _).symm
    _ = ((s.multi_tags[i]?).map dropMetaMT).map (fun m => (m.name, m.sources, m.references)) := by rw [h12]
    _ = (s.multi_tags[i]?).map (fun m => (m.name, m.sources, m.references)) := e _

/-- Property creation only touches the property list of its target. -/
theorem create_property_annframe (s : Store) (sec : Nat) (k : String)
    (v : PropVal) : AnnFrame s (s.create_property sec k v) := by
  rw [Store.create_property]
  cases hx : s.sections[sec]? with
  | none => exact annframe_refl s
  | some x =>
    refine ⟨by simp, ?_, Eq.refl _, Eq.refl _, Eq.refl _, Eq.refl _, Eq.refl _,
      fun _ => Eq.refl _, fun _ => Eq.refl _, fun _ => Eq.refl _,
      fun _ => Eq.refl _, fun _ => Eq.refl _⟩
    intro j _hj
    exact getElem?_map_set sectionShape hx
      (show sectionShape { x with props := x.props ++ [(k, v)] } = sectionShape x
        from Eq.refl _) j

/-- Property creation away from a section leaves it untouched. -/
theorem create_property_other (s : Store) (sec : Nat) (k : String) (v : PropVal)
    (j : Nat) (hj : j ≠ sec) :
    (s.create_property sec k v).sections[j]? = s.sections[j]? := by
  rw [Store.create_property]
  cases hx : s.sections[sec]? with
  | none => rfl
  | some x => exact List.getElem?_set_ne (fun hh => hj hh.symm)

/-- Property creation appends one entry to the property list of a valid
target. -/
theorem create_property_target (s : Store) (sec : Nat) (k : String) (v : PropVal)
    (x : NSection) (hx : s.sections[sec]? = some x) :
    (s.create_property sec k v).sections[sec]? =
      some { x with props := x.props ++ [(k, v)] } := by
  rw [Store.create_property, hx]
  exact List.getElem?_set_self (List.getElem?_eq_some.mp hx).1

/-- Annotation copying preserves the arena outside the target section. -/
theorem add_annotations_annframe (ann : List (String × PyVal)) :
    ∀ s md, AnnFrame s (_add_annotations s ann md) := by
  induction ann with
  | nil => intro s md; exact annframe_refl s
  | cons kv rest ih =>
    intro s md
    exact (create_property_annframe s md kv.1 (.single kv.2)).trans_ann
      (by rw [_add_annotations]; exact ih _ md)

/-- Annotation copying appends exactly the annotation entries to the
property list of the target section. -/
theorem add_annotations_target (ann : List (String × PyVal)) :
    ∀ s md, (_add_annotations s ann md).sections[md]? =
      (s.sections[md]?).map (fun x =>
        { x with props := x.props ++ ann.map (fun kv => (kv.1, PropVal.single kv.2)) }) := by
  induction ann with
  | nil =>
    intro s md
    rw [_add_annotations]
    cases hx : s.sections[md]? <;> simp
  | cons kv rest ih =>
    intro s md
    rw [_add_annotations, ih]
    cases hx : s.sections[md]? with
    | none =>
      rw [Store.create_property, hx]
      simp [hx]
    | some x =>
      rw [create_property_target s md kv.1 (.single kv.2) x hx]
      simp

/-- Annotation copying away from a section leaves it untouched. -/
theorem add_annotations_other (ann : List (String × PyVal)) :
    ∀ s md j, j ≠ md → (_add_annotations s ann md).sections[j]? = s.sections[j]? := by
  induction ann with
  | nil => intro s md j _; rw [_add_annotations]
  | cons kv rest ih =>
    intro s md j hj
    rw [_add_annotations, ih _ _ _ hj, create_property_other _ _ _ _ _ hj]

/-- The _copy_annotations helper stays inside the annotation frame. -/
theorem copy_annotations_annframe {s : Store} {ann : List (String × PyVal)}
    {r : NixRef} {p : Path} {s2 : Store}
    (h : _copy_annotations s ann r p = .ok s2) : AnnFrame s s2 := by
  rw [_copy_annotations] at h
  by_cases he : ann.isEmpty
  · rw [if_pos he] at h
    injection h with h
    subst h
    exact annframe_refl s
  · rw [if_neg he] at h
    obtain ⟨rr, hrr, h⟩ := bindE_ok_elim h
    injection h with h
    subst h
    exact (gom_frame hrr).1.toAnn.trans_ann (add_annotations_annframe ann rr.1 rr.2)

/- ================================================================== -/
/- Specification lemmas for the primitive store operations. -/

/-- Specification of create_data_array_in on success. -/
theorem create_data_array_spec {s : Store} {r : NixRef} {nm ty : String}
    {dat : DAData} {s1 : Store} {idx : Nat}
    (h : s.create_data_array_in r nm ty dat = .ok (s1, idx)) :
    idx = s.data_arrays.length ∧
    s1.data_arrays = s.data_arrays ++ [⟨nm, ty, dat, "", none, [], none, []⟩] ∧
    s1.groups = s.groups ∧ s1.sources = s.sources ∧
    s1.multi_tags = s.multi_tags ∧ s1.sections = s.sections ∧
    ∃ bi b, r = .block bi ∧ s.blocks[bi]? = some b ∧
      s1.blocks = s.blocks.set bi
        { b with data_arrays := b.data_arrays ++ [s.data_arrays.length] } := by
  cases r <;> simp only [Store.create_data_array_in, getArena] at h
  case block bi =>
    cases hx : s.blocks[bi]? with
    | none => rw [hx] at h; simp at h
    | some b =>
      rw [hx] at h
      simp only [bindE, Except.ok.injEq, Prod.mk.injEq] at h
      obtain ⟨h1, h2⟩ := h
      subst h1; subst h2
      exact ⟨Eq.refl _, Eq.refl _, Eq.refl _, Eq.refl _, Eq.refl _, Eq.refl _,
        bi, b, Eq.refl _, hx, Eq.refl _⟩
  all_goals simp at h

/-- Specification of create_multi_tag_in on success. -/
theorem create_multi_tag_spec {s : Store} {r : NixRef} {nm ty : String}
    {pos : Nat} {s1 : Store} {idx : Nat}
    (h : s.create_multi_tag_in r nm ty pos = .ok (s1, idx)) :
    idx = s.multi_tags.length ∧
    s1.multi_tags = s.multi_tags ++ [⟨nm, ty, pos, none, none, none, [], [], []⟩] ∧
    s1.groups = s.groups ∧ s1.sources = s.sources ∧
    s1.data_arrays = s.data_arrays ∧ s1.sections = s.sections ∧
    ∃ bi b, r = .block bi ∧ s.blocks[bi]? = some b ∧
      s1.blocks = s.blocks.set bi
        { b with multi_tags := b.multi_tags ++ [s.multi_tags.length] } := by
  cases r <;> simp only [Store.create_multi_tag_in, getArena] at h
  case block bi =>
    cases hx : s.blocks[bi]? with
    | none => rw [hx] at h; simp at h
    | some b =>
      rw [hx] at h
      simp only [bindE, Except.ok.injEq, Prod.mk.injEq] at h
      obtain ⟨h1, h2⟩ := h
      subst h1; subst h2
      exact ⟨Eq.refl _, Eq.refl _, Eq.refl _, Eq.refl _, Eq.refl _, Eq.refl _,
        bi, b, Eq.refl _, hx, Eq.refl _⟩
  all_goals simp at h

/-- Specification of create_group_in on success. -/
theorem create_group_spec {s : Store} {r : NixRef} {nm ty : String}
    {s1 : Store} {idx : Nat}
    (h : s.create_group_in r nm ty = .ok (s1, idx)) :
    idx = s.groups.length ∧
    s1.groups = s.groups ++ [⟨nm, ty, none, none, [], [], none⟩] ∧
    s1.sources = s.sources ∧ s1.data_arrays = s.data_arrays ∧
    s1.multi_tags = s.multi_tags ∧ s1.sections = s.sections ∧
    ∃ bi b, r = .block bi ∧ s.blocks[bi]? = some b ∧
      s1.blocks = s.blocks.set bi
        { b with groups := b.groups ++ [s.groups.length] } := by
  cases r <;> simp only [Store.create_group_in, getArena] at h
  case block bi =>
    cases hx : s.blocks[bi]? with
    | none => rw [hx] at h; simp at h
    | some b =>
      rw [hx] at h
      simp only [bindE, Except.ok.injEq, Prod.mk.injEq] at h
      obtain ⟨h1, h2⟩ := h
      subst h1; subst h2
      exact ⟨Eq.refl _, Eq.refl _, Eq.refl _, Eq.refl _, Eq.refl _, Eq.refl _,
        bi, b, Eq.refl _, hx, Eq.refl _⟩
  all_goals simp at h

/-- Specification of create_source_in on success: the new source sits at
the end of the source arena; blocks and the remaining arenas are unchanged
apart from the parent child-list. -/
theorem create_source_spec {s : Store} {r : NixRef} {nm ty : String}
    {s1 : Store} {idx : Nat}
    (h : s.create_source_in r nm ty = .ok (s1, idx)) :
    idx = s.sources.length ∧
    s1.sources[idx]? = some ⟨nm, ty, none, none, []⟩ ∧
    s1.sources.length = s.sources.length + 1 ∧
    s1.data_arrays = s.data_arrays ∧ s1.multi_tags = s.multi_tags ∧
    s1.groups = s.groups ∧ s1.sections = s.sections := by
  cases r <;> simp only [Store.create_source_in, getArena] at h
  case block bi =>
    cases hx : s.blocks[bi]? with
    | none => rw [hx] at h; simp at h
    | some b =>
      rw [hx] at h
      simp only [bindE, Except.ok.injEq, Prod.mk.injEq] at h
      obtain ⟨h1, h2⟩ := h
      subst h1; subst h2
      refine ⟨Eq.refl _, ?_, by simp, Eq.refl _, Eq.refl _, Eq.refl _, Eq.refl _⟩
      simp [List.getElem?_concat_length]
  case source si =>
    cases hx : s.sources[si]? with
    | none => rw [hx] at h; simp at h
    | some x =>
      rw [hx] at h
      simp only [bindE, Except.ok.injEq, Prod.mk.injEq] at h
      obtain ⟨h1, h2⟩ := h
      subst h1; subst h2
      refine ⟨Eq.refl _, ?_, by simp, Eq.refl _, Eq.refl _, Eq.refl _, Eq.refl _⟩
      set y : NSource := { x with sources := x.sources ++ [s.sources.length] } with hy
      show ((s.sources.set si y) ++ [⟨nm, ty, none, none, []⟩])[s.sources.length]? =
        some ⟨nm, ty, none, none, []⟩
      rw [show s.sources.length = (s.sources.set si y).length from by simp]
      exact List.getElem?_concat_length _ _
  all_goals simp at h

/-- The point update modifyDA leaves every other arena unchanged. -/
theorem modifyDA_arenas (s : Store) (i : Nat) (f : NDataArray → NDataArray) :
    (s.modifyDA i f).blocks = s.blocks ∧ (s.modifyDA i f).groups = s.groups ∧
    (s.modifyDA i f).sources = s.sources ∧
    (s.modifyDA i f).multi_tags = s.multi_tags ∧
    (s.modifyDA i f).sections = s.sections ∧
    (s.modifyDA i f).data_arrays.length = s.data_arrays.length := by
  rw [Store.modifyDA]
  cases hx : s.data_arrays[i]? <;> simp

/-- modifyDA away from its target. -/
theorem modifyDA_get_ne (s : Store) (i : Nat) (f : NDataArray → NDataArray)
    (j : Nat) (hj : j ≠ i) :
    (s.modifyDA i f).data_arrays[j]? = s.data_arrays[j]? := by
  rw [Store.modifyDA]
  cases hx : s.data_arrays[i]? with
  | none => rfl
  | some x => exact List.getElem?_set_ne (fun hh => hj hh.symm)

/-- modifyDA at its target. -/
theorem modifyDA_get_eq {s : Store} {i : Nat} {x : NDataArray}
    (f : NDataArray → NDataArray) (hx : s.data_arrays[i]? = some x) :
    (s.modifyDA i f).data_arrays[i]? = some (f x) := by
  rw [Store.modifyDA, hx]
  exact List.getElem?_set_self (List.getElem?_eq_some.mp hx).1

/-- The point update modifyMT leaves every other arena unchanged. -/
theorem modifyMT_arenas (s : Store) (i : Nat) (f : NMultiTag → NMultiTag) :
    (s.modifyMT i f).blocks = s.blocks ∧ (s.modifyMT i f).groups = s.groups ∧
    (s.modifyMT i f).sources = s.sources ∧
    (s.modifyMT i f).data_arrays = s.data_arrays ∧
    (s.modifyMT i f).sections = s.sections ∧
    (s.modifyMT i f).multi_tags.length = s.multi_tags.length := by
  rw [Store.modifyMT]
  cases hx : s.multi_tags[i]? <;> simp

/-- modifyMT away from its target. -/
theorem modifyMT_get_ne (s : Store) (i : Nat) (f : NMultiTag → NMultiTag)
    (j : Nat) (hj : j ≠ i) :
    (s.modifyMT i f).multi_tags[j]? = s.multi_tags[j]? := by
  rw [Store.modifyMT]
  cases hx : s.multi_tags[i]? with
  | none => rfl
  | some x => exact List.getElem?_set_ne (fun hh => hj hh.symm)

/-- modifyMT at its target. -/
theorem modifyMT_get_eq {s : Store} {i : Nat} {x : NMultiTag}
    (f : NMultiTag → NMultiTag) (hx : s.multi_tags[i]? = some x) :
    (s.modifyMT i f).multi_tags[i]? = some (f x) := by
  rw [Store.modifyMT, hx]
  exact List.getElem?_set_self (List.getElem?_eq_some.mp hx).1

/-- The point update modifySrc leaves every other arena unchanged. -/
theorem modifySrc_arenas (s : Store) (i : Nat) (f : NSource → NSource) :
    (s.modifySrc i f).blocks = s.blocks ∧ (s.modifySrc i f).groups = s.groups ∧
    (s.modifySrc i f).data_arrays = s.data_arrays ∧
    (s.modifySrc i f).multi_tags = s.multi_tags ∧
    (s.modifySrc i f).sections = s.sections ∧
    (s.modifySrc i f).sources.length = s.sources.length := by
  rw [Store.modifySrc]
  cases hx : s.sources[i]? <;> simp

/-- modifySrc at its target. -/
theorem modifySrc_get_eq {s : Store} {i : Nat} {x : NSource}
    (f : NSource → NSource) (hx : s.sources[i]? = some x) :
    (s.modifySrc i f).sources[i]? = some (f x) := by
  rw [Store.modifySrc, hx]
  exact List.getElem?_set_self (List.getElem?_eq_some.mp hx).1

/-- The point update modifyGroup leaves every other arena unchanged. -/
theorem modifyGroup_arenas (s : Store) (i : Nat) (f : NGroup → NGroup) :
    (s.modifyGroup i f).blocks = s.blocks ∧
    (s.modifyGroup i f).sources = s.sources ∧
    (s.modifyGroup i f).data_arrays = s.data_arrays ∧
    (s.modifyGroup i f).multi_tags = s.multi_tags ∧
    (s.modifyGroup i f).sections = s.sections ∧
    (s.modifyGroup i f).groups.length = s.groups.length := by
  rw [Store.modifyGroup]
  cases hx : s.groups[i]? <;> simp

/-- modifyGroup at its target. -/
theorem modifyGroup_get_eq {s : Store} {i : Nat} {x : NGroup}
    (f : NGroup → NGroup) (hx : s.groups[i]? = some x) :
    (s.modifyGroup i f).groups[i]? = some (f x) := by
  rw [Store.modifyGroup, hx]
  exact List.getElem?_set_self (List.getElem?_eq_some.mp hx).1

/-- Specification of group_append_multi_tag on success. -/
theorem group_append_multi_tag_spec {s : Store} {r : NixRef} {mt : Nat}
    {s1 : Store} (h : s.group_append_multi_tag r mt = .ok s1) :
    s1.blocks = s.blocks ∧ s1.sources = s.sources ∧
    s1.data_arrays = s.data_arrays ∧ s1.multi_tags = s.multi_tags ∧
    s1.sections = s.sections ∧ s1.groups.length = s.groups.length ∧
    ∃ gi g, r = .group gi ∧ s.groups[gi]? = some g ∧
      s1.groups = s.groups.set gi { g with multi_tags := g.multi_tags ++ [mt] } := by
  cases r <;> simp only [Store.group_append_multi_tag, getArena] at h
  case group gi =>
    cases hx : s.groups[gi]? with
    | none => rw [hx] at h; simp at h
    | some g =>
      rw [hx] at h
      simp only [bindE, Except.ok.injEq] at h
      subst h
      exact ⟨Eq.refl _, Eq.refl _, Eq.refl _, Eq.refl _, Eq.refl _, by simp,
        gi, g, Eq.refl _, hx, Eq.refl _⟩
  all_goals simp at h

/-- Specification of group_append_data_array on success. -/
theorem group_append_data_array_spec {s : Store} {r : NixRef} {da : Nat}
    {s1 : Store} (h : s.group_append_data_array r da = .ok s1) :
    s1.blocks = s.blocks ∧ s1.sources = s.sources ∧
    s1.data_arrays = s.data_arrays ∧ s1.multi_tags = s.multi_tags ∧
    s1.sections = s.sections ∧ s1.groups.length = s.groups.length ∧
    ∃ gi g, r = .group gi ∧ s.groups[gi]? = some g ∧
      s1.groups = s.groups.set gi { g with data_arrays := g.data_arrays ++ [da] } := by
  cases r <;> simp only [Store.group_append_data_array, getArena] at h
  case group gi =>
    cases hx : s.groups[gi]? with
    | none => rw [hx] at h; simp at h
    | some g =>
      rw [hx] at h
      simp only [bindE, Except.ok.injEq] at h
      subst h
      exact ⟨Eq.refl _, Eq.refl _, Eq.refl _, Eq.refl _, Eq.refl _, by simp,
        gi, g, Eq.refl _, hx, Eq.refl _⟩
  all_goals simp at h

/-- Specification of sources_append on success: the appended value is a
source descriptor, and only the sources list of the target is extended. -/
theorem sources_append_spec {s : Store} {target v : NixRef} {s1 : Store}
    (h : s.sources_append target v = .ok s1) :
    ∃ j, v = .source j ∧
    ((∃ i m, target = .multiTag i ∧ s.multi_tags[i]? = some m ∧
        s1 = { s with multi_tags := s.multi_tags.set i { m with sources := m.sources ++ [j] } }) ∨
     (∃ i d, target = .dataArray i ∧ s.data_arrays[i]? = some d ∧
        s1 = { s with data_arrays := s.data_arrays.set i { d with sources := d.sources ++ [j] } }) ∨
     (∃ i x, target = .source i ∧ s.sources[i]? = some x ∧
        s1 = { s with sources := s.sources.set i { x with sources := x.sources ++ [j] } })) := by
  cases v <;> simp only [Store.sources_append] at h
  case source j =>
    refine ⟨j, Eq.refl _, ?_⟩
    cases target <;> simp only [getArena] at h
    case multiTag i =>
      cases hx : s.multi_tags[i]? with
      | none => rw [hx] at h; simp at h
      | some m =>
        rw [hx] at h
        simp only [bindE, Except.ok.injEq] at h
        exact Or.inl ⟨i, m, Eq.refl _, hx, h.symm⟩
    case dataArray i =>
      cases hx : s.data_arrays[i]? with
      | none => rw [hx] at h; simp at h
      | some d =>
        rw [hx] at h
        simp only [bindE, Except.ok.injEq] at h
        exact Or.inr (Or.inl ⟨i, d, Eq.refl _, hx, h.symm⟩)
    case source i =>
      cases hx : s.sources[i]? with
      | none => rw [hx] at h; simp at h
      | some x =>
        rw [hx] at h
        simp only [bindE, Except.ok.injEq] at h
        exact Or.inr (Or.inr ⟨i, x, Eq.refl _, hx, h.symm⟩)
    all_goals simp at h
  all_goals simp at h

/-- Index bound hidden in a successful projected lookup. -/
theorem map_getElem?_lt {α β : Type} {l : List α} {i : Nat} {f : α → β} {t : β}
    (h : (l[i]?).map f = some t) : i < l.length := by
  cases hx : l[i]? with
  | none => rw [hx] at h; simp at h
  | some x => exact (List.getElem?_eq_some.mp hx).1

/-- Appending elements preserves a projected lookup. -/
theorem map_getElem?_append {α β : Type} {l1 l2 : List α} {i : Nat}
    (f : α → β) {t : β} (h : (l1[i]?).map f = some t) :
    ((l1 ++ l2)[i]?).map f = some t := by
  rw [List.getElem?_append_left (map_getElem?_lt h)]
  exact h

/-- Predicate of the contained-signal filter, as a function of the store. -/
def contained_pred (s : Store) (j : Nat) : Bool :=
  match s.data_arrays[j]? with
  | some da => (["neo.analogsignal", "neo.irregularlysampledsignal"] : List String).contains da.type
  | none => false

/-- The contained-signal predicate only depends on the projected type. -/
theorem contained_pred_eq_of_type {s s2 : Store} {j : Nat}
    (h : (s2.data_arrays[j]?).map NDataArray.type =
      (s.data_arrays[j]?).map NDataArray.type) :
    contained_pred s2 j = contained_pred s j := by
  rw [contained_pred, contained_pred]
  revert h
  cases o1 : s2.data_arrays[j]? with
  | none =>
    cases o2 : s.data_arrays[j]? with
    | none => intro h; rfl
    | some d2 => intro h; simp at h
  | some d1 =>
    cases o2 : s.data_arrays[j]? with
    | none => intro h; simp at h
    | some d2 =>
      intro h
      injection h with h
      simp [h]

/-- Membership in the contained-signal set forces a signal type tag. -/
theorem contained_signals_mem {s : Store} {g : NixRef} {l : List Nat}
    (h : _get_contained_signals s g = .ok l) {i : Nat} (hi : i ∈ l) :
    (s.data_arrays[i]?).map NDataArray.type = some ("neo.analogsignal") ∨
    (s.data_arrays[i]?).map NDataArray.type = some ("neo.irregularlysampledsignal") := by
  rw [_get_contained_signals] at h
  obtain ⟨das, _hd, h⟩ := bindE_ok_elim h
  injection h with h
  subst h
  obtain ⟨_, hpred⟩ := List.mem_filter.mp hi
  revert hpred
  cases hx : s.data_arrays[i]? with
  | none => intro hpred; simp at hpred
  | some da =>
    intro hpred
    simp [List.contains] at hpred
    rcases hpred with hh | hh
    · exact Or.inl (by simp [hh])
    · exact Or.inr (by simp [hh])

/-- Property creation never touches the data arrays. -/
theorem create_property_data_arrays (s : Store) (sec : Nat) (k : String)
    (v : PropVal) : (s.create_property sec k v).data_arrays = s.data_arrays := by
  rw [Store.create_property]
  cases s.sections[sec]? <;> rfl

/-- The data arrays are untouched by modifyMT. -/
theorem modifyMT_data_arrays (s : Store) (i : Nat) (f : NMultiTag → NMultiTag) :
    (s.modifyMT i f).data_arrays = s.data_arrays :=
  (modifyMT_arenas s i f).2.2.2.1

/-- The data arrays are untouched by modifyGroup. -/
theorem modifyGroup_data_arrays (s : Store) (i : Nat) (f : NGroup → NGroup) :
    (s.modifyGroup i f).data_arrays = s.data_arrays :=
  (modifyGroup_arenas s i f).2.2.1

/-- Point updates that keep the type keep every projected type lookup. -/
theorem modifyDA_map_type (s : Store) (i : Nat) (f : NDataArray → NDataArray)
    (hf : ∀ x, (f x).type = x.type) (j : Nat) :
    ((s.modifyDA i f).data_arrays[j]?).map NDataArray.type =
      (s.data_arrays[j]?).map NDataArray.type := by
  rw [Store.modifyDA]
  cases hx : s.data_arrays[i]? with
  | none => rfl
  | some x => exact getElem?_map_set NDataArray.type hx (hf x) j

/-- Setting the unit of one data array keeps every projected type. -/
theorem map_type_modifyDA_unit {s : Store} {i : Nat} {u : String} {j : Nat}
    {t : String}
    (h : (s.data_arrays[j]?).map NDataArray.type = some t) :
    (((s.modifyDA i fun da => { da with unit := u }).data_arrays[j]?).map
      NDataArray.type) = some t := by
  rw [modifyDA_map_type s i (fun da => { da with unit := u })
    (fun x => Eq.refl _) j]
  exact h

/-- Appending dimensions to one data array keeps every projected type. -/
theorem map_type_modifyDA_dims {s : Store} {i : Nat} {ds : List NDim} {j : Nat}
    {t : String}
    (h : (s.data_arrays[j]?).map NDataArray.type = some t) :
    (((s.modifyDA i fun da => { da with dims := da.dims ++ ds }).data_arrays[j]?).map
      NDataArray.type) = some t := by
  rw [modifyDA_map_type s i (fun da => { da with dims := da.dims ++ ds })
    (fun x => Eq.refl _) j]
  exact h

/-- Setting the definition of one data array keeps every projected type. -/
theorem map_type_modifyDA_def {s : Store} {i : Nat} {d : Option String} {j : Nat}
    {t : String}
    (h : (s.data_arrays[j]?).map NDataArray.type = some t) :
    (((s.modifyDA i fun da => { da with definition := d }).data_arrays[j]?).map
      NDataArray.type) = some t := by
  rw [modifyDA_map_type s i (fun da => { da with definition := d })
    (fun x => Eq.refl _) j]
  exact h

/-- Multi-tag updates keep every projected data-array type. -/
theorem map_type_modifyMT {s : Store} {i : Nat} {f : NMultiTag → NMultiTag}
    {j : Nat} {t : String}
    (h : (s.data_arrays[j]?).map NDataArray.type = some t) :
    (((s.modifyMT i f).data_arrays[j]?).map NDataArray.type) = some t := by
  rw [modifyMT_data_arrays]
  exact h

/-- Left part of an append seen through a projection. -/
theorem map_getElem?_append_lt {α β : Type} {l1 l2 : List α} (f : α → β)
    (j : Nat) (hj : j < l1.length) :
    ((l1 ++ l2)[j]?).map f = (l1[j]?).map f := by
  rw [List.getElem?_append_left hj]

/-- Point updates that keep the references keep every projected lookup. -/
theorem modifyMT_map_refs (s : Store) (i : Nat) (f : NMultiTag → NMultiTag)
    (hf : ∀ x, (f x).references = x.references) (j : Nat) :
    ((s.modifyMT i f).multi_tags[j]?).map NMultiTag.references =
      (s.multi_tags[j]?).map NMultiTag.references := by
  rw [Store.modifyMT]
  cases hx : s.multi_tags[i]? with
  | none => rfl
  | some x => exact getElem?_map_set NMultiTag.references hx (hf x) j

/-- Setting the extents of a multi tag keeps every references lookup. -/
theorem mt_refs_modifyMT_extents {s : Store} {i : Nat} {e : Option Nat}
    {j : Nat} {t : List Nat}
    (h : (s.multi_tags[j]?).map NMultiTag.references = some t) :
    (((s.modifyMT i fun m => { m with extents := e }).multi_tags[j]?).map
      NMultiTag.references) = some t := by
  rw [modifyMT_map_refs s i (fun m => { m with extents := e })
    (fun x => Eq.refl _) j]
  exact h

/-- Setting the definition of a multi tag keeps every references lookup. -/
theorem mt_refs_modifyMT_def {s : Store} {i : Nat} {d : Option String}
    {j : Nat} {t : List Nat}
    (h : (s.multi_tags[j]?).map NMultiTag.references = some t) :
    (((s.modifyMT i fun m => { m with definition := d }).multi_tags[j]?).map
      NMultiTag.references) = some t := by
  rw [modifyMT_map_refs s i (fun m => { m with definition := d })
    (fun x => Eq.refl _) j]
  exact h

/-- References can be read off the preserved multi-tag shape. -/
theorem mt_refs_of_shape {o1 o2 : Option NMultiTag}
    (h : o1.map (fun m => (m.name, m.sources, m.references)) =
      o2.map (fun m => (m.name, m.sources, m.references))) :
    o1.map NMultiTag.references = o2.map NMultiTag.references := by
  cases o1 <;> cases o2 <;> simp_all

/-- Sources can be read off the preserved multi-tag shape. -/
theorem mt_sources_of_shape {o1 o2 : Option NMultiTag}
    (h : o1.map (fun m => (m.name, m.sources, m.references)) =
      o2.map (fun m => (m.name, m.sources, m.references))) :
    o1.map NMultiTag.sources = o2.map NMultiTag.sources := by
  cases o1 <;> cases o2 <;> simp_all

/-- Names can be read off the preserved multi-tag shape. -/
theorem mt_name_of_shape {o1 o2 : Option NMultiTag}
    (h : o1.map (fun m => (m.name, m.sources, m.references)) =
      o2.map (fun m => (m.name, m.sources, m.references))) :
    o1.map NMultiTag.name = o2.map NMultiTag.name := by
  cases o1 <;> cases o2 <;> simp_all

/-- Appending to the references of a valid multi tag. -/
theorem modifyMT_refs_append {s : Store} {i : Nat} {rs : List Nat}
    (cont : List Nat)
    (h : (s.multi_tags[i]?).map NMultiTag.references = some rs) :
    (((s.modifyMT i fun m => { m with references := m.references ++ cont }).multi_tags[i]?).map
      NMultiTag.references) = some (rs ++ cont) := by
  cases hx : s.multi_tags[i]? with
  | none => rw [hx] at h; simp at h
  | some m =>
    rw [modifyMT_get_eq _ hx]
    rw [hx] at h
    injection h with h
    simp [h]

/-- Property creation never touches the multi tags. -/
theorem create_property_multi_tags (s : Store) (sec : Nat) (k : String)
    (v : PropVal) : (s.create_property sec k v).multi_tags = s.multi_tags := by
  rw [Store.create_property]
  cases s.sections[sec]? <;> rfl

/-- Property creation never touches the groups. -/
theorem create_property_groups (s : Store) (sec : Nat) (k : String)
    (v : PropVal) : (s.create_property sec k v).groups = s.groups := by
  rw [Store.create_property]
  cases s.sections[sec]? <;> rfl

/-- Property creation never touches the sources. -/
theorem create_property_sources (s : Store) (sec : Nat) (k : String)
    (v : PropVal) : (s.create_property sec k v).sources = s.sources := by
  rw [Store.create_property]
  cases s.sections[sec]? <;> rfl

/-- The multi tags are untouched by modifyDA. -/
theorem modifyDA_multi_tags (s : Store) (i : Nat) (f : NDataArray → NDataArray) :
    (s.modifyDA i f).multi_tags = s.multi_tags :=
  (modifyDA_arenas s i f).2.2.2.1

/-- The groups are untouched by modifyDA. -/
theorem modifyDA_groups (s : Store) (i : Nat) (f : NDataArray → NDataArray) :
    (s.modifyDA i f).groups = s.groups :=
  (modifyDA_arenas s i f).2.1

/-- The groups are untouched by modifyMT. -/
theorem modifyMT_groups (s : Store) (i : Nat) (f : NMultiTag → NMultiTag) :
    (s.modifyMT i f).groups = s.groups :=
  (modifyMT_arenas s i f).2.1

/-- The data-array length is untouched by modifyDA. -/
theorem modifyDA_length (s : Store) (i : Nat) (f : NDataArray → NDataArray) :
    (s.modifyDA i f).data_arrays.length = s.data_arrays.length :=
  (modifyDA_arenas s i f).2.2.2.2.2

/- ================================================================== -/
/- C10.  Spike-train positions arrays reuse the epoch type tag and are
   never contained signals. -/

/-- C10: the positions data array created by write_spiketrain carries the
NIX type tag of epoch positions arrays, neo.epoch.times — the same tag
write_epoch gives its positions array — and consequently it never appears
in the contained-signal set that populates epoch and event reference
lists, which filters on the two signal type tags only. -/
theorem claim_C10_spiketrain_times_tag :
    (∀ (aid : Nat → Nat) (sptr : NeoSpikeTrain) (pp : Path) (w w2 : WState)
      (res : NixRef), write_spiketrain aid sptr pp w = .ok (w2, res) →
      (w2.store.data_arrays[w.store.data_arrays.length]?).map NDataArray.type =
        some ("neo.epoch.times") ∧
      ∀ (g : NixRef) (l : List Nat),
        _get_contained_signals w2.store g = .ok l →
        w.store.data_arrays.length ∉ l) ∧
    (∀ (aid : Nat → Nat) (ep : NeoEpoch) (pp : Path) (w w2 : WState)
      (res : NixRef), write_epoch aid ep pp w = .ok (w2, res) →
      (w2.store.data_arrays[w.store.data_arrays.length]?).map NDataArray.type =
        some ("neo.epoch.times")) := by
  constructor
  · intro aid sptr pp w w2 res h
    rw [write_spiketrain] at h
    obtain ⟨po, _hpo, h⟩ := bindE_ok_elim h
    obtain ⟨parent_obj, _hobj, h⟩ := bindE_ok_elim h
    obtain ⟨hp, _hhp, h⟩ := bindE_ok_elim h
    obtain ⟨pb, _hpb, h⟩ := bindE_ok_elim h
    obtain ⟨parent_block, _hpblock, h⟩ := bindE_ok_elim h
    obtain ⟨nix_name, _hname, h⟩ := bindE_ok_elim h
    obtain ⟨pda, hpda, h⟩ := bindE_ok_elim h
    obtain ⟨hbase, hdas, _, _, _, _, _⟩ := create_data_array_spec hpda
    have hP1 : (pda.1.data_arrays[w.store.data_arrays.length]?).map
        NDataArray.type = some ("neo.epoch.times") := by
      rw [hdas, List.getElem?_concat_length]
      rfl
    obtain ⟨pmt, hpmt, h⟩ := bindE_ok_elim h
    obtain ⟨_, _, _, _, hmtda, _, _⟩ := create_multi_tag_spec hpmt
    have hP3 : (pmt.1.data_arrays[w.store.data_arrays.length]?).map
        NDataArray.type = some ("neo.epoch.times") := by
      rw [hmtda]
      exact map_type_modifyDA_unit hP1
    obtain ⟨s2, hs2, h⟩ := bindE_ok_elim h
    have hP4 : (s2.data_arrays[w.store.data_arrays.length]?).map
        NDataArray.type = some ("neo.epoch.times") := by
      rcases parent_obj with _ | bi | gi | si | di | mi
      · injection hs2 with hs2; rw [← hs2]; exact hP3
      · injection hs2 with hs2; rw [← hs2]; exact hP3
      · obtain ⟨_, _, hda2, _, _, _, _⟩ := group_append_multi_tag_spec hs2
        rw [hda2]; exact hP3
      · injection hs2 with hs2
        rw [← hs2]
        exact map_type_modifyMT hP3
      · injection hs2 with hs2; rw [← hs2]; exact hP3
      · injection hs2 with hs2; rw [← hs2]; exact hP3
    obtain ⟨rmd, hrmd, h⟩ := bindE_ok_elim h
    have hP5 : (rmd.1.data_arrays[w.store.data_arrays.length]?).map
        NDataArray.type = some ("neo.epoch.times") := by
      rw [(gom_frame hrmd).1.da_type_meta]
      exact map_type_modifyMT hP4
    obtain ⟨s4, hs4, h⟩ := bindE_ok_elim h
    have hP6 : (s4.data_arrays[w.store.data_arrays.length]?).map
        NDataArray.type = some ("neo.epoch.times") := by
      rw [(copy_annotations_annframe hs4).da_type_ann]
      exact hP5
    rcases hwf : sptr.waveforms with _ | wfs <;> rw [hwf] at h
    · obtain ⟨s8, hs8, h⟩ := bindE_ok_elim h
      injection h with h
      injection h with hw2 _hres
      subst hw2
      injection hs8 with hs8
      refine ⟨?_, ?_⟩
      · show ((s8.data_arrays[w.store.data_arrays.length]?).map NDataArray.type = _)
        rw [← hs8, create_property_data_arrays]
        split
        · split
          · exact hP6
          · rw [create_property_data_arrays]; exact hP6
        · rw [create_property_data_arrays]
          split
          · exact hP6
          · rw [create_property_data_arrays]; exact hP6
      · intro g l hl hmem
        have hPfin : (s8.data_arrays[w.store.data_arrays.length]?).map
            NDataArray.type = some ("neo.epoch.times") := by
          rw [← hs8, create_property_data_arrays]
          split
          · split
            · exact hP6
            · rw [create_property_data_arrays]; exact hP6
          · rw [create_property_data_arrays]
            split
            · exact hP6
            · rw [create_property_data_arrays]; exact hP6
        rcases contained_signals_mem hl hmem with hc | hc <;>
          rw [hPfin] at hc <;> exact absurd (Option.some.inj hc) (by decide)
    · obtain ⟨s8, hs8, h⟩ := bindE_ok_elim h
      injection h with h
      injection h with hw2 _hres
      subst hw2
      obtain ⟨pwf, hpwf, hs8⟩ := bindE_ok_elim hs8
      obtain ⟨_hwbase, hwdas, _, _, _, _, _⟩ := create_data_array_spec hpwf
      have hQ1 : (pwf.1.data_arrays[w.store.data_arrays.length]?).map
          NDataArray.type = some ("neo.epoch.times") := by
        rw [hwdas]
        refine map_getElem?_append NDataArray.type ?_
        rw [create_property_data_arrays]
        split
        · split
          · exact hP6
          · rw [create_property_data_arrays]; exact hP6
        · rw [create_property_data_arrays]
          split
          · exact hP6
          · rw [create_property_data_arrays]; exact hP6
      obtain ⟨rwf, hrwf, hs8⟩ := bindE_ok_elim hs8
      have hQ3 : (rwf.1.data_arrays[w.store.data_arrays.length]?).map
          NDataArray.type = some ("neo.epoch.times") := by
        rw [(gom_frame hrwf).1.da_type_meta]
        exact map_type_modifyDA_dims (map_type_modifyDA_dims
          (map_type_modifyDA_dims (map_type_modifyMT
            (map_type_modifyDA_unit hQ1))))
      obtain ⟨sf, hsf, hs8⟩ := bindE_ok_elim hs8
      have hQ4 : (sf.data_arrays[w.store.data_arrays.length]?).map
          NDataArray.type = some ("neo.epoch.times") := by
        rw [(set_metadata_metaframe hsf).1.da_type_meta]
        exact hQ3
      have hPfin : (s8.data_arrays[w.store.data_arrays.length]?).map
          NDataArray.type = some ("neo.epoch.times") := by
        rcases hls : sptr.left_sweep with _ | ls <;> rw [hls] at hs8
        · injection hs8 with hs8
          rw [← hs8]
          exact hQ4
        · split at hs8
          · split at hs8 <;> injection hs8 with hs8 <;> rw [← hs8] <;>
              (try rw [create_property_data_arrays]) <;> exact hQ4
          · injection hs8 with hs8
            rw [← hs8]
            exact hQ4
      refine ⟨hPfin, ?_⟩
      intro g l hl hmem
      rcases contained_signals_mem hl hmem with hc | hc <;>
        rw [hPfin] at hc <;> exact absurd (Option.some.inj hc) (by decide)
  · intro aid ep pp w w2 res h
    rw [write_epoch] at h
    obtain ⟨po, _hpo, h⟩ := bindE_ok_elim h
    obtain ⟨parent_group, _hobj, h⟩ := bindE_ok_elim h
    obtain ⟨hp, _hhp, h⟩ := bindE_ok_elim h
    obtain ⟨pb, _hpb, h⟩ := bindE_ok_elim h
    obtain ⟨parent_block, _hpblock, h⟩ := bindE_ok_elim h
    obtain ⟨nix_name, _hname, h⟩ := bindE_ok_elim h
    obtain ⟨ptd, hptd, h⟩ := bindE_ok_elim h
    obtain ⟨_, hdas, _, _, _, _, _⟩ := create_data_array_spec hptd
    have hP1 : (ptd.1.data_arrays[w.store.data_arrays.length]?).map
        NDataArray.type = some ("neo.epoch.times") := by
      rw [hdas, List.getElem?_concat_length]
      rfl
    obtain ⟨pdd, hpdd, h⟩ := bindE_ok_elim h
    obtain ⟨_, hddas, _, _, _, _, _⟩ := create_data_array_spec hpdd
    have hP2 : (pdd.1.data_arrays[w.store.data_arrays.length]?).map
        NDataArray.type = some ("neo.epoch.times") := by
      rw [hddas]
      exact map_getElem?_append NDataArray.type (map_type_modifyDA_unit hP1)
    obtain ⟨pmt, hpmt, h⟩ := bindE_ok_elim h
    obtain ⟨_, _, _, _, hmtda, _, _⟩ := create_multi_tag_spec hpmt
    have hP3 : (pmt.1.data_arrays[w.store.data_arrays.length]?).map
        NDataArray.type = some ("neo.epoch.times") := by
      rw [hmtda]
      exact map_type_modifyDA_unit hP2
    obtain ⟨s5, hs5, h⟩ := bindE_ok_elim h
    obtain ⟨_, _, hgdas, _, _, _, _⟩ := group_append_multi_tag_spec hs5
    have hP4 : (s5.data_arrays[w.store.data_arrays.length]?).map
        NDataArray.type = some ("neo.epoch.times") := by
      rw [hgdas]
      exact map_type_modifyMT (map_type_modifyDA_dims hP3)
    obtain ⟨s7, hs7, h⟩ := bindE_ok_elim h
    have hP5 : (s7.data_arrays[w.store.data_arrays.length]?).map
        NDataArray.type = some ("neo.epoch.times") := by
      revert hs7
      split
      · intro hs7
        injection hs7 with hs7
        rw [← hs7]
        exact map_type_modifyMT hP4
      · intro hs7
        obtain ⟨rr, hrr, hs7⟩ := bindE_ok_elim hs7
        injection hs7 with hs7
        rw [← hs7, create_property_data_arrays, (gom_frame hrr).1.da_type_meta]
        exact map_type_modifyMT hP4
    obtain ⟨s8, hs8, h⟩ := bindE_ok_elim h
    have hP6 : (s8.data_arrays[w.store.data_arrays.length]?).map
        NDataArray.type = some ("neo.epoch.times") := by
      rw [(copy_annotations_annframe hs8).da_type_ann]
      exact hP5
    obtain ⟨contained, _hcont, h⟩ := bindE_ok_elim h
    injection h with h
    injection h with hw2 _hres
    subst hw2
    exact map_type_modifyMT hP6

/-- Unit of seconds used by concrete witness runs. -/
def uSecW : UnitQ := ⟨"s", 1, "s", 1⟩

/-- Concrete spike train for witness runs. -/
def sptrW : NeoSpikeTrain :=
  ⟨5, "st", none, "", [], [1], uSecW, ⟨0, uSecW⟩, ⟨2, uSecW⟩, ⟨1, uSecW⟩,
   none, none⟩

/-- Concrete epoch for witness runs. -/
def epW : NeoEpoch := ⟨6, "epp", none, "", [], [1], uSecW, [1], uSecW, []⟩

/-- Witness for C10: concrete spike-train and epoch runs both produce a
positions array typed neo.epoch.times. -/
theorem claim_C10_witness :
    ∃ pr1 pr2 : WState × NixRef,
      write_spiketrain (fun t => t) sptrW [("block", "blk"), ("group", "seg")]
        ⟨witStore, []⟩ = .ok pr1 ∧
      (pr1.1.store.data_arrays[(0 : Nat)]?).map NDataArray.type =
        some ("neo.epoch.times") ∧
      write_epoch (fun t => t) epW [("block", "blk"), ("group", "seg")]
        ⟨witStore, []⟩ = .ok pr2 ∧
      (pr2.1.store.data_arrays[(0 : Nat)]?).map NDataArray.type =
        some ("neo.epoch.times") := by
  have hok1 : (write_spiketrain (fun t => t) sptrW
      [("block", "blk"), ("group", "seg")] ⟨witStore, []⟩).isOk = true := by decide
  have hok2 : (write_epoch (fun t => t) epW
      [("block", "blk"), ("group", "seg")] ⟨witStore, []⟩).isOk = true := by decide
  match hrun1 : write_spiketrain (fun t => t) sptrW
      [("block", "blk"), ("group", "seg")] ⟨witStore, []⟩ with
  | .error e => rw [hrun1] at hok1; simp [Except.isOk, Except.toBool] at hok1
  | .ok (w1, r1) =>
    match hrun2 : write_epoch (fun t => t) epW
        [("block", "blk"), ("group", "seg")] ⟨witStore, []⟩ with
    | .error e => rw [hrun2] at hok2; simp [Except.isOk, Except.toBool] at hok2
    | .ok (w2, r2) =>
      exact ⟨(w1, r1), (w2, r2), rfl,
        (claim_C10_spiketrain_times_tag.1 (fun t => t) sptrW
          [("block", "blk"), ("group", "seg")] ⟨witStore, []⟩ w1 r1 hrun1).1,
        rfl,
        claim_C10_spiketrain_times_tag.2 (fun t => t) epW
          [("block", "blk"), ("group", "seg")] ⟨witStore, []⟩ w2 r2 hrun2⟩

/- ================================================================== -/
/- C6.  Epoch and event reference lists are exactly the contained
   signal data arrays of the parent group. -/

/-- C6: for every Epoch and every Event written into a segment whose
group is valid, the reference list of the created MultiTag ends up being
exactly the data arrays referenced by that group, filtered to the two
signal type tags, as they stand when the epoch or event is written (the
group content and the types of its arrays are unchanged by the call
itself). -/
theorem claim_C6_epoch_event_references :
    (∀ (aid : Nat → Nat) (ep : NeoEpoch) (pp : Path) (w w2 : WState)
      (res : NixRef) (gi : Nat) (g : NGroup),
      write_epoch aid ep pp w = .ok (w2, res) →
      _get_object_at w.store pp = .ok (some (.group gi)) →
      w.store.groups[gi]? = some g →
      (∀ j ∈ g.data_arrays, j < w.store.data_arrays.length) →
      res = .multiTag w.store.multi_tags.length ∧
      (w2.store.multi_tags[w.store.multi_tags.length]?).map NMultiTag.references =
        some (g.data_arrays.filter (contained_pred w.store))) ∧
    (∀ (aid : Nat → Nat) (ev : NeoEvent) (pp : Path) (w w2 : WState)
      (res : NixRef) (gi : Nat) (g : NGroup),
      write_event aid ev pp w = .ok (w2, res) →
      _get_object_at w.store pp = .ok (some (.group gi)) →
      w.store.groups[gi]? = some g →
      (∀ j ∈ g.data_arrays, j < w.store.data_arrays.length) →
      res = .multiTag w.store.multi_tags.length ∧
      (w2.store.multi_tags[w.store.multi_tags.length]?).map NMultiTag.references =
        some (g.data_arrays.filter (contained_pred w.store))) := by
  constructor
  · intro aid ep pp w w2 res gi g h hpath hg hbound
    rw [write_epoch] at h
    obtain ⟨po, hpo, h⟩ := bindE_ok_elim h
    rw [hpath] at hpo
    injection hpo with hpo
    subst hpo
    obtain ⟨parent_group, hpg, h⟩ := bindE_ok_elim h
    injection hpg with hpg
    subst hpg
    obtain ⟨hp, _hhp, h⟩ := bindE_ok_elim h
    obtain ⟨pb, _hpb, h⟩ := bindE_ok_elim h
    obtain ⟨parent_block, _hpblock, h⟩ := bindE_ok_elim h
    obtain ⟨nix_name, _hname, h⟩ := bindE_ok_elim h
    obtain ⟨ptd, hptd, h⟩ := bindE_ok_elim h
    obtain ⟨hidx1, hdas1, hgr1, _hsrc1, hmts1, _hsec1, _hbl1⟩ :=
      create_data_array_spec hptd
    obtain ⟨pdd, hpdd, h⟩ := bindE_ok_elim h
    obtain ⟨hidx2, hdas2, hgr2, _hsrc2, hmts2, _hsec2, _hbl2⟩ :=
      create_data_array_spec hpdd
    obtain ⟨pmt, hpmt, h⟩ := bindE_ok_elim h
    obtain ⟨hidx3, hmt3, hgr3, _hsrc3, hda3, _hsec3, _hbl3⟩ :=
      create_multi_tag_spec hpmt
    have hmtlen : pmt.2 = w.store.multi_tags.length := by
      rw [hidx3, modifyDA_multi_tags, hmts2, modifyDA_multi_tags, hmts1]
    obtain ⟨s5, hs5, h⟩ := bindE_ok_elim h
    obtain ⟨_hb5, _hsc5, hda5, hmt5, _hsec5, _hgl5, gi2, g2, hgi2, hgx2, hgroups5⟩ :=
      group_append_multi_tag_spec hs5
    injection hgi2 with hgi2
    subst hgi2
    have hgroups_pre : ((pmt.1.modifyDA ptd.2
        (fun da => { da with dims := da.dims ++ [.setDim ep.labels] })).modifyMT
          pmt.2 (fun m => { m with extents := some pdd.2 })).groups =
        w.store.groups := by
      rw [modifyMT_groups, modifyDA_groups, hgr3, modifyDA_groups, hgr2,
        modifyDA_groups, hgr1]
    have hg2 : g2 = g := by
      rw [hgroups_pre, hg] at hgx2
      injection hgx2 with hgx2
      exact hgx2.symm
    rw [hg2] at hgroups5
    obtain ⟨s7, hs7, h⟩ := bindE_ok_elim h
    have hAnn7 : AnnFrame (s5.modifyMT pmt.2
        (fun m => { m with definition := ep.description })) s7 := by
      revert hs7
      split
      · intro hs7
        injection hs7 with hs7
        rw [← hs7]
        exact annframe_refl _
      · intro hs7
        obtain ⟨rr, hrr, hs7⟩ := bindE_ok_elim hs7
        injection hs7 with hs7
        rw [← hs7]
        exact (gom_frame hrr).1.toAnn.trans_ann (create_property_annframe _ _ _ _)
    obtain ⟨s8, hs8, h⟩ := bindE_ok_elim h
    have hAnn : AnnFrame (s5.modifyMT pmt.2
        (fun m => { m with definition := ep.description })) s8 :=
      hAnn7.trans_ann (copy_annotations_annframe hs8)
    obtain ⟨contained, hcont, h⟩ := bindE_ok_elim h
    injection h with h
    injection h with hw2 hres
    subst hw2
    -- group contents of gi in s8
    have hglt : gi < w.store.groups.length := (List.getElem?_eq_some.mp hg).1
    have hg5 : s5.groups[gi]? = some { g with multi_tags := g.multi_tags ++ [pmt.2] } := by
      rw [hgroups5, hgroups_pre]
      exact List.getElem?_set_self hglt
    have hgc : (s8.groups[gi]?).map (fun x => (x.data_arrays, x.multi_tags)) =
        some (g.data_arrays, g.multi_tags ++ [pmt.2]) := by
      rw [hAnn.group_contents_ann gi, modifyMT_groups, hg5]
      rfl
    -- data-array types at indices below the entry length are unchanged
    have hT : ∀ j, j < w.store.data_arrays.length →
        (s8.data_arrays[j]?).map NDataArray.type =
          (w.store.data_arrays[j]?).map NDataArray.type := by
      intro j hj
      rw [hAnn.da_type_ann j, modifyMT_data_arrays, hda5, modifyMT_data_arrays]
      rw [modifyDA_map_type pmt.1 ptd.2
        (fun da => { da with dims := da.dims ++ [.setDim ep.labels] })
        (fun x => Eq.refl _) j]
      rw [hda3]
      rw [modifyDA_map_type pdd.1 pdd.2
        (fun da => { da with unit := ep.durations_unit.uname })
        (fun x => Eq.refl _) j]
      rw [hdas2]
      have hj1 : j < (ptd.1.modifyDA ptd.2
          (fun da => { da with unit := ep.times_unit.uname })).data_arrays.length := by
        rw [modifyDA_length, hdas1]
        simp
        omega
      rw [map_getElem?_append_lt NDataArray.type j hj1]
      rw [modifyDA_map_type ptd.1 ptd.2
        (fun da => { da with unit := ep.times_unit.uname })
        (fun x => Eq.refl _) j]
      rw [hdas1]
      exact map_getElem?_append_lt NDataArray.type j hj
    -- the contained list is the filter over the entry store
    have hcont2 : contained = g.data_arrays.filter (contained_pred w.store) := by
      rw [_get_contained_signals] at hcont
      obtain ⟨das, hdas, hcont⟩ := bindE_ok_elim hcont
      injection hcont with hcont
      subst hcont
      cases hx8 : s8.groups[gi]? with
      | none => rw [hx8] at hgc; simp at hgc
      | some g8 =>
        rw [hx8] at hgc
        injection hgc with hgc
        injection hgc with hgca hgcb
        rw [Store.data_arrays_of] at hdas
        simp only [getArena, hx8, bindE] at hdas
        injection hdas with hdas
        subst hdas
        rw [hgca]
        have hsame : g.data_arrays.filter (fun i =>
            match s8.data_arrays[i]? with
            | some da => (["neo.analogsignal", "neo.irregularlysampledsignal"] : List String).contains da.type
            | none => false) = g.data_arrays.filter (contained_pred s8) :=
          List.filter_congr (fun i _ => Eq.refl _)
        rw [hsame]
        refine List.filter_congr ?_
        intro j hj
        exact contained_pred_eq_of_type (hT j (hbound j hj))
    -- references of the fresh multi tag
    have hrefs0 : (pmt.1.multi_tags[pmt.2]?).map NMultiTag.references = some [] := by
      rw [hmt3, hidx3, modifyDA_multi_tags, hmts2, modifyDA_multi_tags, hmts1]
      have : (w.store.multi_tags ++
          [(⟨nix_name, "neo.epoch", ptd.2, none, none, none, [], [], []⟩ : NMultiTag)])[w.store.multi_tags.length]? =
          some ⟨nix_name, "neo.epoch", ptd.2, none, none, none, [], [], []⟩ :=
        List.getElem?_concat_length _ _
      rw [this]
      rfl
    have hrefs8 : (s8.multi_tags[pmt.2]?).map NMultiTag.references = some [] := by
      rw [mt_refs_of_shape (hAnn.mt_shape_ann pmt.2)]
      rw [modifyMT_map_refs s5 pmt.2
        (fun m => { m with definition := ep.description }) (fun x => Eq.refl _) pmt.2]
      rw [hmt5]
      refine mt_refs_modifyMT_extents ?_
      rw [modifyDA_multi_tags]
      exact hrefs0
    refine ⟨by rw [← hres, hmtlen], ?_⟩
    rw [← hmtlen]
    rw [modifyMT_refs_append contained hrefs8]
    rw [hcont2]
    rfl
  · intro aid ev pp w w2 res gi g h hpath hg hbound
    rw [write_event] at h
    obtain ⟨po, hpo, h⟩ := bindE_ok_elim h
    rw [hpath] at hpo
    injection hpo with hpo
    subst hpo
    obtain ⟨parent_group, hpg, h⟩ := bindE_ok_elim h
    injection hpg with hpg
    subst hpg
    obtain ⟨hp, _hhp, h⟩ := bindE_ok_elim h
    obtain ⟨pb, _hpb, h⟩ := bindE_ok_elim h
    obtain ⟨parent_block, _hpblock, h⟩ := bindE_ok_elim h
    obtain ⟨nix_name, _hname, h⟩ := bindE_ok_elim h
    obtain ⟨ptd, hptd, h⟩ := bindE_ok_elim h
    obtain ⟨hidx1, hdas1, hgr1, _hsrc1, hmts1, _hsec1, _hbl1⟩ :=
      create_data_array_spec hptd
    obtain ⟨pmt, hpmt, h⟩ := bindE_ok_elim h
    obtain ⟨hidx3, hmt3, hgr3, _hsrc3, hda3, _hsec3, _hbl3⟩ :=
      create_multi_tag_spec hpmt
    have hmtlen : pmt.2 = w.store.multi_tags.length := by
      rw [hidx3, modifyDA_multi_tags, hmts1]
    obtain ⟨s3, hs3, h⟩ := bindE_ok_elim h
    obtain ⟨_hb5, _hsc5, hda5, hmt5, _hsec5, _hgl5, gi2, g2, hgi2, hgx2, hgroups5⟩ :=
      group_append_multi_tag_spec hs3
    injection hgi2 with hgi2
    subst hgi2
    have hgroups_pre : (pmt.1.modifyDA ptd.2
        (fun da => { da with dims := da.dims ++ [.setDim ev.labels] })).groups =
        w.store.groups := by
      rw [modifyDA_groups, hgr3, modifyDA_groups, hgr1]
    have hg2 : g2 = g := by
      rw [hgroups_pre, hg] at hgx2
      injection hgx2 with hgx2
      exact hgx2.symm
    rw [hg2] at hgroups5
    obtain ⟨s5, hs5, h⟩ := bindE_ok_elim h
    have hAnn7 : AnnFrame (s3.modifyMT pmt.2
        (fun m => { m with definition := ev.description })) s5 := by
      revert hs5
      split
      · intro hs5
        injection hs5 with hs5
        rw [← hs5]
        exact annframe_refl _
      · intro hs5
        obtain ⟨rr, hrr, hs5⟩ := bindE_ok_elim hs5
        injection hs5 with hs5
        rw [← hs5]
        exact (gom_frame hrr).1.toAnn.trans_ann (create_property_annframe _ _ _ _)
    obtain ⟨s6, hs6, h⟩ := bindE_ok_elim h
    have hAnn : AnnFrame (s3.modifyMT pmt.2
        (fun m => { m with definition := ev.description })) s6 :=
      hAnn7.trans_ann (copy_annotations_annframe hs6)
    obtain ⟨contained, hcont, h⟩ := bindE_ok_elim h
    injection h with h
    injection h with hw2 hres
    subst hw2
    have hglt : gi < w.store.groups.length := (List.getElem?_eq_some.mp hg).1
    have hg5 : s3.groups[gi]? = some { g with multi_tags := g.multi_tags ++ [pmt.2] } := by
      rw [hgroups5, hgroups_pre]
      exact List.getElem?_set_self hglt
    have hgc : (s6.groups[gi]?).map (fun x => (x.data_arrays, x.multi_tags)) =
        some (g.data_arrays, g.multi_tags ++ [pmt.2]) := by
      rw [hAnn.group_contents_ann gi, modifyMT_groups, hg5]
      rfl
    have hT : ∀ j, j < w.store.data_arrays.length →
        (s6.data_arrays[j]?).map NDataArray.type =
          (w.store.data_arrays[j]?).map NDataArray.type := by
      intro j hj
      rw [hAnn.da_type_ann j, modifyMT_data_arrays, hda5]
      rw [modifyDA_map_type pmt.1 ptd.2
        (fun da => { da with dims := da.dims ++ [.setDim ev.labels] })
        (fun x => Eq.refl _) j]
      rw [hda3]
      rw [modifyDA_map_type ptd.1 ptd.2
        (fun da => { da with unit := ev.times_unit.uname })
        (fun x => Eq.refl _) j]
      rw [hdas1]
      exact map_getElem?_append_lt NDataArray.type j hj
    have hcont2 : contained = g.data_arrays.filter (contained_pred w.store) := by
      rw [_get_contained_signals] at hcont
      obtain ⟨das, hdas, hcont⟩ := bindE_ok_elim hcont
      injection hcont with hcont
      subst hcont
      cases hx8 : s6.groups[gi]? with
      | none => rw [hx8] at hgc; simp at hgc
      | some g8 =>
        rw [hx8] at hgc
        injection hgc with hgc
        injection hgc with hgca hgcb
        rw [Store.data_arrays_of] at hdas
        simp only [getArena, hx8, bindE] at hdas
        injection hdas with hdas
        subst hdas
        rw [hgca]
        have hsame : g.data_arrays.filter (fun i =>
            match s6.data_arrays[i]? with
            | some da => (["neo.analogsignal", "neo.irregularlysampledsignal"] : List String).contains da.type
            | none => false) = g.data_arrays.filter (contained_pred s6) :=
          List.filter_congr (fun i _ => Eq.refl _)
        rw [hsame]
        refine List.filter_congr ?_
        intro j hj
        exact contained_pred_eq_of_type (hT j (hbound j hj))
    have hrefs0 : (pmt.1.multi_tags[pmt.2]?).map NMultiTag.references = some [] := by
      rw [hmt3, hidx3, modifyDA_multi_tags, hmts1]
      have : (w.store.multi_tags ++
          [(⟨nix_name, "neo.event", ptd.2, none, none, none, [], [], []⟩ : NMultiTag)])[w.store.multi_tags.length]? =
          some ⟨nix_name, "neo.event", ptd.2, none, none, none, [], [], []⟩ :=
        List.getElem?_concat_length _ _
      rw [this]
      rfl
    have hrefs8 : (s6.multi_tags[pmt.2]?).map NMultiTag.references = some [] := by
      rw [mt_refs_of_shape (hAnn.mt_shape_ann pmt.2)]
      rw [modifyMT_map_refs s3 pmt.2
        (fun m => { m with definition := ev.description }) (fun x => Eq.refl _) pmt.2]
      rw [hmt5, modifyDA_multi_tags]
      exact hrefs0
    refine ⟨by rw [← hres, hmtlen], ?_⟩
    rw [← hmtlen]
    rw [modifyMT_refs_append contained hrefs8]
    rw [hcont2]
    rfl

/-- Store with one block, one group and two data arrays (one signal-typed,
one not), for the C6 witness. -/
def c6Store : Store :=
  ⟨[⟨"blk", "neo.block", none, none, [0], [], [0, 1], [], none⟩],
   [⟨"seg", "neo.segment", none, none, [0, 1], [], none⟩],
   [],
   [⟨"sig.0", "neo.analogsignal", .one [], "", none, [], none, []⟩,
    ⟨"x.times", "neo.epoch.times", .one [], "", none, [], none, []⟩],
   [], []⟩

/-- Witness for C6: a concrete epoch written into that group references
exactly the signal-typed data array. -/
theorem claim_C6_witness :
    ∃ pr : WState × NixRef,
      write_epoch (fun t => t) epW [("block", "blk"), ("group", "seg")]
        ⟨c6Store, []⟩ = .ok pr ∧
      pr.2 = .multiTag c6Store.multi_tags.length ∧
      (pr.1.store.multi_tags[c6Store.multi_tags.length]?).map NMultiTag.references =
        some (([0, 1] : List Nat).filter (contained_pred c6Store)) := by
  have hok : (write_epoch (fun t => t) epW [("block", "blk"), ("group", "seg")]
      ⟨c6Store, []⟩).isOk = true := by decide
  match hrun : write_epoch (fun t => t) epW [("block", "blk"), ("group", "seg")]
      ⟨c6Store, []⟩ with
  | .error e => rw [hrun] at hok; simp [Except.isOk, Except.toBool] at hok
  | .ok (w2, res) =>
    have happ := claim_C6_epoch_event_references.1 (fun t => t) epW
      [("block", "blk"), ("group", "seg")] ⟨c6Store, []⟩ w2 res 0
      ⟨"seg", "neo.segment", none, none, [0, 1], [], none⟩ hrun
      (by decide) (by decide) (by decide)
    exact ⟨(w2, res), rfl, happ.1, happ.2⟩

/- ================================================================== -/
/- C5.  Spike trains owned by a Segment and a Unit carry both back
   references after write_unit. -/

/-- Inserting under a different key leaves a lookup unchanged. -/
theorem mapLookup_insert_ne (m : List (Nat × MappedVal)) (k k2 : Nat)
    (v : MappedVal) (h : k2 ≠ k) :
    mapLookup (mapInsert m k v) k2 = mapLookup m k2 := by
  simp only [mapInsert, mapLookup]
  rw [if_neg (fun hh => h hh.symm)]

/-- A successful bulk lookup returns the value mapped to each listed key. -/
theorem mapped_objects_mem (m : List (Nat × MappedVal)) :
    ∀ (ks : List Nat) (vs : List MappedVal) (k : Nat) (v : MappedVal),
    _get_mapped_objects m ks = .ok vs → k ∈ ks → mapLookup m k = some v →
    v ∈ vs := by
  intro ks
  induction ks with
  | nil =>
    intro vs k v _h hk
    simp at hk
  | cons a rest ih =>
    intro vs k v h hk hlk
    simp only [_get_mapped_objects] at h
    obtain ⟨va, hva, h⟩ := bindE_ok_elim h
    obtain ⟨vrest, hvrest, h⟩ := bindE_ok_elim h
    injection h with h
    subst h
    rcases List.mem_cons.mp hk with hk | hk
    · subst hk
      simp only [_get_mapped_object, hlk] at hva
      injection hva with hva
      subst hva
      exact List.mem_cons_self _ _
    · exact List.mem_cons_of_mem _ (ih vrest k v hvrest hk hlk)

/-- Appending a source to a multi tag records it at the end of that multi
tag source list. -/
theorem sources_append_mt_target {s : Store} {i j : Nat} {s1 : Store}
    (h : s.sources_append (.multiTag i) (.source j) = .ok s1) :
    ∃ m, s.multi_tags[i]? = some m ∧
      (s1.multi_tags[i]?).map NMultiTag.sources = some (m.sources ++ [j]) := by
  simp only [Store.sources_append, getArena] at h
  cases hx : s.multi_tags[i]? with
  | none => rw [hx] at h; simp at h
  | some m =>
    rw [hx] at h
    simp only [bindE, Except.ok.injEq] at h
    refine ⟨m, rfl, ?_⟩
    rw [← h]
    show ((s.multi_tags.set i _)[i]?).map _ = _
    rw [List.getElem?_set_self (List.getElem?_eq_some.mp hx).1]
    rfl

/-- Appending one source somewhere can only grow a multi tag source list. -/
theorem sources_append_mt_mono {s : Store} {target v : NixRef} {s1 : Store}
    (h : s.sources_append target v = .ok s1) (i : Nat) (ss : List Nat)
    (hss : (s.multi_tags[i]?).map NMultiTag.sources = some ss) :
    ∃ ss2, (s1.multi_tags[i]?).map NMultiTag.sources = some ss2 ∧
      ∀ x ∈ ss, x ∈ ss2 := by
  obtain ⟨j, _hv, hcase⟩ := sources_append_spec h
  rcases hcase with ⟨i2, m, _ht, hx, hs1⟩ | ⟨i2, d, _ht, hx, hs1⟩ |
    ⟨i2, x, _ht, hx, hs1⟩
  · subst hs1
    rcases eq_or_ne i2 i with he | he
    · subst he
      rw [hx] at hss
      injection hss with hss
      refine ⟨m.sources ++ [j], ?_, ?_⟩
      · show ((s.multi_tags.set i2 _)[i2]?).map _ = _
        rw [List.getElem?_set_self (List.getElem?_eq_some.mp hx).1]
        rfl
      · intro x hxm
        rw [hss]
        exact List.mem_append_left _ hxm
    · refine ⟨ss, ?_, fun x hxm => hxm⟩
      show ((s.multi_tags.set i2 _)[i]?).map _ = _
      rw [List.getElem?_set_ne he]
      exact hss
  · subst hs1
    exact ⟨ss, hss, fun x hxm => hxm⟩
  · subst hs1
    exact ⟨ss, hss, fun x hxm => hxm⟩

/-- The back-reference loop of write_unit only ever grows multi-tag source
lists. -/
theorem backrefs_sources_mono :
    ∀ (vals : List MappedVal) (s s4 : Store) (ps us : NixRef) (i : Nat)
      (ss : List Nat),
    write_unit_backrefs s ps us vals = .ok s4 →
    (s.multi_tags[i]?).map NMultiTag.sources = some ss →
    ∃ ss2, (s4.multi_tags[i]?).map NMultiTag.sources = some ss2 ∧
      ∀ x ∈ ss, x ∈ ss2 := by
  intro vals
  induction vals with
  | nil =>
    intro s s4 ps us i ss h hss
    simp only [write_unit_backrefs] at h
    injection h with h
    subst h
    exact ⟨ss, hss, fun x hxm => hxm⟩
  | cons v rest ih =>
    intro s s4 ps us i ss h hss
    match v with
    | .multi l => simp [write_unit_backrefs] at h
    | .single r =>
      simp only [write_unit_backrefs] at h
      obtain ⟨s1, h1, h⟩ := bindE_ok_elim h
      obtain ⟨s2, h2, h⟩ := bindE_ok_elim h
      obtain ⟨ss1, hss1, hsub1⟩ := sources_append_mt_mono h1 i ss hss
      obtain ⟨ss2, hss2, hsub2⟩ := sources_append_mt_mono h2 i ss1 hss1
      obtain ⟨ss3, hss3, hsub3⟩ := ih s2 s4 ps us i ss2 h hss2
      exact ⟨ss3, hss3, fun x hxm => hsub3 x (hsub2 x (hsub1 x hxm))⟩

/-- A spike train processed by the back-reference loop ends with both the
channel-group source and the unit source in its source list. -/
theorem backrefs_hit :
    ∀ (vals : List MappedVal) (s s4 : Store) (ps us i : Nat),
    write_unit_backrefs s (.source ps) (.source us) vals = .ok s4 →
    MappedVal.single (.multiTag i) ∈ vals →
    ∃ ss, (s4.multi_tags[i]?).map NMultiTag.sources = some ss ∧
      ps ∈ ss ∧ us ∈ ss := by
  intro vals
  induction vals with
  | nil =>
    intro s s4 ps us i _h hmem
    simp at hmem
  | cons v rest ih =>
    intro s s4 ps us i h hmem
    match v with
    | .multi l => simp [write_unit_backrefs] at h
    | .single r =>
      simp only [write_unit_backrefs] at h
      obtain ⟨s1, h1, ha⟩ := bindE_ok_elim h
      clear h
      obtain ⟨s2, h2, hb⟩ := bindE_ok_elim ha
      clear ha
      rcases List.mem_cons.mp hmem with hv | hv
      · injection hv with hv
        subst hv
        obtain ⟨m, hx, hs1mt⟩ := sources_append_mt_target h1
        obtain ⟨m2, hx2, hs2mt⟩ := sources_append_mt_target h2
        have hm2 : m2.sources = m.sources ++ [ps] := by
          rw [hx2] at hs1mt
          injection hs1mt with hs1mt
        rw [hm2] at hs2mt
        obtain ⟨ss3, hss3, hsub⟩ := backrefs_sources_mono rest s2 s4
          (.source ps) (.source us) i (m.sources ++ [ps] ++ [us]) hb hs2mt
        exact ⟨ss3, hss3, hsub ps (by simp), hsub us (by simp)⟩
      · exact ih s2 s4 ps us i hb hv

/-- C5: a spike train mapped during segment traversal and owned by a unit
has, after write_unit, both the channel-group source descriptor and the
new unit source descriptor in its multi-tag source list. -/
theorem claim_C5_unit_spiketrain_sources
    (aid : Nat → Nat) (ut : NeoUnit) (pp : Path) (w w2 : WState)
    (res : NixRef) (st_tag i psrc : Nat)
    (hrun : write_unit aid ut pp w = .ok (w2, res))
    (hpar : _get_object_at w.store pp = .ok (some (.source psrc)))
    (hmem : st_tag ∈ ut.spiketrains)
    (hmap : mapLookup w.neo_nix_map (aid st_tag) = some (.single (.multiTag i)))
    (hne : aid st_tag ≠ aid ut.tag) :
    ∃ usrc ss, res = .source usrc ∧
      (w2.store.multi_tags[i]?).map NMultiTag.sources = some ss ∧
      psrc ∈ ss ∧ usrc ∈ ss := by
  rw [write_unit] at hrun
  obtain ⟨po, hpo, hrun⟩ := bindE_ok_elim hrun
  rw [hpar] at hpo
  injection hpo with hpo
  subst hpo
  obtain ⟨parent_source, hps, hrun⟩ := bindE_ok_elim hrun
  injection hps with hps
  subst hps
  obtain ⟨nix_name, _hname, hrun⟩ := bindE_ok_elim hrun
  obtain ⟨p, _hp, hrun⟩ := bindE_ok_elim hrun
  obtain ⟨s2, _hs2, hrun⟩ := bindE_ok_elim hrun
  obtain ⟨s3, _hs3, hrun⟩ := bindE_ok_elim hrun
  obtain ⟨vals, hvals, hrun⟩ := bindE_ok_elim hrun
  obtain ⟨s4, hs4, hrun⟩ := bindE_ok_elim hrun
  injection hrun with hrun
  injection hrun with hw2 hres
  subst hw2
  subst hres
  have hlk : mapLookup (mapInsert w.neo_nix_map (aid ut.tag)
      (.single (.source p.2))) (aid st_tag) = some (.single (.multiTag i)) := by
    rw [mapLookup_insert_ne w.neo_nix_map (aid ut.tag) (aid st_tag) _ hne]
    exact hmap
  have hvmem := mapped_objects_mem _ (ut.spiketrains.map aid) vals (aid st_tag)
    (.single (.multiTag i)) hvals (List.mem_map_of_mem aid hmem) hlk
  obtain ⟨ss, hss, hpsm, husm⟩ := backrefs_hit vals s3 s4 psrc p.2 i hs4 hvmem
  exact ⟨p.2, ss, rfl, hss, hpsm, husm⟩

/-- Store for the C5 witness: one block holding the channel-group source
and one already-mapped spike-train multi tag. -/
def c5Store : Store :=
  ⟨[⟨"b", "neo.block", none, none, [], [0], [], [0], none⟩],
   [],
   [⟨"rcg", "neo.recordingchannelgroup", none, none, []⟩],
   [],
   [⟨"st", "neo.spiketrain", 0, none, none, none, [], [], []⟩],
   []⟩

/-- Unit for the C5 witness, owning the spike train with tag 5. -/
def c5Unit : NeoUnit := ⟨10, "u1", none, "", [], [5]⟩

/-- Witness for C5: a concrete unit write leaves both descriptors in the
mapped multi-tag source list. -/
theorem claim_C5_witness :
    ∃ pr : WState × NixRef,
      write_unit (fun t => t) c5Unit [("block", "b"), ("source", "rcg")]
        ⟨c5Store, [(5, .single (.multiTag 0))]⟩ = .ok pr ∧
      ∃ usrc ss, pr.2 = .source usrc ∧
        (pr.1.store.multi_tags[0]?).map NMultiTag.sources = some ss ∧
        0 ∈ ss ∧ usrc ∈ ss := by
  have hok : (write_unit (fun t => t) c5Unit [("block", "b"), ("source", "rcg")]
      ⟨c5Store, [(5, .single (.multiTag 0))]⟩).isOk = true := by decide
  match hrun : write_unit (fun t => t) c5Unit [("block", "b"), ("source", "rcg")]
      ⟨c5Store, [(5, .single (.multiTag 0))]⟩ with
  | .error e => rw [hrun] at hok; simp [Except.isOk, Except.toBool] at hok
  | .ok pr =>
    exact ⟨pr, rfl, claim_C5_unit_spiketrain_sources (fun t => t) c5Unit
      [("block", "b"), ("source", "rcg")] ⟨c5Store, [(5, .single (.multiTag 0))]⟩
      pr.1 pr.2 5 0 0 hrun (by decide) (by decide) (by decide) (by decide)⟩

/- ================================================================== -/
/- C3.  Signal writers create one data array per channel, all sharing one
   metadata section created under the parent group metadata. -/

/-- Projection of a data array to its name and metadata pointer. -/
def da_name_meta (da : NDataArray) : String × Option Nat := (da.name, da.metadata)

/-- Section parents seen through the section shape. -/
theorem parent_of_shape {o1 o2 : Option NSection}
    (h : o1.map sectionShape = o2.map sectionShape) :
    o1.map NSection.parent = o2.map NSection.parent := by
  cases o1 <;> cases o2 <;> simp_all [sectionShape]

/-- The sections are untouched by modifyDA. -/
theorem modifyDA_sections (s : Store) (i : Nat) (f : NDataArray → NDataArray) :
    (s.modifyDA i f).sections = s.sections :=
  (modifyDA_arenas s i f).2.2.2.2.1

/-- Optional file origin and annotation writing stays inside the
annotation frame. -/
theorem pre_annframe (s : Store) (sec : Nat) (fo : String)
    (ann : List (String × PyVal)) :
    AnnFrame s (if ann.isEmpty
      then (if fo = "" then s
        else s.create_property sec ("file_origin") (.single (.str fo)))
      else _add_annotations (if fo = "" then s
        else s.create_property sec ("file_origin") (.single (.str fo))) ann sec) := by
  have h1 : AnnFrame s (if fo = "" then s
      else s.create_property sec ("file_origin") (.single (.str fo))) := by
    split
    · exact annframe_refl _
    · exact create_property_annframe _ _ _ _
  split
  · exact h1
  · exact h1.trans_ann (add_annotations_annframe ann _ sec)

/-- Invariant of the per-channel loop of write_analogsignal: one data
array per column, named after the running index, metadata pointing at the
shared section; sections and pre-existing data arrays untouched. -/
theorem analogsignal_loop_arrays :
    ∀ (cols : List (List Rat)) (s : Store) (pb pgr : NixRef)
      (nm ty : String) (defn : Option String) (du : String) (tu : UnitQ)
      (off si : Rat) (sec idx : Nat) (acc : List NixRef)
      (out : Store × List NixRef),
    write_analogsignal_loop s pb pgr nm ty defn du tu off si sec idx cols acc
      = .ok out →
    out.2.length = acc.length + cols.length ∧
    out.1.data_arrays.length = s.data_arrays.length + cols.length ∧
    out.1.sections = s.sections ∧
    (∀ k, k < acc.length → out.2[k]? = acc[k]?) ∧
    (∀ j, j < s.data_arrays.length →
      out.1.data_arrays[j]? = s.data_arrays[j]?) ∧
    (∀ k, k < cols.length →
      ∃ d, out.2[acc.length + k]? = some (.dataArray d) ∧
        (out.1.data_arrays[d]?).map da_name_meta =
          some (nm ++ "." ++ toString (idx + k), some sec)) := by
  intro cols
  induction cols with
  | nil =>
    intro s pb pgr nm ty defn du tu off si sec idx acc out h
    simp only [write_analogsignal_loop] at h
    injection h with h
    subst h
    exact ⟨by simp, by simp, rfl, fun k _ => rfl, fun j _ => rfl,
      fun k hk => absurd hk (by simp)⟩
  | cons sig rest ih =>
    intro s pb pgr nm ty defn du tu off si sec idx acc out h
    simp only [write_analogsignal_loop] at h
    obtain ⟨p, hp, ha⟩ := bindE_ok_elim h
    clear h
    obtain ⟨s5, hs5, hb⟩ := bindE_ok_elim ha
    clear ha
    obtain ⟨hidx, hdas, _hgr, _hsrc, _hmt, hsecs, _hbl⟩ :=
      create_data_array_spec hp
    obtain ⟨_g1, _g2, gda5, _g4, gsec5, _g6, _gex⟩ :=
      group_append_data_array_spec hs5
    have hget0 : p.1.data_arrays[p.2]? =
        some ⟨nm ++ "." ++ toString idx, ty, .one sig, "", none, [], none, []⟩ := by
      rw [hdas, hidx]
      exact List.getElem?_concat_length _ _
    have h1 := modifyDA_get_eq (fun da => { da with definition := defn }) hget0
    have h2 := modifyDA_get_eq (fun da => { da with unit := du }) h1
    have h3 := modifyDA_get_eq (fun da =>
      { da with dims := da.dims ++ [.sampled si tu.uname ("time") (some off)] }) h2
    have h4 := modifyDA_get_eq (fun da =>
      { da with dims := da.dims ++ [.setDim []] }) h3
    have h5 : s5.data_arrays[p.2]? =
        some ⟨nm ++ "." ++ toString idx, ty, .one sig, du, defn,
          [.sampled si tu.uname ("time") (some off), .setDim []], none, []⟩ := by
      rw [gda5]
      exact h4
    have h6 : (s5.modifyDA p.2
        (fun da => { da with metadata := some sec })).data_arrays[p.2]? =
        some ⟨nm ++ "." ++ toString idx, ty, .one sig, du, defn,
          [.sampled si tu.uname ("time") (some off), .setDim []], some sec, []⟩ :=
      modifyDA_get_eq _ h5
    have hlen6 : (s5.modifyDA p.2
        (fun da => { da with metadata := some sec })).data_arrays.length =
        s.data_arrays.length + 1 := by
      rw [modifyDA_length, gda5, modifyDA_length, modifyDA_length,
        modifyDA_length, modifyDA_length, hdas]
      simp
    have hsec6 : (s5.modifyDA p.2
        (fun da => { da with metadata := some sec })).sections = s.sections := by
      rw [modifyDA_sections, gsec5, modifyDA_sections, modifyDA_sections,
        modifyDA_sections, modifyDA_sections, hsecs]
    have hpres : ∀ j, j < s.data_arrays.length →
        (s5.modifyDA p.2
          (fun da => { da with metadata := some sec })).data_arrays[j]? =
        s.data_arrays[j]? := by
      intro j hj
      have hne : j ≠ p.2 := by rw [hidx]; omega
      rw [modifyDA_get_ne _ _ _ j hne, gda5, modifyDA_get_ne _ _ _ j hne,
        modifyDA_get_ne _ _ _ j hne, modifyDA_get_ne _ _ _ j hne,
        modifyDA_get_ne _ _ _ j hne, hdas]
      exact List.getElem?_append_left hj
    obtain ⟨ihl2, ihl1, ihsec, ihacc, ihpres, ihnew⟩ :=
      ih _ pb pgr nm ty defn du tu off si sec (idx + 1)
        (acc ++ [.dataArray p.2]) out hb
    refine ⟨?_, ?_, ?_, ?_, ?_, ?_⟩
    · rw [ihl2]
      simp only [List.length_append, List.length_cons, List.length_nil]
      omega
    · rw [ihl1, hlen6]
      simp only [List.length_cons]
      omega
    · rw [ihsec]
      exact hsec6
    · intro k hk
      rw [ihacc k (by simp only [List.length_append, List.length_cons,
        List.length_nil]; omega)]
      exact List.getElem?_append_left hk
    · intro j hj
      rw [ihpres j (by rw [hlen6]; omega)]
      exact hpres j hj
    · intro k hk
      cases k with
      | zero =>
        refine ⟨p.2, ?_, ?_⟩
        · have hi : out.2[acc.length]? = some (.dataArray p.2) := by
            rw [ihacc acc.length (by simp)]
            exact List.getElem?_concat_length _ _
          exact hi
        · have hv := ihpres p.2 (by rw [hlen6]; omega)
          rw [hv, h6]
          rfl
      | succ k2 =>
        obtain ⟨d, hd1, hd2⟩ := ihnew k2
          (by simp only [List.length_cons] at hk; omega)
        refine ⟨d, ?_, ?_⟩
        · rw [show acc.length + (k2 + 1) =
            (acc ++ [NixRef.dataArray p.2]).length + k2 from by
              simp only [List.length_append, List.length_cons, List.length_nil]
              omega]
          exact hd1
        · rw [show idx + (k2 + 1) = idx + 1 + k2 from by omega]
          exact hd2

/-- Invariant of the per-channel loop of write_irregularlysampledsignal,
mirroring the analog-signal loop. -/
theorem irregularsignal_loop_arrays :
    ∀ (cols : List (List Rat)) (s : Store) (pb pgr : NixRef)
      (nm ty : String) (defn : Option String) (du tu : String)
      (times : List Rat) (sec idx : Nat) (acc : List NixRef)
      (out : Store × List NixRef),
    write_irregularlysampledsignal_loop s pb pgr nm ty defn du tu times sec
      idx cols acc = .ok out →
    out.2.length = acc.length + cols.length ∧
    out.1.data_arrays.length = s.data_arrays.length + cols.length ∧
    out.1.sections = s.sections ∧
    (∀ k, k < acc.length → out.2[k]? = acc[k]?) ∧
    (∀ j, j < s.data_arrays.length →
      out.1.data_arrays[j]? = s.data_arrays[j]?) ∧
    (∀ k, k < cols.length →
      ∃ d, out.2[acc.length + k]? = some (.dataArray d) ∧
        (out.1.data_arrays[d]?).map da_name_meta =
          some (nm ++ "." ++ toString (idx + k), some sec)) := by
  intro cols
  induction cols with
  | nil =>
    intro s pb pgr nm ty defn du tu times sec idx acc out h
    simp only [write_irregularlysampledsignal_loop] at h
    injection h with h
    subst h
    exact ⟨by simp, by simp, rfl, fun k _ => rfl, fun j _ => rfl,
      fun k hk => absurd hk (by simp)⟩
  | cons sig rest ih =>
    intro s pb pgr nm ty defn du tu times sec idx acc out h
    simp only [write_irregularlysampledsignal_loop] at h
    obtain ⟨p, hp, ha⟩ := bindE_ok_elim h
    clear h
    obtain ⟨s5, hs5, hb⟩ := bindE_ok_elim ha
    clear ha
    obtain ⟨hidx, hdas, _hgr, _hsrc, _hmt, hsecs, _hbl⟩ :=
      create_data_array_spec hp
    obtain ⟨_g1, _g2, gda5, _g4, gsec5, _g6, _gex⟩ :=
      group_append_data_array_spec hs5
    have hget0 : p.1.data_arrays[p.2]? =
        some ⟨nm ++ "." ++ toString idx, ty, .one sig, "", none, [], none, []⟩ := by
      rw [hdas, hidx]
      exact List.getElem?_concat_length _ _
    have h1 := modifyDA_get_eq (fun da => { da with definition := defn }) hget0
    have h2 := modifyDA_get_eq (fun da => { da with unit := du }) h1
    have h3 := modifyDA_get_eq (fun da =>
      { da with dims := da.dims ++ [.range times tu ("time")] }) h2
    have h4 := modifyDA_get_eq (fun da =>
      { da with dims := da.dims ++ [.setDim []] }) h3
    have h5 : s5.data_arrays[p.2]? =
        some ⟨nm ++ "." ++ toString idx, ty, .one sig, du, defn,
          [.range times tu ("time"), .setDim []], none, []⟩ := by
      rw [gda5]
      exact h4
    have h6 : (s5.modifyDA p.2
        (fun da => { da with metadata := some sec })).data_arrays[p.2]? =
        some ⟨nm ++ "." ++ toString idx, ty, .one sig, du, defn,
          [.range times tu ("time"), .setDim []], some sec, []⟩ :=
      modifyDA_get_eq _ h5
    have hlen6 : (s5.modifyDA p.2
        (fun da => { da with metadata := some sec })).data_arrays.length =
        s.data_arrays.length + 1 := by
      rw [modifyDA_length, gda5, modifyDA_length, modifyDA_length,
        modifyDA_length, modifyDA_length, hdas]
      simp
    have hsec6 : (s5.modifyDA p.2
        (fun da => { da with metadata := some sec })).sections = s.sections := by
      rw [modifyDA_sections, gsec5, modifyDA_sections, modifyDA_sections,
        modifyDA_sections, modifyDA_sections, hsecs]
    have hpres : ∀ j, j < s.data_arrays.length →
        (s5.modifyDA p.2
          (fun da => { da with metadata := some sec })).data_arrays[j]? =
        s.data_arrays[j]? := by
      intro j hj
      have hne : j ≠ p.2 := by rw [hidx]; omega
      rw [modifyDA_get_ne _ _ _ j hne, gda5, modifyDA_get_ne _ _ _ j hne,
        modifyDA_get_ne _ _ _ j hne, modifyDA_get_ne _ _ _ j hne,
        modifyDA_get_ne _ _ _ j hne, hdas]
      exact List.getElem?_append_left hj
    obtain ⟨ihl2, ihl1, ihsec, ihacc, ihpres, ihnew⟩ :=
      ih _ pb pgr nm ty defn du tu times sec (idx + 1)
        (acc ++ [.dataArray p.2]) out hb
    refine ⟨?_, ?_, ?_, ?_, ?_, ?_⟩
    · rw [ihl2]
      simp only [List.length_append, List.length_cons, List.length_nil]
      omega
    · rw [ihl1, hlen6]
      simp only [List.length_cons]
      omega
    · rw [ihsec]
      exact hsec6
    · intro k hk
      rw [ihacc k (by simp only [List.length_append, List.length_cons,
        List.length_nil]; omega)]
      exact List.getElem?_append_left hk
    · intro j hj
      rw [ihpres j (by rw [hlen6]; omega)]
      exact hpres j hj
    · intro k hk
      cases k with
      | zero =>
        refine ⟨p.2, ?_, ?_⟩
        · have hi : out.2[acc.length]? = some (.dataArray p.2) := by
            rw [ihacc acc.length (by simp)]
            exact List.getElem?_concat_length _ _
          exact hi
        · have hv := ihpres p.2 (by rw [hlen6]; omega)
          rw [hv, h6]
          rfl
      | succ k2 =>
        obtain ⟨d, hd1, hd2⟩ := ihnew k2
          (by simp only [List.length_cons] at hk; omega)
        refine ⟨d, ?_, ?_⟩
        · rw [show acc.length + (k2 + 1) =
            (acc ++ [NixRef.dataArray p.2]).length + k2 from by
              simp only [List.length_append, List.length_cons, List.length_nil]
              omega]
          exact hd1
        · rw [show idx + (k2 + 1) = idx + 1 + k2 from by omega]
          exact hd2

/-- C3: each signal writer creates exactly one data array per channel
column, named after the signal name and the running index, and all of the
created arrays carry the same metadata section, which is created under the
metadata node of the parent group. -/
theorem claim_C3_signal_channels :
    (∀ (aid : Nat → Nat) (x : NeoAnalogSignal) (pp : Path) (w w2 : WState)
      (refs : List NixRef) (pgr : NixRef),
      write_analogsignal aid x pp w = .ok (w2, refs) →
      _get_object_at w.store pp = .ok (some pgr) →
      ∃ nm sec smd,
        (x.name ≠ "" → nm = x.name) ∧
        _get_or_init_metadata w.store pgr pp = .ok smd ∧
        (w2.store.sections[sec]?).map NSection.parent = some (some smd.2) ∧
        refs.length = x.signal_columns.length ∧
        w2.store.data_arrays.length =
          w.store.data_arrays.length + x.signal_columns.length ∧
        (∀ k, k < x.signal_columns.length →
          ∃ d, refs[k]? = some (.dataArray d) ∧
            (w2.store.data_arrays[d]?).map da_name_meta =
              some (nm ++ "." ++ toString k, some sec))) ∧
    (∀ (aid : Nat → Nat) (x : NeoIrregularlySampledSignal) (pp : Path)
      (w w2 : WState) (refs : List NixRef) (pgr : NixRef),
      write_irregularlysampledsignal aid x pp w = .ok (w2, refs) →
      _get_object_at w.store pp = .ok (some pgr) →
      ∃ nm sec smd,
        (x.name ≠ "" → nm = x.name) ∧
        _get_or_init_metadata w.store pgr pp = .ok smd ∧
        (w2.store.sections[sec]?).map NSection.parent = some (some smd.2) ∧
        refs.length = x.signal_columns.length ∧
        w2.store.data_arrays.length =
          w.store.data_arrays.length + x.signal_columns.length ∧
        (∀ k, k < x.signal_columns.length →
          ∃ d, refs[k]? = some (.dataArray d) ∧
            (w2.store.data_arrays[d]?).map da_name_meta =
              some (nm ++ "." ++ toString k, some sec))) := by
  constructor
  · intro aid x pp w w2 refs pgr hrun hpath
    rw [write_analogsignal] at hrun
    obtain ⟨pg, hpg, hr1⟩ := bindE_ok_elim hrun
    clear hrun
    rw [hpath] at hpg
    injection hpg with hpg
    subst hpg
    obtain ⟨parent_group, hpgo, hr2⟩ := bindE_ok_elim hr1
    clear hr1
    injection hpgo with hpgo
    subst hpgo
    obtain ⟨hp, _hhp, hr3⟩ := bindE_ok_elim hr2
    clear hr2
    obtain ⟨pb, _hpb, hr4⟩ := bindE_ok_elim hr3
    clear hr3
    obtain ⟨parent_block, _hpbo, hr5⟩ := bindE_ok_elim hr4
    clear hr4
    obtain ⟨nix_name, hname, hr6⟩ := bindE_ok_elim hr5
    clear hr5
    obtain ⟨pm, hpm, hr7⟩ := bindE_ok_elim hr6
    clear hr6
    obtain ⟨res, hloop, hr8⟩ := bindE_ok_elim hr7
    clear hr7
    injection hr8 with hr8
    injection hr8 with hw2 hrefs
    subst hw2
    subst hrefs
    obtain ⟨l2, l1, lsec, _lacc, _lpres, lnew⟩ :=
      analogsignal_loop_arrays x.signal_columns
        (if x.annotations.isEmpty
          then (if x.file_origin = ""
            then (pm.1.create_section (some pm.2) nix_name
              ("neo.analogsignal" ++ ".metadata")).1
            else (pm.1.create_section (some pm.2) nix_name
              ("neo.analogsignal" ++ ".metadata")).1.create_property
              (pm.1.create_section (some pm.2) nix_name
                ("neo.analogsignal" ++ ".metadata")).2
              ("file_origin") (.single (.str x.file_origin)))
          else _add_annotations
            (if x.file_origin = ""
              then (pm.1.create_section (some pm.2) nix_name
                ("neo.analogsignal" ++ ".metadata")).1
              else (pm.1.create_section (some pm.2) nix_name
                ("neo.analogsignal" ++ ".metadata")).1.create_property
                (pm.1.create_section (some pm.2) nix_name
                  ("neo.analogsignal" ++ ".metadata")).2
                ("file_origin") (.single (.str x.file_origin)))
            x.annotations
            (pm.1.create_section (some pm.2) nix_name
              ("neo.analogsignal" ++ ".metadata")).2)
        parent_block pgr nix_name _ _ _ _ _ _
        (pm.1.create_section (some pm.2) nix_name
          ("neo.analogsignal" ++ ".metadata")).2
        0 [] res hloop
    have hAnn := pre_annframe
      (pm.1.create_section (some pm.2) nix_name
        ("neo.analogsignal" ++ ".metadata")).1
      (pm.1.create_section (some pm.2) nix_name
        ("neo.analogsignal" ++ ".metadata")).2
      x.file_origin x.annotations
    have hsecb : (pm.1.create_section (some pm.2) nix_name
        ("neo.analogsignal" ++ ".metadata")).2 <
        (pm.1.create_section (some pm.2) nix_name
          ("neo.analogsignal" ++ ".metadata")).1.sections.length := by
      show pm.1.sections.length <
        (pm.1.sections ++ [(⟨nix_name, "neo.analogsignal" ++ ".metadata",
          some pm.2, []⟩ : NSection)]).length
      simp
    have hshape := hAnn.2.1 _ hsecb
    have hnmf : x.name ≠ "" → nix_name = x.name := by
      intro hne
      rw [if_neg hne] at hname
      injection hname with hname
      exact hname.symm
    have hps1da : (pm.1.create_section (some pm.2) nix_name
        ("neo.analogsignal" ++ ".metadata")).1.data_arrays.length =
        w.store.data_arrays.length :=
      (gom_frame hpm).1.2.2.2.2.2.1
    have hannda := hAnn.2.2.2.2.2.1
    refine ⟨nix_name,
      (pm.1.create_section (some pm.2) nix_name
        ("neo.analogsignal" ++ ".metadata")).2, pm, hnmf, hpm, ?_, ?_, ?_, ?_⟩
    · rw [lsec, parent_of_shape hshape, create_section_get]
      rfl
    · simpa using l2
    · rw [l1, hannda, hps1da]
    · intro k hk
      obtain ⟨d, hd1, hd2⟩ := lnew k hk
      rw [show ([] : List NixRef).length + k = k from by simp] at hd1
      rw [show 0 + k = k from Nat.zero_add k] at hd2
      exact ⟨d, hd1, hd2⟩
  · intro aid x pp w w2 refs pgr hrun hpath
    rw [write_irregularlysampledsignal] at hrun
    obtain ⟨pg, hpg, hr1⟩ := bindE_ok_elim hrun
    clear hrun
    rw [hpath] at hpg
    injection hpg with hpg
    subst hpg
    obtain ⟨parent_group, hpgo, hr2⟩ := bindE_ok_elim hr1
    clear hr1
    injection hpgo with hpgo
    subst hpgo
    obtain ⟨hp, _hhp, hr3⟩ := bindE_ok_elim hr2
    clear hr2
    obtain ⟨pb, _hpb, hr4⟩ := bindE_ok_elim hr3
    clear hr3
    obtain ⟨parent_block, _hpbo, hr5⟩ := bindE_ok_elim hr4
    clear hr4
    obtain ⟨nix_name, hname, hr6⟩ := bindE_ok_elim hr5
    clear hr5
    obtain ⟨pm, hpm, hr7⟩ := bindE_ok_elim hr6
    clear hr6
    obtain ⟨res, hloop, hr8⟩ := bindE_ok_elim hr7
    clear hr7
    injection hr8 with hr8
    injection hr8 with hw2 hrefs
    subst hw2
    subst hrefs
    obtain ⟨l2, l1, lsec, _lacc, _lpres, lnew⟩ :=
      irregularsignal_loop_arrays x.signal_columns
        (if x.annotations.isEmpty
          then (if x.file_origin = ""
            then (pm.1.create_section (some pm.2) nix_name
              ("neo.irregularlysampledsignal" ++ ".metadata")).1
            else (pm.1.create_section (some pm.2) nix_name
              ("neo.irregularlysampledsignal" ++ ".metadata")).1.create_property
              (pm.1.create_section (some pm.2) nix_name
                ("neo.irregularlysampledsignal" ++ ".metadata")).2
              ("file_origin") (.single (.str x.file_origin)))
          else _add_annotations
            (if x.file_origin = ""
              then (pm.1.create_section (some pm.2) nix_name
                ("neo.irregularlysampledsignal" ++ ".metadata")).1
              else (pm.1.create_section (some pm.2) nix_name
                ("neo.irregularlysampledsignal" ++ ".metadata")).1.create_property
                (pm.1.create_section (some pm.2) nix_name
                  ("neo.irregularlysampledsignal" ++ ".metadata")).2
                ("file_origin") (.single (.str x.file_origin)))
            x.annotations
            (pm.1.create_section (some pm.2) nix_name
              ("neo.irregularlysampledsignal" ++ ".metadata")).2)
        parent_block pgr nix_name _ _ _ _ _
        (pm.1.create_section (some pm.2) nix_name
          ("neo.irregularlysampledsignal" ++ ".metadata")).2
        0 [] res hloop
    have hAnn := pre_annframe
      (pm.1.create_section (some pm.2) nix_name
        ("neo.irregularlysampledsignal" ++ ".metadata")).1
      (pm.1.create_section (some pm.2) nix_name
        ("neo.irregularlysampledsignal" ++ ".metadata")).2
      x.file_origin x.annotations
    have hsecb : (pm.1.create_section (some pm.2) nix_name
        ("neo.irregularlysampledsignal" ++ ".metadata")).2 <
        (pm.1.create_section (some pm.2) nix_name
          ("neo.irregularlysampledsignal" ++ ".metadata")).1.sections.length := by
      show pm.1.sections.length <
        (pm.1.sections ++ [(⟨nix_name, "neo.irregularlysampledsignal" ++ ".metadata",
          some pm.2, []⟩ : NSection)]).length
      simp
    have hshape := hAnn.2.1 _ hsecb
    have hnmf : x.name ≠ "" → nix_name = x.name := by
      intro hne
      rw [if_neg hne] at hname
      injection hname with hname
      exact hname.symm
    have hps1da : (pm.1.create_section (some pm.2) nix_name
        ("neo.irregularlysampledsignal" ++ ".metadata")).1.data_arrays.length =
        w.store.data_arrays.length :=
      (gom_frame hpm).1.2.2.2.2.2.1
    have hannda := hAnn.2.2.2.2.2.1
    refine ⟨nix_name,
      (pm.1.create_section (some pm.2) nix_name
        ("neo.irregularlysampledsignal" ++ ".metadata")).2, pm, hnmf, hpm,
      ?_, ?_, ?_, ?_⟩
    · rw [lsec, parent_of_shape hshape, create_section_get]
      rfl
    · simpa using l2
    · rw [l1, hannda, hps1da]
    · intro k hk
      obtain ⟨d, hd1, hd2⟩ := lnew k hk
      rw [show ([] : List NixRef).length + k = k from by simp] at hd1
      rw [show 0 + k = k from Nat.zero_add k] at hd2
      exact ⟨d, hd1, hd2⟩

/-- Store for the C3 witness: one block containing one empty group. -/
def c3Store : Store :=
  ⟨[⟨"blk", "neo.block", none, none, [0], [], [], [], none⟩],
   [⟨"seg", "neo.segment", none, none, [], [], none⟩],
   [], [], [], []⟩

/-- Dimensionless volt-like unit for the C3 witness. -/
def c3U : UnitQ := ⟨"V", 1, "V", 1⟩

/-- Anonymous two-channel analog signal for the C3 witness. -/
def c3Sig : NeoAnalogSignal :=
  ⟨3, "", none, "", [], c3U, ⟨1, c3U⟩, ⟨0, c3U⟩, [[1, 2], [3, 4]]⟩

/-- Witness for C3: a concrete two-channel signal yields two data arrays
sharing one metadata section under the group metadata. -/
theorem claim_C3_witness :
    ∃ pr : WState × List NixRef,
      write_analogsignal (fun t => t) c3Sig [("block", "blk"), ("group", "seg")]
        ⟨c3Store, []⟩ = .ok pr ∧
      ∃ nm sec smd, (c3Sig.name ≠ "" → nm = c3Sig.name) ∧
        _get_or_init_metadata c3Store (.group 0)
          [("block", "blk"), ("group", "seg")] = .ok smd ∧
        (pr.1.store.sections[sec]?).map NSection.parent = some (some smd.2) ∧
        pr.2.length = c3Sig.signal_columns.length ∧
        pr.1.store.data_arrays.length =
          c3Store.data_arrays.length + c3Sig.signal_columns.length ∧
        (∀ k, k < c3Sig.signal_columns.length →
          ∃ d, pr.2[k]? = some (.dataArray d) ∧
            (pr.1.store.data_arrays[d]?).map da_name_meta =
              some (nm ++ "." ++ toString k, some sec)) := by
  have hok : (write_analogsignal (fun t => t) c3Sig
      [("block", "blk"), ("group", "seg")] ⟨c3Store, []⟩).isOk = true := by decide
  match hrun : write_analogsignal (fun t => t) c3Sig
      [("block", "blk"), ("group", "seg")] ⟨c3Store, []⟩ with
  | .error e => rw [hrun] at hok; simp [Except.isOk, Except.toBool] at hok
  | .ok pr =>
    exact ⟨pr, rfl, claim_C3_signal_channels.1 (fun t => t) c3Sig
      [("block", "blk"), ("group", "seg")] ⟨c3Store, []⟩ pr.1 pr.2 (.group 0)
      hrun (by decide)⟩

/- ================================================================== -/
/- C4.  Synthesized names of anonymous objects. -/

/-- Point updates that keep the name keep every projected name lookup. -/
theorem modifyMT_map_name (s : Store) (i : Nat) (f : NMultiTag → NMultiTag)
    (hf : ∀ x, (f x).name = x.name) (j : Nat) :
    ((s.modifyMT i f).multi_tags[j]?).map NMultiTag.name =
      (s.multi_tags[j]?).map NMultiTag.name := by
  rw [Store.modifyMT]
  cases hx : s.multi_tags[i]? with
  | none => rfl
  | some x => exact getElem?_map_set NMultiTag.name hx (hf x) j

/-- Appending sources to a multi tag keeps every name lookup. -/
theorem mt_name_modifyMT_sources {s : Store} {i : Nat} {ss : List Nat}
    {j : Nat} {t : String}
    (h : (s.multi_tags[j]?).map NMultiTag.name = some t) :
    (((s.modifyMT i fun m => { m with sources := m.sources ++ ss }).multi_tags[j]?).map
      NMultiTag.name) = some t := by
  rw [modifyMT_map_name s i (fun m => { m with sources := m.sources ++ ss })
    (fun x => Eq.refl _) j]
  exact h

/-- Setting the definition of a multi tag keeps every name lookup. -/
theorem mt_name_modifyMT_def {s : Store} {i : Nat} {d : Option String}
    {j : Nat} {t : String}
    (h : (s.multi_tags[j]?).map NMultiTag.name = some t) :
    (((s.modifyMT i fun m => { m with definition := d }).multi_tags[j]?).map
      NMultiTag.name) = some t := by
  rw [modifyMT_map_name s i (fun m => { m with definition := d })
    (fun x => Eq.refl _) j]
  exact h

/-- Appending features to a multi tag keeps every name lookup. -/
theorem mt_name_modifyMT_features {s : Store} {i : Nat} {fs : List Nat}
    {j : Nat} {t : String}
    (h : (s.multi_tags[j]?).map NMultiTag.name = some t) :
    (((s.modifyMT i fun m => { m with features := m.features ++ fs }).multi_tags[j]?).map
      NMultiTag.name) = some t := by
  rw [modifyMT_map_name s i (fun m => { m with features := m.features ++ fs })
    (fun x => Eq.refl _) j]
  exact h

/-- Setting the extents of a multi tag keeps every name lookup. -/
theorem mt_name_modifyMT_extents {s : Store} {i : Nat} {e : Option Nat}
    {j : Nat} {t : String}
    (h : (s.multi_tags[j]?).map NMultiTag.name = some t) :
    (((s.modifyMT i fun m => { m with extents := e }).multi_tags[j]?).map
      NMultiTag.name) = some t := by
  rw [modifyMT_map_name s i (fun m => { m with extents := e })
    (fun x => Eq.refl _) j]
  exact h

/-- Appending references to a multi tag keeps every name lookup. -/
theorem mt_name_modifyMT_refs {s : Store} {i : Nat} {rs : List Nat}
    {j : Nat} {t : String}
    (h : (s.multi_tags[j]?).map NMultiTag.name = some t) :
    (((s.modifyMT i fun m => { m with references := m.references ++ rs }).multi_tags[j]?).map
      NMultiTag.name) = some t := by
  rw [modifyMT_map_name s i (fun m => { m with references := m.references ++ rs })
    (fun x => Eq.refl _) j]
  exact h

/-- Data-array updates keep every multi-tag name lookup. -/
theorem mt_name_modifyDA {s : Store} {i : Nat} {f : NDataArray → NDataArray}
    {j : Nat} {t : String}
    (h : (s.multi_tags[j]?).map NMultiTag.name = some t) :
    (((s.modifyDA i f).multi_tags[j]?).map NMultiTag.name) = some t := by
  rw [modifyDA_multi_tags]
  exact h

/-- Property creation keeps every multi-tag name lookup. -/
theorem mt_name_create_property {s : Store} {sec : Nat} {k : String}
    {v : PropVal} {j : Nat} {t : String}
    (h : (s.multi_tags[j]?).map NMultiTag.name = some t) :
    (((s.create_property sec k v).multi_tags[j]?).map NMultiTag.name) = some t := by
  rw [create_property_multi_tags]
  exact h

/-- Data-array names can be read off the combined name and metadata
projection. -/
theorem da_name_of_meta {o : Option NDataArray} {nm : String}
    {md : Option Nat} (h : o.map da_name_meta = some (nm, md)) :
    o.map NDataArray.name = some nm := by
  cases o <;> simp_all [da_name_meta]

/-- Group names seen through a point update that keeps them. -/
theorem modifyGroup_map_name (s : Store) (i : Nat) (f : NGroup → NGroup)
    (hf : ∀ x, (f x).name = x.name) (j : Nat) :
    ((s.modifyGroup i f).groups[j]?).map NGroup.name =
      (s.groups[j]?).map NGroup.name := by
  rw [Store.modifyGroup]
  cases hx : s.groups[i]? with
  | none => rfl
  | some x => exact getElem?_map_set NGroup.name hx (hf x) j

/-- Name-preserving group updates keep every group-name lookup. -/
theorem gname_modifyGroup {s : Store} {i : Nat} {f : NGroup → NGroup}
    {j : Nat} {t : String} (hf : ∀ x, (f x).name = x.name)
    (h : (s.groups[j]?).map NGroup.name = some t) :
    (((s.modifyGroup i f).groups[j]?).map NGroup.name) = some t := by
  rw [modifyGroup_map_name s i f hf j]
  exact h

/-- Equal group arenas keep every group-name lookup. -/
theorem gname_groups_eq {s s2 : Store} {j : Nat} {t : String}
    (hg : s2.groups = s.groups)
    (h : (s.groups[j]?).map NGroup.name = some t) :
    (s2.groups[j]?).map NGroup.name = some t := by
  rw [hg]
  exact h

/-- The metadata frame keeps every group-name lookup. -/
theorem gname_metaframe {s s2 : Store} {j : Nat} {t : String}
    (hf : MetaFrame s s2)
    (h : (s.groups[j]?).map NGroup.name = some t) :
    (s2.groups[j]?).map NGroup.name = some t := by
  have h9 := hf.2.2.2.2.2.2.2.2.1 j
  have e : ∀ o : Option NGroup,
      (o.map dropMetaGroup).map NGroup.name = o.map NGroup.name :=
    fun o => map_comp_dropMeta o _ _ (fun a => Eq.refl _)
  calc (s2.groups[j]?).map NGroup.name
      = ((s2.groups[j]?).map dropMetaGroup).map NGroup.name := (e _).symm
    _ = ((s.groups[j]?).map dropMetaGroup).map NGroup.name := by rw [h9]
    _ = (s.groups[j]?).map NGroup.name := e _
    _ = some t := h

/-- The annotation frame keeps every group-name lookup. -/
theorem gname_annframe {s s2 : Store} {j : Nat} {t : String}
    (hf : AnnFrame s s2)
    (h : (s.groups[j]?).map NGroup.name = some t) :
    (s2.groups[j]?).map NGroup.name = some t := by
  have h9 := hf.2.2.2.2.2.2.2.2.1 j
  have e : ∀ o : Option NGroup,
      (o.map dropMetaGroup).map NGroup.name = o.map NGroup.name :=
    fun o => map_comp_dropMeta o _ _ (fun a => Eq.refl _)
  calc (s2.groups[j]?).map NGroup.name
      = ((s2.groups[j]?).map dropMetaGroup).map NGroup.name := (e _).symm
    _ = ((s.groups[j]?).map dropMetaGroup).map NGroup.name := by rw [h9]
    _ = (s.groups[j]?).map NGroup.name := e _
    _ = some t := h

/-- Property creation keeps every group-name lookup. -/
theorem gname_create_property {s : Store} {sec : Nat} {k : String}
    {v : PropVal} {j : Nat} {t : String}
    (h : (s.groups[j]?).map NGroup.name = some t) :
    (((s.create_property sec k v).groups[j]?).map NGroup.name) = some t := by
  rw [create_property_groups]
  exact h

/-- Data-array point updates keep every group-name lookup. -/
theorem gname_modifyDA {s : Store} {i : Nat} {f : NDataArray → NDataArray}
    {j : Nat} {t : String}
    (h : (s.groups[j]?).map NGroup.name = some t) :
    (((s.modifyDA i f).groups[j]?).map NGroup.name) = some t := by
  rw [modifyDA_groups]
  exact h

/-- Multi-tag point updates keep every group-name lookup. -/
theorem gname_modifyMT {s : Store} {i : Nat} {f : NMultiTag → NMultiTag}
    {j : Nat} {t : String}
    (h : (s.groups[j]?).map NGroup.name = some t) :
    (((s.modifyMT i f).groups[j]?).map NGroup.name) = some t := by
  rw [modifyMT_groups]
  exact h

/-- Group-name lookups through a name-preserving point write. -/
theorem gname_set {l : List NGroup} {i : Nat} {x y : NGroup} {j : Nat}
    {t : String} (hx : l[i]? = some x) (hy : y.name = x.name)
    (h : (l[j]?).map NGroup.name = some t) :
    ((l.set i y)[j]?).map NGroup.name = some t := by
  rw [getElem?_map_set NGroup.name hx hy j]
  exact h

/-- Appending group contents keeps every group-name lookup. -/
theorem gname_group_append_da {s : Store} {r : NixRef} {da : Nat}
    {s1 : Store} {j : Nat} {t : String}
    (hap : s.group_append_data_array r da = .ok s1)
    (h : (s.groups[j]?).map NGroup.name = some t) :
    (s1.groups[j]?).map NGroup.name = some t := by
  obtain ⟨_, _, _, _, _, _, gi, g, _, hx, hset⟩ := group_append_data_array_spec hap
  rw [hset]
  refine gname_set hx ?_ h
  rfl

/-- Appending group multi tags keeps every group-name lookup. -/
theorem gname_group_append_mt {s : Store} {r : NixRef} {mt : Nat}
    {s1 : Store} {j : Nat} {t : String}
    (hap : s.group_append_multi_tag r mt = .ok s1)
    (h : (s.groups[j]?).map NGroup.name = some t) :
    (s1.groups[j]?).map NGroup.name = some t := by
  obtain ⟨_, _, _, _, _, _, gi, g, _, hx, hset⟩ := group_append_multi_tag_spec hap
  rw [hset]
  refine gname_set hx ?_ h
  rfl

/-- Source appends keep every group-name lookup. -/
theorem gname_sources_append {s : Store} {r v : NixRef} {s1 : Store}
    {j : Nat} {t : String} (hap : s.sources_append r v = .ok s1)
    (h : (s.groups[j]?).map NGroup.name = some t) :
    (s1.groups[j]?).map NGroup.name = some t := by
  obtain ⟨j2, _hv, hcase⟩ := sources_append_spec hap
  rcases hcase with ⟨i2, m, _ht, _hx, hs1⟩ | ⟨i2, d, _ht, _hx, hs1⟩ |
    ⟨i2, x, _ht, _hx, hs1⟩ <;> subst hs1 <;> exact h

/-- The per-channel analog-signal loop keeps every group-name lookup. -/
theorem ana_loop_gname :
    ∀ (cols : List (List Rat)) (s : Store) (pb pgr : NixRef)
      (nm ty : String) (defn : Option String) (du : String) (tu : UnitQ)
      (off si : Rat) (sec idx : Nat) (acc : List NixRef)
      (out : Store × List NixRef) (j : Nat) (t : String),
    write_analogsignal_loop s pb pgr nm ty defn du tu off si sec idx cols acc
      = .ok out →
    (s.groups[j]?).map NGroup.name = some t →
    (out.1.groups[j]?).map NGroup.name = some t := by
  intro cols
  induction cols with
  | nil =>
    intro s pb pgr nm ty defn du tu off si sec idx acc out j t h hn
    simp only [write_analogsignal_loop] at h
    injection h with h
    subst h
    exact hn
  | cons sig rest ih =>
    intro s pb pgr nm ty defn du tu off si sec idx acc out j t h hn
    simp only [write_analogsignal_loop] at h
    obtain ⟨p, hp, ha⟩ := bindE_ok_elim h
    clear h
    obtain ⟨s5, hs5, hb⟩ := bindE_ok_elim ha
    clear ha
    refine ih _ pb pgr nm ty defn du tu off si sec (idx + 1)
      (acc ++ [.dataArray p.2]) out j t hb ?_
    refine gname_modifyDA (gname_group_append_da hs5 ?_)
    refine gname_modifyDA (gname_modifyDA (gname_modifyDA (gname_modifyDA ?_)))
    exact gname_groups_eq (create_data_array_spec hp).2.2.1 hn

/-- The per-channel irregular-signal loop keeps every group-name lookup. -/
theorem irr_loop_gname :
    ∀ (cols : List (List Rat)) (s : Store) (pb pgr : NixRef)
      (nm ty : String) (defn : Option String) (du tu : String)
      (times : List Rat) (sec idx : Nat) (acc : List NixRef)
      (out : Store × List NixRef) (j : Nat) (t : String),
    write_irregularlysampledsignal_loop s pb pgr nm ty defn du tu times sec
      idx cols acc = .ok out →
    (s.groups[j]?).map NGroup.name = some t →
    (out.1.groups[j]?).map NGroup.name = some t := by
  intro cols
  induction cols with
  | nil =>
    intro s pb pgr nm ty defn du tu times sec idx acc out j t h hn
    simp only [write_irregularlysampledsignal_loop] at h
    injection h with h
    subst h
    exact hn
  | cons sig rest ih =>
    intro s pb pgr nm ty defn du tu times sec idx acc out j t h hn
    simp only [write_irregularlysampledsignal_loop] at h
    obtain ⟨p, hp, ha⟩ := bindE_ok_elim h
    clear h
    obtain ⟨s5, hs5, hb⟩ := bindE_ok_elim ha
    clear ha
    refine ih _ pb pgr nm ty defn du tu times sec (idx + 1)
      (acc ++ [.dataArray p.2]) out j t hb ?_
    refine gname_modifyDA (gname_group_append_da hs5 ?_)
    refine gname_modifyDA (gname_modifyDA (gname_modifyDA (gname_modifyDA ?_)))
    exact gname_groups_eq (create_data_array_spec hp).2.2.1 hn

/-- write_analogsignal keeps every group-name lookup. -/
theorem analogsignal_gname {aid : Nat → Nat} {x : NeoAnalogSignal} {pp : Path}
    {w : WState} {out : WState × List NixRef} {j : Nat} {t : String}
    (h : write_analogsignal aid x pp w = .ok out)
    (hn : (w.store.groups[j]?).map NGroup.name = some t) :
    (out.1.store.groups[j]?).map NGroup.name = some t := by
  rw [write_analogsignal] at h
  obtain ⟨pg, _hpg, h1⟩ := bindE_ok_elim h
  clear h
  obtain ⟨pgr, _ho, h2⟩ := bindE_ok_elim h1
  clear h1
  obtain ⟨hp, _hh, h3⟩ := bindE_ok_elim h2
  clear h2
  obtain ⟨pb, _hpb, h4⟩ := bindE_ok_elim h3
  clear h3
  obtain ⟨pblk, _hbo, h5⟩ := bindE_ok_elim h4
  clear h4
  obtain ⟨nm, _hnm, h6⟩ := bindE_ok_elim h5
  clear h5
  obtain ⟨pm, hpm, h7⟩ := bindE_ok_elim h6
  clear h6
  obtain ⟨res, hloop, h8⟩ := bindE_ok_elim h7
  clear h7
  injection h8 with h8
  subst h8
  show ((res.1.groups[j]?).map NGroup.name = some t)
  refine ana_loop_gname x.signal_columns _ pblk pgr nm _ _ _ _ _ _ _ 0 []
    res j t hloop ?_
  have hg0 : ((pm.1.groups[j]?).map NGroup.name) = some t :=
    gname_metaframe (gom_frame hpm).1 hn
  have hg1 : (((pm.1.create_section (some pm.2) nm
      ("neo.analogsignal" ++ ".metadata")).1.groups[j]?).map NGroup.name) =
      some t := hg0
  split
  · split
    · exact hg1
    · exact gname_create_property hg1
  · refine gname_annframe (add_annotations_annframe _ _ _) ?_
    split
    · exact hg1
    · exact gname_create_property hg1

/-- write_irregularlysampledsignal keeps every group-name lookup. -/
theorem irregularsignal_gname {aid : Nat → Nat}
    {x : NeoIrregularlySampledSignal} {pp : Path}
    {w : WState} {out : WState × List NixRef} {j : Nat} {t : String}
    (h : write_irregularlysampledsignal aid x pp w = .ok out)
    (hn : (w.store.groups[j]?).map NGroup.name = some t) :
    (out.1.store.groups[j]?).map NGroup.name = some t := by
  rw [write_irregularlysampledsignal] at h
  obtain ⟨pg, _hpg, h1⟩ := bindE_ok_elim h
  clear h
  obtain ⟨pgr, _ho, h2⟩ := bindE_ok_elim h1
  clear h1
  obtain ⟨hp, _hh, h3⟩ := bindE_ok_elim h2
  clear h2
  obtain ⟨pb, _hpb, h4⟩ := bindE_ok_elim h3
  clear h3
  obtain ⟨pblk, _hbo, h5⟩ := bindE_ok_elim h4
  clear h4
  obtain ⟨nm, _hnm, h6⟩ := bindE_ok_elim h5
  clear h5
  obtain ⟨pm, hpm, h7⟩ := bindE_ok_elim h6
  clear h6
  obtain ⟨res, hloop, h8⟩ := bindE_ok_elim h7
  clear h7
  injection h8 with h8
  subst h8
  show ((res.1.groups[j]?).map NGroup.name = some t)
  refine irr_loop_gname x.signal_columns _ pblk pgr nm _ _ _ _ _ _ 0 []
    res j t hloop ?_
  have hg0 : ((pm.1.groups[j]?).map NGroup.name) = some t :=
    gname_metaframe (gom_frame hpm).1 hn
  have hg1 : (((pm.1.create_section (some pm.2) nm
      ("neo.irregularlysampledsignal" ++ ".metadata")).1.groups[j]?).map
      NGroup.name) = some t := hg0
  split
  · split
    · exact hg1
    · exact gname_create_property hg1
  · refine gname_annframe (add_annotations_annframe _ _ _) ?_
    split
    · exact hg1
    · exact gname_create_property hg1

/-- write_epoch keeps every group-name lookup. -/
theorem epoch_gname {aid : Nat → Nat} {ep : NeoEpoch} {pp : Path}
    {w : WState} {out : WState × NixRef} {j : Nat} {t : String}
    (h : write_epoch aid ep pp w = .ok out)
    (hn : (w.store.groups[j]?).map NGroup.name = some t) :
    (out.1.store.groups[j]?).map NGroup.name = some t := by
  rw [write_epoch] at h
  obtain ⟨pg, _hpg, h1⟩ := bindE_ok_elim h
  clear h
  obtain ⟨pgr, _ho, h2⟩ := bindE_ok_elim h1
  clear h1
  obtain ⟨hp, _hh, h3⟩ := bindE_ok_elim h2
  clear h2
  obtain ⟨pb, _hpb, h4⟩ := bindE_ok_elim h3
  clear h3
  obtain ⟨pblk, _hbo, h5⟩ := bindE_ok_elim h4
  clear h4
  obtain ⟨nm, _hnm, h6⟩ := bindE_ok_elim h5
  clear h5
  obtain ⟨ptd, hptd, h7⟩ := bindE_ok_elim h6
  clear h6
  obtain ⟨pdd, hpdd, h8⟩ := bindE_ok_elim h7
  clear h7
  obtain ⟨pmt, hpmt, h9⟩ := bindE_ok_elim h8
  clear h8
  obtain ⟨s5, hs5, h10⟩ := bindE_ok_elim h9
  clear h9
  have hg5 : (s5.groups[j]?).map NGroup.name = some t := by
    refine gname_group_append_mt hs5 ?_
    refine gname_modifyMT (gname_modifyDA ?_)
    refine gname_groups_eq (create_multi_tag_spec hpmt).2.2.1 ?_
    refine gname_modifyDA ?_
    refine gname_groups_eq (create_data_array_spec hpdd).2.2.1 ?_
    refine gname_modifyDA ?_
    exact gname_groups_eq (create_data_array_spec hptd).2.2.1 hn
  obtain ⟨s7, hs7, h11⟩ := bindE_ok_elim h10
  clear h10
  have hg7 : (s7.groups[j]?).map NGroup.name = some t := by
    revert hs7
    split
    · intro hs7
      injection hs7 with hs7
      rw [← hs7]
      exact gname_modifyMT hg5
    · intro hs7
      obtain ⟨r, hr, hs7⟩ := bindE_ok_elim hs7
      injection hs7 with hs7
      rw [← hs7]
      exact gname_create_property (gname_metaframe (gom_frame hr).1
        (gname_modifyMT hg5))
  obtain ⟨s8, hs8, h12⟩ := bindE_ok_elim h11
  clear h11
  obtain ⟨contained, _hc, hfin⟩ := bindE_ok_elim h12
  clear h12
  injection hfin with hfin
  subst hfin
  exact gname_modifyMT (gname_annframe (copy_annotations_annframe hs8) hg7)

/-- write_event keeps every group-name lookup. -/
theorem event_gname {aid : Nat → Nat} {ev : NeoEvent} {pp : Path}
    {w : WState} {out : WState × NixRef} {j : Nat} {t : String}
    (h : write_event aid ev pp w = .ok out)
    (hn : (w.store.groups[j]?).map NGroup.name = some t) :
    (out.1.store.groups[j]?).map NGroup.name = some t := by
  rw [write_event] at h
  obtain ⟨pg, _hpg, h1⟩ := bindE_ok_elim h
  clear h
  obtain ⟨pgr, _ho, h2⟩ := bindE_ok_elim h1
  clear h1
  obtain ⟨hp, _hh, h3⟩ := bindE_ok_elim h2
  clear h2
  obtain ⟨pb, _hpb, h4⟩ := bindE_ok_elim h3
  clear h3
  obtain ⟨pblk, _hbo, h5⟩ := bindE_ok_elim h4
  clear h4
  obtain ⟨nm, _hnm, h6⟩ := bindE_ok_elim h5
  clear h5
  obtain ⟨ptd, hptd, h7⟩ := bindE_ok_elim h6
  clear h6
  obtain ⟨pmt, hpmt, h8⟩ := bindE_ok_elim h7
  clear h7
  obtain ⟨s3, hs3, h9⟩ := bindE_ok_elim h8
  clear h8
  have hg3 : (s3.groups[j]?).map NGroup.name = some t := by
    refine gname_group_append_mt hs3 ?_
    refine gname_modifyDA ?_
    refine gname_groups_eq (create_multi_tag_spec hpmt).2.2.1 ?_
    refine gname_modifyDA ?_
    exact gname_groups_eq (create_data_array_spec hptd).2.2.1 hn
  obtain ⟨s5, hs5, h10⟩ := bindE_ok_elim h9
  clear h9
  have hg5 : (s5.groups[j]?).map NGroup.name = some t := by
    revert hs5
    split
    · intro hs5
      injection hs5 with hs5
      rw [← hs5]
      exact gname_modifyMT hg3
    · intro hs5
      obtain ⟨r, hr, hs5⟩ := bindE_ok_elim hs5
      injection hs5 with hs5
      rw [← hs5]
      exact gname_create_property (gname_metaframe (gom_frame hr).1
        (gname_modifyMT hg3))
  obtain ⟨s6, hs6, h11⟩ := bindE_ok_elim h10
  clear h10
  obtain ⟨contained, _hc, hfin⟩ := bindE_ok_elim h11
  clear h11
  injection hfin with hfin
  subst hfin
  exact gname_modifyMT (gname_annframe (copy_annotations_annframe hs6) hg5)

/-- write_spiketrain keeps every group-name lookup. -/
theorem spiketrain_gname {aid : Nat → Nat} {sptr : NeoSpikeTrain} {pp : Path}
    {w : WState} {out : WState × NixRef} {j : Nat} {t : String}
    (h : write_spiketrain aid sptr pp w = .ok out)
    (hn : (w.store.groups[j]?).map NGroup.name = some t) :
    (out.1.store.groups[j]?).map NGroup.name = some t := by
  rw [write_spiketrain] at h
  obtain ⟨po, _hpo, h1⟩ := bindE_ok_elim h
  clear h
  obtain ⟨pobj, _ho, h2⟩ := bindE_ok_elim h1
  clear h1
  obtain ⟨hp, _hh, h3⟩ := bindE_ok_elim h2
  clear h2
  obtain ⟨pb, _hpb, h4⟩ := bindE_ok_elim h3
  clear h3
  obtain ⟨pblk, _hbo, h5⟩ := bindE_ok_elim h4
  clear h4
  obtain ⟨nm, _hnm, h6⟩ := bindE_ok_elim h5
  clear h5
  obtain ⟨pda, hpda, h7⟩ := bindE_ok_elim h6
  clear h6
  obtain ⟨pmt, hpmt, h8⟩ := bindE_ok_elim h7
  clear h7
  obtain ⟨s2, hs2, h9⟩ := bindE_ok_elim h8
  clear h8
  have hg2 : (s2.groups[j]?).map NGroup.name = some t := by
    have hg1 : (pmt.1.groups[j]?).map NGroup.name = some t := by
      refine gname_groups_eq (create_multi_tag_spec hpmt).2.2.1 ?_
      refine gname_modifyDA ?_
      exact gname_groups_eq (create_data_array_spec hpda).2.2.1 hn
    rcases pobj with _ | bi2 | gi2 | si2 | di2 | mi2
    · injection hs2 with hs2; rw [← hs2]; exact hg1
    · injection hs2 with hs2; rw [← hs2]; exact hg1
    · exact gname_group_append_mt hs2 hg1
    · injection hs2 with hs2
      rw [← hs2]
      exact gname_modifyMT hg1
    · injection hs2 with hs2; rw [← hs2]; exact hg1
    · injection hs2 with hs2; rw [← hs2]; exact hg1
  obtain ⟨rmd, hrmd, h10⟩ := bindE_ok_elim h9
  clear h9
  have hgmd : (rmd.1.groups[j]?).map NGroup.name = some t :=
    gname_metaframe (gom_frame hrmd).1 (gname_modifyMT hg2)
  obtain ⟨s4, hs4, h11⟩ := bindE_ok_elim h10
  clear h10
  have hg4 : (s4.groups[j]?).map NGroup.name = some t :=
    gname_annframe (copy_annotations_annframe hs4) hgmd
  have hg7 : ∀ u : Store,
      (u.groups[j]?).map NGroup.name = some t →
      (((u.create_property rmd.2 ("t_stop")
        (.single (.rat ((sptr.t_stop.rescale sptr.times_unit).mag)))).groups[j]?).map
          NGroup.name) = some t :=
    fun u hu => gname_create_property hu
  obtain ⟨s8, hs8, hfin⟩ := bindE_ok_elim h11
  clear h11
  injection hfin with hfin
  subst hfin
  show ((s8.groups[j]?).map NGroup.name = some t)
  have hg7f : ((((if sptr.t_start.mag = 0 then
        (if sptr.file_origin = "" then s4
          else s4.create_property rmd.2 ("file_origin")
            (.single (.str sptr.file_origin)))
       else
        (if sptr.file_origin = "" then s4
          else s4.create_property rmd.2 ("file_origin")
            (.single (.str sptr.file_origin))).create_property rmd.2 ("t_start")
          (.single (.rat ((sptr.t_start.rescale sptr.times_unit).mag)))).create_property
        rmd.2 ("t_stop")
        (.single (.rat ((sptr.t_stop.rescale sptr.times_unit).mag)))).groups[j]?).map
      NGroup.name) = some t := by
    refine gname_create_property ?_
    split
    · split
      · exact hg4
      · exact gname_create_property hg4
    · refine gname_create_property ?_
      split
      · exact hg4
      · exact gname_create_property hg4
  rcases hwfs : sptr.waveforms with _ | wfs <;> rw [hwfs] at hs8
  · injection hs8 with hs8
    rw [← hs8]
    exact hg7f
  · obtain ⟨pwf, hpwf, hs8b⟩ := bindE_ok_elim hs8
    clear hs8
    have hgw : (pwf.1.groups[j]?).map NGroup.name = some t :=
      gname_groups_eq (create_data_array_spec hpwf).2.2.1 hg7f
    obtain ⟨rwf, hrwf, hs8c⟩ := bindE_ok_elim hs8b
    clear hs8b
    have hgrwf : (rwf.1.groups[j]?).map NGroup.name = some t := by
      refine gname_metaframe (gom_frame hrwf).1 ?_
      exact gname_modifyDA (gname_modifyDA (gname_modifyDA
        (gname_modifyMT (gname_modifyDA hgw))))
    obtain ⟨sf, hsf, hs8d⟩ := bindE_ok_elim hs8c
    clear hs8c
    have hgsf : (sf.groups[j]?).map NGroup.name = some t :=
      gname_metaframe (set_metadata_metaframe hsf).1 hgrwf
    rcases hls : sptr.left_sweep with _ | ls <;> rw [hls] at hs8d
    · injection hs8d with hs8d
      rw [← hs8d]
      exact hgsf
    · split at hs8d
      · split at hs8d <;> injection hs8d with hs8d <;> rw [← hs8d] <;>
          (try exact gname_create_property hgsf) <;> exact hgsf
      · injection hs8d with hs8d
        rw [← hs8d]
        exact hgsf

/-- Analog-signal lists keep every group-name lookup. -/
theorem ana_list_gname :
    ∀ (xs : List NeoAnalogSignal) (aid : Nat → Nat) (op : Path) (w : WState)
      (out : WState) (j : Nat) (t : String),
    write_analogsignal_list aid xs op w = .ok out →
    (w.store.groups[j]?).map NGroup.name = some t →
    (out.store.groups[j]?).map NGroup.name = some t := by
  intro xs
  induction xs with
  | nil =>
    intro aid op w out j t h hn
    simp only [write_analogsignal_list] at h
    injection h with h
    subst h
    exact hn
  | cons x rest ih =>
    intro aid op w out j t h hn
    simp only [write_analogsignal_list] at h
    obtain ⟨r, hr, h2⟩ := bindE_ok_elim h
    exact ih aid op r.1 out j t h2 (analogsignal_gname hr hn)

/-- Irregular-signal lists keep every group-name lookup. -/
theorem irr_list_gname :
    ∀ (xs : List NeoIrregularlySampledSignal) (aid : Nat → Nat) (op : Path)
      (w : WState) (out : WState) (j : Nat) (t : String),
    write_irregularlysampledsignal_list aid xs op w = .ok out →
    (w.store.groups[j]?).map NGroup.name = some t →
    (out.store.groups[j]?).map NGroup.name = some t := by
  intro xs
  induction xs with
  | nil =>
    intro aid op w out j t h hn
    simp only [write_irregularlysampledsignal_list] at h
    injection h with h
    subst h
    exact hn
  | cons x rest ih =>
    intro aid op w out j t h hn
    simp only [write_irregularlysampledsignal_list] at h
    obtain ⟨r, hr, h2⟩ := bindE_ok_elim h
    exact ih aid op r.1 out j t h2 (irregularsignal_gname hr hn)

/-- Epoch lists keep every group-name lookup. -/
theorem epoch_list_gname :
    ∀ (xs : List NeoEpoch) (aid : Nat → Nat) (op : Path) (w : WState)
      (out : WState) (j : Nat) (t : String),
    write_epoch_list aid xs op w = .ok out →
    (w.store.groups[j]?).map NGroup.name = some t →
    (out.store.groups[j]?).map NGroup.name = some t := by
  intro xs
  induction xs with
  | nil =>
    intro aid op w out j t h hn
    simp only [write_epoch_list] at h
    injection h with h
    subst h
    exact hn
  | cons x rest ih =>
    intro aid op w out j t h hn
    simp only [write_epoch_list] at h
    obtain ⟨r, hr, h2⟩ := bindE_ok_elim h
    exact ih aid op r.1 out j t h2 (epoch_gname hr hn)

/-- Event lists keep every group-name lookup. -/
theorem event_list_gname :
    ∀ (xs : List NeoEvent) (aid : Nat → Nat) (op : Path) (w : WState)
      (out : WState) (j : Nat) (t : String),
    write_event_list aid xs op w = .ok out →
    (w.store.groups[j]?).map NGroup.name = some t →
    (out.store.groups[j]?).map NGroup.name = some t := by
  intro xs
  induction xs with
  | nil =>
    intro aid op w out j t h hn
    simp only [write_event_list] at h
    injection h with h
    subst h
    exact hn
  | cons x rest ih =>
    intro aid op w out j t h hn
    simp only [write_event_list] at h
    obtain ⟨r, hr, h2⟩ := bindE_ok_elim h
    exact ih aid op r.1 out j t h2 (event_gname hr hn)

/-- Spike-train lists keep every group-name lookup. -/
theorem sptr_list_gname :
    ∀ (xs : List NeoSpikeTrain) (aid : Nat → Nat) (op : Path) (w : WState)
      (out : WState) (j : Nat) (t : String),
    write_spiketrain_list aid xs op w = .ok out →
    (w.store.groups[j]?).map NGroup.name = some t →
    (out.store.groups[j]?).map NGroup.name = some t := by
  intro xs
  induction xs with
  | nil =>
    intro aid op w out j t h hn
    simp only [write_spiketrain_list] at h
    injection h with h
    subst h
    exact hn
  | cons x rest ih =>
    intro aid op w out j t h hn
    simp only [write_spiketrain_list] at h
    obtain ⟨r, hr, h2⟩ := bindE_ok_elim h
    exact ih aid op r.1 out j t h2 (spiketrain_gname hr hn)

/-- Source names seen through a point update that keeps them. -/
theorem modifySrc_map_name (s : Store) (i : Nat) (f : NSource → NSource)
    (hf : ∀ x, (f x).name = x.name) (j : Nat) :
    ((s.modifySrc i f).sources[j]?).map NSource.name =
      (s.sources[j]?).map NSource.name := by
  rw [Store.modifySrc]
  cases hx : s.sources[i]? with
  | none => rfl
  | some x => exact getElem?_map_set NSource.name hx (hf x) j

/-- Name-preserving source updates keep every source-name lookup. -/
theorem sname_modifySrc {s : Store} {i : Nat} {f : NSource → NSource}
    {j : Nat} {t : String} (hf : ∀ x, (f x).name = x.name)
    (h : (s.sources[j]?).map NSource.name = some t) :
    (((s.modifySrc i f).sources[j]?).map NSource.name) = some t := by
  rw [modifySrc_map_name s i f hf j]
  exact h

/-- The metadata frame keeps every source-name lookup. -/
theorem sname_metaframe {s s2 : Store} {j : Nat} {t : String}
    (hf : MetaFrame s s2)
    (h : (s.sources[j]?).map NSource.name = some t) :
    (s2.sources[j]?).map NSource.name = some t := by
  have h10 := hf.2.2.2.2.2.2.2.2.2.1 j
  have e : ∀ o : Option NSource,
      (o.map dropMetaSrc).map NSource.name = o.map NSource.name :=
    fun o => map_comp_dropMeta o _ _ (fun a => Eq.refl _)
  calc (s2.sources[j]?).map NSource.name
      = ((s2.sources[j]?).map dropMetaSrc).map NSource.name := (e _).symm
    _ = ((s.sources[j]?).map dropMetaSrc).map NSource.name := by rw [h10]
    _ = (s.sources[j]?).map NSource.name := e _
    _ = some t := h

/-- The annotation frame keeps every source-name lookup. -/
theorem sname_annframe {s s2 : Store} {j : Nat} {t : String}
    (hf : AnnFrame s s2)
    (h : (s.sources[j]?).map NSource.name = some t) :
    (s2.sources[j]?).map NSource.name = some t := by
  have h10 := hf.2.2.2.2.2.2.2.2.2.1 j
  have e : ∀ o : Option NSource,
      (o.map dropMetaSrc).map NSource.name = o.map NSource.name :=
    fun o => map_comp_dropMeta o _ _ (fun a => Eq.refl _)
  calc (s2.sources[j]?).map NSource.name
      = ((s2.sources[j]?).map dropMetaSrc).map NSource.name := (e _).symm
    _ = ((s.sources[j]?).map dropMetaSrc).map NSource.name := by rw [h10]
    _ = (s.sources[j]?).map NSource.name := e _
    _ = some t := h

/-- Property creation keeps every source-name lookup. -/
theorem sname_create_property {s : Store} {sec : Nat} {k : String}
    {v : PropVal} {j : Nat} {t : String}
    (h : (s.sources[j]?).map NSource.name = some t) :
    (((s.create_property sec k v).sources[j]?).map NSource.name) = some t := by
  rw [create_property_sources]
  exact h

/-- Source-name lookups through a name-preserving point write. -/
theorem sname_set {l : List NSource} {i : Nat} {x y : NSource} {j : Nat}
    {t : String} (hx : l[i]? = some x) (hy : y.name = x.name)
    (h : (l[j]?).map NSource.name = some t) :
    ((l.set i y)[j]?).map NSource.name = some t := by
  rw [getElem?_map_set NSource.name hx hy j]
  exact h

/-- Source appends keep every source-name lookup. -/
theorem sname_sources_append {s : Store} {r v : NixRef} {s1 : Store}
    {j : Nat} {t : String} (hap : s.sources_append r v = .ok s1)
    (h : (s.sources[j]?).map NSource.name = some t) :
    (s1.sources[j]?).map NSource.name = some t := by
  obtain ⟨j2, _hv, hcase⟩ := sources_append_spec hap
  rcases hcase with ⟨i2, m, _ht, _hx, hs1⟩ | ⟨i2, d, _ht, _hx, hs1⟩ |
    ⟨i2, x, _ht, hx, hs1⟩
  · subst hs1
    exact h
  · subst hs1
    exact h
  · subst hs1
    show ((s.sources.set i2
      { x with sources := x.sources ++ [j2] })[j]?).map NSource.name = some t
    refine sname_set hx ?_ h
    rfl

/-- Source appends keep the source-arena length. -/
theorem sources_append_srclen {s : Store} {r v : NixRef} {s1 : Store}
    (hap : s.sources_append r v = .ok s1) :
    s1.sources.length = s.sources.length := by
  obtain ⟨j2, _hv, hcase⟩ := sources_append_spec hap
  rcases hcase with ⟨i2, m, _ht, _hx, hs1⟩ | ⟨i2, d, _ht, _hx, hs1⟩ |
    ⟨i2, x, _ht, _hx, hs1⟩ <;> subst hs1 <;> simp

/-- Source creation keeps source-name lookups below the old arena end. -/
theorem create_source_keeps {s : Store} {r : NixRef} {nm ty : String}
    {s1 : Store} {idx : Nat}
    (h : s.create_source_in r nm ty = .ok (s1, idx)) (j : Nat)
    (hj : j < s.sources.length) :
    (s1.sources[j]?).map NSource.name = (s.sources[j]?).map NSource.name := by
  cases r <;> simp only [Store.create_source_in, getArena] at h
  case block bi =>
    cases hx : s.blocks[bi]? with
    | none => rw [hx] at h; simp at h
    | some b =>
      rw [hx] at h
      simp only [bindE, Except.ok.injEq, Prod.mk.injEq] at h
      obtain ⟨h1, _h2⟩ := h
      subst h1
      show ((s.sources ++
        [(⟨nm, ty, none, none, []⟩ : NSource)])[j]?).map NSource.name = _
      rw [List.getElem?_append_left hj]
  case source si =>
    cases hx : s.sources[si]? with
    | none => rw [hx] at h; simp at h
    | some x =>
      rw [hx] at h
      simp only [bindE, Except.ok.injEq, Prod.mk.injEq] at h
      obtain ⟨h1, _h2⟩ := h
      subst h1
      show (((s.sources.set si
        { x with sources := x.sources ++ [s.sources.length] }) ++
        [(⟨nm, ty, none, none, []⟩ : NSource)])[j]?).map NSource.name = _
      rw [List.getElem?_append_left (by simpa using hj)]
      refine getElem?_map_set NSource.name hx ?_ j
      rfl
  all_goals simp at h

/-- Source creation grows the source arena by one. -/
theorem create_source_srclen {s : Store} {r : NixRef} {nm ty : String}
    {s1 : Store} {idx : Nat}
    (h : s.create_source_in r nm ty = .ok (s1, idx)) :
    s1.sources.length = s.sources.length + 1 :=
  (create_source_spec h).2.2.1

/-- Unit back-references keep the source arena length and every
source-name lookup. -/
theorem backrefs_sname :
    ∀ (vals : List MappedVal) (s s4 : Store) (ps us : NixRef),
    write_unit_backrefs s ps us vals = .ok s4 →
    s4.sources.length = s.sources.length ∧
    ∀ (j : Nat) (t : String), (s.sources[j]?).map NSource.name = some t →
      (s4.sources[j]?).map NSource.name = some t := by
  intro vals
  induction vals with
  | nil =>
    intro s s4 ps us h
    simp only [write_unit_backrefs] at h
    injection h with h
    subst h
    exact ⟨Eq.refl _, fun j t hn => hn⟩
  | cons v rest ih =>
    intro s s4 ps us h
    rcases v with r | rs
    · simp only [write_unit_backrefs] at h
      obtain ⟨s1, hs1, h2⟩ := bindE_ok_elim h
      clear h
      obtain ⟨s2, hs2, h3⟩ := bindE_ok_elim h2
      clear h2
      obtain ⟨ih1, ih2⟩ := ih s2 s4 ps us h3
      refine ⟨?_, ?_⟩
      · rw [ih1, sources_append_srclen hs2, sources_append_srclen hs1]
      · intro j t hn
        exact ih2 j t (sname_sources_append hs2 (sname_sources_append hs1 hn))
    · simp only [write_unit_backrefs] at h
      exact absurd h (by simp)

/-- write_unit keeps the source-arena prefix: lengths never shrink and
every source-name lookup below the old arena end is preserved. -/
theorem unit_sname {aid : Nat → Nat} {ut : NeoUnit} {pp : Path}
    {w : WState} {out : WState × NixRef}
    (h : write_unit aid ut pp w = .ok out) :
    w.store.sources.length ≤ out.1.store.sources.length ∧
    ∀ (j : Nat) (t : String), j < w.store.sources.length →
      (w.store.sources[j]?).map NSource.name = some t →
      (out.1.store.sources[j]?).map NSource.name = some t := by
  rw [write_unit] at h
  obtain ⟨ps, _hps, h1⟩ := bindE_ok_elim h
  clear h
  obtain ⟨psrc, _ho, h2⟩ := bindE_ok_elim h1
  clear h1
  obtain ⟨nm, _hnm, h3⟩ := bindE_ok_elim h2
  clear h2
  obtain ⟨p, hp, h4⟩ := bindE_ok_elim h3
  clear h3
  obtain ⟨s2, hs2, h5⟩ := bindE_ok_elim h4
  clear h4
  obtain ⟨s3, hs3, h6⟩ := bindE_ok_elim h5
  clear h5
  obtain ⟨vals, _hv, h7⟩ := bindE_ok_elim h6
  clear h6
  obtain ⟨s4, hs4, hfin⟩ := bindE_ok_elim h7
  clear h7
  injection hfin with hfin
  subst hfin
  have hl1 : p.1.sources.length = w.store.sources.length + 1 :=
    create_source_srclen hp
  have hl2 : s2.sources.length = p.1.sources.length := by
    rw [(copy_annotations_annframe hs2).2.2.2.2.1,
      (modifySrc_arenas _ _ _).2.2.2.2.2]
  have h3pair : s3.sources.length = s2.sources.length ∧
      ∀ (j : Nat) (t : String), (s2.sources[j]?).map NSource.name = some t →
        (s3.sources[j]?).map NSource.name = some t := by
    revert hs3
    split
    · intro hs3
      injection hs3 with hs3
      subst hs3
      exact ⟨Eq.refl _, fun j t hn => hn⟩
    · intro hs3
      obtain ⟨r, hr, hs3⟩ := bindE_ok_elim hs3
      injection hs3 with hs3
      subst hs3
      constructor
      · rw [create_property_sources,
          (gom_frame hr).1.2.2.2.2.1]
      · intro j t hn
        exact sname_create_property (sname_metaframe (gom_frame hr).1 hn)
  obtain ⟨hb1, hb2⟩ := backrefs_sname vals s3 s4 psrc (.source p.2) hs4
  constructor
  · show (w.store.sources.length ≤ s4.sources.length)
    rw [hb1, h3pair.1, hl2, hl1]
    omega
  · intro j t hj hn
    show ((s4.sources[j]?).map NSource.name = some t)
    refine hb2 j t (h3pair.2 j t (sname_annframe
      (copy_annotations_annframe hs2) (sname_modifySrc (fun x => Eq.refl _) ?_)))
    rw [create_source_keeps hp j hj]
    exact hn

/-- Unit lists keep the source-arena prefix. -/
theorem unit_list_sname :
    ∀ (us : List NeoUnit) (aid : Nat → Nat) (op : Path) (w : WState)
      (out : WState),
    write_unit_list aid us op w = .ok out →
    w.store.sources.length ≤ out.store.sources.length ∧
    ∀ (j : Nat) (t : String), j < w.store.sources.length →
      (w.store.sources[j]?).map NSource.name = some t →
      (out.store.sources[j]?).map NSource.name = some t := by
  intro us
  induction us with
  | nil =>
    intro aid op w out h
    simp only [write_unit_list] at h
    injection h with h
    subst h
    exact ⟨le_refl _, fun j t _ hn => hn⟩
  | cons u rest ih =>
    intro aid op w out h
    simp only [write_unit_list] at h
    obtain ⟨r, hr, h2⟩ := bindE_ok_elim h
    obtain ⟨ha1, ha2⟩ := unit_sname hr
    obtain ⟨hb1, hb2⟩ := ih aid op r.1 out h2
    refine ⟨le_trans ha1 hb1, ?_⟩
    intro j t hj hn
    exact hb2 j t (lt_of_lt_of_le hj ha1) (ha2 j t hj hn)

/-- The channel loop of write_recordingchannelgroup keeps the source-arena
prefix. -/
theorem rcg_channels_sname :
    ∀ (channels : List Int) (s : Store) (rcg : NeoRCG) (nsrc : NixRef)
      (nm : String) (defn : Option String) (op : Path) (idx : Nat)
      (out : Store),
    write_rcg_channels s rcg nsrc nm defn op idx channels = .ok out →
    s.sources.length ≤ out.sources.length ∧
    ∀ (j : Nat) (t : String), j < s.sources.length →
      (s.sources[j]?).map NSource.name = some t →
      (out.sources[j]?).map NSource.name = some t := by
  intro channels
  induction channels with
  | nil =>
    intro s rcg nsrc nm defn op idx out h
    simp only [write_rcg_channels] at h
    injection h with h
    subst h
    exact ⟨le_refl _, fun j t _ hn => hn⟩
  | cons c rest ih =>
    intro s rcg nsrc nm defn op idx out h
    simp only [write_rcg_channels] at h
    obtain ⟨cn, _hcn, h1⟩ := bindE_ok_elim h
    clear h
    obtain ⟨p, hp, h2⟩ := bindE_ok_elim h1
    clear h1
    obtain ⟨s2, hs2, h3⟩ := bindE_ok_elim h2
    clear h2
    obtain ⟨s3, hs3, h4⟩ := bindE_ok_elim h3
    clear h3
    have hl1 : p.1.sources.length = s.sources.length + 1 :=
      create_source_srclen hp
    have h2pair : s2.sources.length = p.1.sources.length ∧
        ∀ (j : Nat) (t : String), (p.1.sources[j]?).map NSource.name = some t →
          (s2.sources[j]?).map NSource.name = some t := by
      revert hs2
      split
      · intro hs2
        injection hs2 with hs2
        subst hs2
        exact ⟨(modifySrc_arenas _ _ _).2.2.2.2.2,
          fun j t hn => sname_modifySrc (fun x => Eq.refl _) hn⟩
      · intro hs2
        obtain ⟨r, hr, hs2⟩ := bindE_ok_elim hs2
        injection hs2 with hs2
        subst hs2
        constructor
        · rw [create_property_sources, (gom_frame hr).1.2.2.2.2.1,
            (modifySrc_arenas _ _ _).2.2.2.2.2]
        · intro j t hn
          exact sname_create_property (sname_metaframe (gom_frame hr).1
            (sname_modifySrc (fun x => Eq.refl _) hn))
    have h3pair : s3.sources.length = s2.sources.length ∧
        ∀ (j : Nat) (t : String), (s2.sources[j]?).map NSource.name = some t →
          (s3.sources[j]?).map NSource.name = some t := by
      revert hs3
      split
      · intro hs3
        injection hs3 with hs3
        subst hs3
        exact ⟨Eq.refl _, fun j t hn => hn⟩
      · rename_i coords heq
        split
        · intro hs3
          obtain ⟨r, hr, hs3⟩ := bindE_ok_elim hs3
          injection hs3 with hs3
          subst hs3
          constructor
          · rw [create_property_sources, create_property_sources,
              (gom_frame hr).1.2.2.2.2.1]
          · intro j t hn
            exact sname_create_property (sname_create_property
              (sname_metaframe (gom_frame hr).1 hn))
        · intro hs3
          exact absurd hs3 (by simp)
    obtain ⟨hb1, hb2⟩ := ih s3 rcg nsrc nm defn op (idx + 1) out h4
    refine ⟨?_, ?_⟩
    · refine le_trans ?_ hb1
      rw [h3pair.1, h2pair.1, hl1]
      omega
    · intro j t hj hn
      refine hb2 j t ?_ (h3pair.2 j t (h2pair.2 j t ?_))
      · rw [h3pair.1, h2pair.1, hl1]
        omega
      · rw [create_source_keeps hp j hj]
        exact hn

/-- The per-signal back-reference append keeps the source-arena length
and every source-name lookup. -/
theorem rcg_da_append_sname :
    ∀ (rs : List NixRef) (s : Store) (nsrc : NixRef) (out : Store),
    rcg_da_append s nsrc rs = .ok out →
    out.sources.length = s.sources.length ∧
    ∀ (j : Nat) (t : String), (s.sources[j]?).map NSource.name = some t →
      (out.sources[j]?).map NSource.name = some t := by
  intro rs
  induction rs with
  | nil =>
    intro s nsrc out h
    simp only [rcg_da_append] at h
    injection h with h
    subst h
    exact ⟨Eq.refl _, fun j t hn => hn⟩
  | cons r rest ih =>
    intro s nsrc out h
    simp only [rcg_da_append] at h
    obtain ⟨s1, hs1, h2⟩ := bindE_ok_elim h
    obtain ⟨ih1, ih2⟩ := ih s1 nsrc out h2
    refine ⟨by rw [ih1, sources_append_srclen hs1], ?_⟩
    intro j t hn
    exact ih2 j t (sname_sources_append hs1 hn)

/-- The signal back-reference pass keeps the source-arena length and
every source-name lookup. -/
theorem rcg_backrefs_sname :
    ∀ (vals : List MappedVal) (s : Store) (nsrc : NixRef) (out : Store),
    rcg_signal_backrefs s nsrc vals = .ok out →
    out.sources.length = s.sources.length ∧
    ∀ (j : Nat) (t : String), (s.sources[j]?).map NSource.name = some t →
      (out.sources[j]?).map NSource.name = some t := by
  intro vals
  induction vals with
  | nil =>
    intro s nsrc out h
    simp only [rcg_signal_backrefs] at h
    injection h with h
    subst h
    exact ⟨Eq.refl _, fun j t hn => hn⟩
  | cons v rest ih =>
    intro s nsrc out h
    rcases v with r | rs
    · simp only [rcg_signal_backrefs] at h
      exact absurd h (by simp)
    · simp only [rcg_signal_backrefs] at h
      obtain ⟨s1, hs1, h2⟩ := bindE_ok_elim h
      obtain ⟨ha1, ha2⟩ := rcg_da_append_sname rs s nsrc s1 hs1
      obtain ⟨ih1, ih2⟩ := ih s1 nsrc out h2
      refine ⟨by rw [ih1, ha1], ?_⟩
      intro j t hn
      exact ih2 j t (ha2 j t hn)

/-- C4 (amended): an explicit non-empty name is used verbatim.  An
anonymous SpikeTrain, AnalogSignal or IrregularlySampledSignal is named
from the root Block resolved from the head of the parent path, using the
block name and a block-level count (multi tags for spike trains, data
arrays for signals; the per-channel arrays take this base name dotted
with the channel index) — not from the structural parent segment group.
An anonymous Epoch or Event is named from the parent segment group and
its multi-tag count.  An anonymous Segment is named from its parent block
and the block group count, an anonymous RecordingChannelGroup from its
parent block and the block source count, and an anonymous Unit from its
parent channel-group source and that source's child-source count. -/
theorem claim_C4_anonymous_names :
    (∀ (aid : Nat → Nat) (sptr : NeoSpikeTrain) (pp : Path) (w w2 : WState)
      (res : NixRef) (hp : Path) (bi : Nat) (b : NBlock),
      write_spiketrain aid sptr pp w = .ok (w2, res) →
      head_path pp = .ok hp →
      _get_object_at w.store hp = .ok (some (.block bi)) →
      w.store.blocks[bi]? = some b →
      res = .multiTag w.store.multi_tags.length ∧
      (w2.store.multi_tags[w.store.multi_tags.length]?).map NMultiTag.name =
        some (if sptr.name = ""
          then b.name ++ ".SpikeTrain" ++ toString b.multi_tags.length
          else sptr.name)) ∧
    (∀ (aid : Nat → Nat) (ep : NeoEpoch) (pp : Path) (w w2 : WState)
      (res : NixRef) (gi : Nat) (g : NGroup),
      write_epoch aid ep pp w = .ok (w2, res) →
      _get_object_at w.store pp = .ok (some (.group gi)) →
      w.store.groups[gi]? = some g →
      res = .multiTag w.store.multi_tags.length ∧
      (w2.store.multi_tags[w.store.multi_tags.length]?).map NMultiTag.name =
        some (if ep.name = ""
          then g.name ++ ".Epoch" ++ toString g.multi_tags.length
          else ep.name)) ∧
    (∀ (aid : Nat → Nat) (ev : NeoEvent) (pp : Path) (w w2 : WState)
      (res : NixRef) (gi : Nat) (g : NGroup),
      write_event aid ev pp w = .ok (w2, res) →
      _get_object_at w.store pp = .ok (some (.group gi)) →
      w.store.groups[gi]? = some g →
      res = .multiTag w.store.multi_tags.length ∧
      (w2.store.multi_tags[w.store.multi_tags.length]?).map NMultiTag.name =
        some (if ev.name = ""
          then g.name ++ ".Event" ++ toString g.multi_tags.length
          else ev.name)) ∧
    (∀ (aid : Nat → Nat) (x : NeoAnalogSignal) (pp : Path) (w w2 : WState)
      (refs : List NixRef) (hp : Path) (bi : Nat) (b : NBlock),
      write_analogsignal aid x pp w = .ok (w2, refs) →
      head_path pp = .ok hp →
      _get_object_at w.store hp = .ok (some (.block bi)) →
      w.store.blocks[bi]? = some b →
      refs.length = x.signal_columns.length ∧
      ∀ k, k < x.signal_columns.length →
        ∃ d, refs[k]? = some (.dataArray d) ∧
          (w2.store.data_arrays[d]?).map NDataArray.name =
            some ((if x.name = ""
              then b.name ++ ".AnalogSignal" ++ toString b.data_arrays.length
              else x.name) ++ "." ++ toString k)) ∧
    (∀ (aid : Nat → Nat) (x : NeoIrregularlySampledSignal) (pp : Path)
      (w w2 : WState) (refs : List NixRef) (hp : Path) (bi : Nat) (b : NBlock),
      write_irregularlysampledsignal aid x pp w = .ok (w2, refs) →
      head_path pp = .ok hp →
      _get_object_at w.store hp = .ok (some (.block bi)) →
      w.store.blocks[bi]? = some b →
      refs.length = x.signal_columns.length ∧
      ∀ k, k < x.signal_columns.length →
        ∃ d, refs[k]? = some (.dataArray d) ∧
          (w2.store.data_arrays[d]?).map NDataArray.name =
            some ((if x.name = ""
              then b.name ++ ".IrregularlySampledSignal" ++
                toString b.data_arrays.length
              else x.name) ++ "." ++ toString k)) ∧
    (∀ (aid : Nat → Nat) (seg : NeoSegment) (pp : Path) (w w2 : WState)
      (res : NixRef) (bi : Nat) (b : NBlock),
      write_segment aid seg pp w = .ok (w2, res) →
      _get_object_at w.store pp = .ok (some (.block bi)) →
      w.store.blocks[bi]? = some b →
      res = .group w.store.groups.length ∧
      (w2.store.groups[w.store.groups.length]?).map NGroup.name =
        some (if seg.name = ""
          then b.name ++ ".Segment" ++ toString b.groups.length
          else seg.name)) ∧
    (∀ (aid : Nat → Nat) (rcg : NeoRCG) (pp : Path) (w w2 : WState)
      (res : NixRef) (bi : Nat) (b : NBlock),
      write_recordingchannelgroup aid rcg pp w = .ok (w2, res) →
      _get_object_at w.store pp = .ok (some (.block bi)) →
      w.store.blocks[bi]? = some b →
      res = .source w.store.sources.length ∧
      (w2.store.sources[w.store.sources.length]?).map NSource.name =
        some (if rcg.name = ""
          then b.name ++ ".RecordingChannelGroup" ++ toString b.sources.length
          else rcg.name)) ∧
    (∀ (aid : Nat → Nat) (ut : NeoUnit) (pp : Path) (w w2 : WState)
      (res : NixRef) (si : Nat) (xsrc : NSource),
      write_unit aid ut pp w = .ok (w2, res) →
      _get_object_at w.store pp = .ok (some (.source si)) →
      w.store.sources[si]? = some xsrc →
      res = .source w.store.sources.length ∧
      (w2.store.sources[w.store.sources.length]?).map NSource.name =
        some (if ut.name = ""
          then xsrc.name ++ ".Unit" ++ toString xsrc.sources.length
          else ut.name)) := by
  refine ⟨?_, ?_, ?_, ?_, ?_, ?_, ?_, ?_⟩
  · intro aid sptr pp w w2 res hp bi b hrun hhd hblk hb
    rw [write_spiketrain] at hrun
    obtain ⟨po, _hpo, hr1⟩ := bindE_ok_elim hrun
    clear hrun
    obtain ⟨parent_obj, _hobj, hr2⟩ := bindE_ok_elim hr1
    clear hr1
    obtain ⟨hp2, hhp2, hr3⟩ := bindE_ok_elim hr2
    clear hr2
    rw [hhd] at hhp2
    injection hhp2 with hhp2
    subst hhp2
    obtain ⟨pb, hpb, hr4⟩ := bindE_ok_elim hr3
    clear hr3
    rw [hblk] at hpb
    injection hpb with hpb
    subst hpb
    obtain ⟨parent_block, hpbo, hr5⟩ := bindE_ok_elim hr4
    clear hr4
    injection hpbo with hpbo
    subst hpbo
    obtain ⟨nix_name, hname, hr6⟩ := bindE_ok_elim hr5
    clear hr5
    have hnval : nix_name = if sptr.name = ""
        then b.name ++ ".SpikeTrain" ++ toString b.multi_tags.length
        else sptr.name := by
      by_cases hnm : sptr.name = ""
      · rw [if_pos hnm] at hname
        rw [if_pos hnm]
        simp only [Store.multi_tags_of, Store.nix_name_of, getArena, hb,
          bindE] at hname
        injection hname with hname
        exact hname.symm
      · rw [if_neg hnm] at hname
        rw [if_neg hnm]
        injection hname with hname
        exact hname.symm
    obtain ⟨pda, hpda, hr7⟩ := bindE_ok_elim hr6
    clear hr6
    obtain ⟨_, _, _, _, hmts1, _, _⟩ := create_data_array_spec hpda
    obtain ⟨pmt, hpmt, hr8⟩ := bindE_ok_elim hr7
    clear hr7
    obtain ⟨hidx3, hmt3, _, _, _, _, _⟩ := create_multi_tag_spec hpmt
    have hmtlen : pmt.2 = w.store.multi_tags.length := by
      rw [hidx3, modifyDA_multi_tags, hmts1]
    have hN0 : (pmt.1.multi_tags[pmt.2]?).map NMultiTag.name = some nix_name := by
      rw [hmt3, hidx3, List.getElem?_concat_length]
      rfl
    obtain ⟨s2, hs2, hr9⟩ := bindE_ok_elim hr8
    clear hr8
    have hN1 : (s2.multi_tags[pmt.2]?).map NMultiTag.name = some nix_name := by
      rcases parent_obj with _ | bi2 | gi | si | di | mi
      · injection hs2 with hs2; rw [← hs2]; exact hN0
      · injection hs2 with hs2; rw [← hs2]; exact hN0
      · obtain ⟨_, _, _, hgmt, _, _, _⟩ := group_append_multi_tag_spec hs2
        rw [hgmt]; exact hN0
      · injection hs2 with hs2
        rw [← hs2]
        exact mt_name_modifyMT_sources hN0
      · injection hs2 with hs2; rw [← hs2]; exact hN0
      · injection hs2 with hs2; rw [← hs2]; exact hN0
    obtain ⟨rmd, hrmd, hr10⟩ := bindE_ok_elim hr9
    clear hr9
    have hN2 : (rmd.1.multi_tags[pmt.2]?).map NMultiTag.name = some nix_name := by
      rw [mt_name_of_shape ((gom_frame hrmd).1.mt_shape_meta pmt.2)]
      exact mt_name_modifyMT_def hN1
    obtain ⟨s4, hs4, hr11⟩ := bindE_ok_elim hr10
    clear hr10
    have hN3 : (s4.multi_tags[pmt.2]?).map NMultiTag.name = some nix_name := by
      rw [mt_name_of_shape ((copy_annotations_annframe hs4).mt_shape_ann pmt.2)]
      exact hN2
    rcases hwf : sptr.waveforms with _ | wfs <;> rw [hwf] at hr11
    · obtain ⟨s8, hs8, hfin⟩ := bindE_ok_elim hr11
      injection hfin with hfin
      injection hfin with hw2 hres
      subst hw2
      subst hres
      injection hs8 with hs8
      have hNfin : (s8.multi_tags[pmt.2]?).map NMultiTag.name = some nix_name := by
        rw [← hs8]
        refine mt_name_create_property ?_
        split
        · split
          · exact hN3
          · exact mt_name_create_property hN3
        · refine mt_name_create_property ?_
          split
          · exact hN3
          · exact mt_name_create_property hN3
      refine ⟨by rw [hmtlen], ?_⟩
      show ((s8.multi_tags[w.store.multi_tags.length]?).map NMultiTag.name = _)
      rw [← hmtlen, hNfin, hnval]
    · obtain ⟨s8, hs8, hfin⟩ := bindE_ok_elim hr11
      injection hfin with hfin
      injection hfin with hw2 hres
      subst hw2
      subst hres
      obtain ⟨pwf, hpwf, hs8b⟩ := bindE_ok_elim hs8
      clear hs8
      obtain ⟨_, _, _, _, hwmts, _, _⟩ := create_data_array_spec hpwf
      have hQ1 : (pwf.1.multi_tags[pmt.2]?).map NMultiTag.name = some nix_name := by
        rw [hwmts]
        refine mt_name_create_property ?_
        split
        · split
          · exact hN3
          · exact mt_name_create_property hN3
        · refine mt_name_create_property ?_
          split
          · exact hN3
          · exact mt_name_create_property hN3
      obtain ⟨rwf, hrwf, hs8c⟩ := bindE_ok_elim hs8b
      clear hs8b
      have hQ2 : (rwf.1.multi_tags[pmt.2]?).map NMultiTag.name = some nix_name := by
        rw [mt_name_of_shape ((gom_frame hrwf).1.mt_shape_meta pmt.2)]
        exact mt_name_modifyDA (mt_name_modifyDA (mt_name_modifyDA
          (mt_name_modifyMT_features (mt_name_modifyDA hQ1))))
      obtain ⟨sf, hsf, hs8d⟩ := bindE_ok_elim hs8c
      clear hs8c
      have hQ3 : (sf.multi_tags[pmt.2]?).map NMultiTag.name = some nix_name := by
        rw [mt_name_of_shape ((set_metadata_metaframe hsf).1.mt_shape_meta pmt.2)]
        exact hQ2
      have hNfin : (s8.multi_tags[pmt.2]?).map NMultiTag.name = some nix_name := by
        rcases hls : sptr.left_sweep with _ | ls <;> rw [hls] at hs8d
        · injection hs8d with hs8d
          rw [← hs8d]
          exact hQ3
        · split at hs8d
          · split at hs8d <;> injection hs8d with hs8d <;> rw [← hs8d] <;>
              (try rw [create_property_multi_tags]) <;> exact hQ3
          · injection hs8d with hs8d
            rw [← hs8d]
            exact hQ3
      refine ⟨by rw [hmtlen], ?_⟩
      show ((s8.multi_tags[w.store.multi_tags.length]?).map NMultiTag.name = _)
      rw [← hmtlen, hNfin, hnval]
  · intro aid ep pp w w2 res gi g hrun hpath hg
    rw [write_epoch] at hrun
    obtain ⟨po, hpo, hr1⟩ := bindE_ok_elim hrun
    clear hrun
    rw [hpath] at hpo
    injection hpo with hpo
    subst hpo
    obtain ⟨parent_group, hobj, hr2⟩ := bindE_ok_elim hr1
    clear hr1
    injection hobj with hobj
    subst hobj
    obtain ⟨hp2, _hhp, hr3⟩ := bindE_ok_elim hr2
    clear hr2
    obtain ⟨pb, _hpb, hr4⟩ := bindE_ok_elim hr3
    clear hr3
    obtain ⟨parent_block, _hpbo, hr5⟩ := bindE_ok_elim hr4
    clear hr4
    obtain ⟨nix_name, hname, hr6⟩ := bindE_ok_elim hr5
    clear hr5
    have hnval : nix_name = if ep.name = ""
        then g.name ++ ".Epoch" ++ toString g.multi_tags.length
        else ep.name := by
      by_cases hnm : ep.name = ""
      · rw [if_pos hnm] at hname
        rw [if_pos hnm]
        simp only [Store.multi_tags_of, Store.nix_name_of, getArena, hg,
          bindE] at hname
        injection hname with hname
        exact hname.symm
      · rw [if_neg hnm] at hname
        rw [if_neg hnm]
        injection hname with hname
        exact hname.symm
    obtain ⟨ptd, hptd, hr7⟩ := bindE_ok_elim hr6
    clear hr6
    obtain ⟨_, _, _, _, hmts1, _, _⟩ := create_data_array_spec hptd
    obtain ⟨pdd, hpdd, hr8⟩ := bindE_ok_elim hr7
    clear hr7
    obtain ⟨_, _, _, _, hmts2, _, _⟩ := create_data_array_spec hpdd
    obtain ⟨pmt, hpmt, hr9⟩ := bindE_ok_elim hr8
    clear hr8
    obtain ⟨hidx3, hmt3, _, _, _, _, _⟩ := create_multi_tag_spec hpmt
    have hmtlen : pmt.2 = w.store.multi_tags.length := by
      rw [hidx3, modifyDA_multi_tags, hmts2, modifyDA_multi_tags, hmts1]
    have hN0 : (pmt.1.multi_tags[pmt.2]?).map NMultiTag.name = some nix_name := by
      rw [hmt3, hidx3, List.getElem?_concat_length]
      rfl
    obtain ⟨s5, hs5, hr10⟩ := bindE_ok_elim hr9
    clear hr9
    obtain ⟨_, _, _, hgmt, _, _, _⟩ := group_append_multi_tag_spec hs5
    have hN1 : (s5.multi_tags[pmt.2]?).map NMultiTag.name = some nix_name := by
      rw [hgmt]
      exact mt_name_modifyMT_extents (mt_name_modifyDA hN0)
    obtain ⟨s7, hs7, hr11⟩ := bindE_ok_elim hr10
    clear hr10
    have hN2 : (s7.multi_tags[pmt.2]?).map NMultiTag.name = some nix_name := by
      revert hs7
      split
      · intro hs7
        injection hs7 with hs7
        rw [← hs7]
        exact mt_name_modifyMT_def hN1
      · intro hs7
        obtain ⟨rr, hrr, hs7⟩ := bindE_ok_elim hs7
        injection hs7 with hs7
        rw [← hs7, create_property_multi_tags,
          mt_name_of_shape ((gom_frame hrr).1.mt_shape_meta pmt.2)]
        exact mt_name_modifyMT_def hN1
    obtain ⟨s8, hs8, hr12⟩ := bindE_ok_elim hr11
    clear hr11
    have hN3 : (s8.multi_tags[pmt.2]?).map NMultiTag.name = some nix_name := by
      rw [mt_name_of_shape ((copy_annotations_annframe hs8).mt_shape_ann pmt.2)]
      exact hN2
    obtain ⟨contained, _hcont, hfin⟩ := bindE_ok_elim hr12
    clear hr12
    injection hfin with hfin
    injection hfin with hw2 hres
    subst hw2
    subst hres
    refine ⟨by rw [hmtlen], ?_⟩
    show (((s8.modifyMT pmt.2
      (fun m => { m with references := m.references ++ contained })).multi_tags[w.store.multi_tags.length]?).map
        NMultiTag.name = _)
    rw [← hmtlen, mt_name_modifyMT_refs hN3, hnval]
  · intro aid ev pp w w2 res gi g hrun hpath hg
    rw [write_event] at hrun
    obtain ⟨po, hpo, hr1⟩ := bindE_ok_elim hrun
    clear hrun
    rw [hpath] at hpo
    injection hpo with hpo
    subst hpo
    obtain ⟨parent_group, hobj, hr2⟩ := bindE_ok_elim hr1
    clear hr1
    injection hobj with hobj
    subst hobj
    obtain ⟨hp2, _hhp, hr3⟩ := bindE_ok_elim hr2
    clear hr2
    obtain ⟨pb, _hpb, hr4⟩ := bindE_ok_elim hr3
    clear hr3
    obtain ⟨parent_block, _hpbo, hr5⟩ := bindE_ok_elim hr4
    clear hr4
    obtain ⟨nix_name, hname, hr6⟩ := bindE_ok_elim hr5
    clear hr5
    have hnval : nix_name = if ev.name = ""
        then g.name ++ ".Event" ++ toString g.multi_tags.length
        else ev.name := by
      by_cases hnm : ev.name = ""
      · rw [if_pos hnm] at hname
        rw [if_pos hnm]
        simp only [Store.multi_tags_of, Store.nix_name_of, getArena, hg,
          bindE] at hname
        injection hname with hname
        exact hname.symm
      · rw [if_neg hnm] at hname
        rw [if_neg hnm]
        injection hname with hname
        exact hname.symm
    obtain ⟨ptd, hptd, hr7⟩ := bindE_ok_elim hr6
    clear hr6
    obtain ⟨_, _, _, _, hmts1, _, _⟩ := create_data_array_spec hptd
    obtain ⟨pmt, hpmt, hr8⟩ := bindE_ok_elim hr7
    clear hr7
    obtain ⟨hidx3, hmt3, _, _, _, _, _⟩ := create_multi_tag_spec hpmt
    have hmtlen : pmt.2 = w.store.multi_tags.length := by
      rw [hidx3, modifyDA_multi_tags, hmts1]
    have hN0 : (pmt.1.multi_tags[pmt.2]?).map NMultiTag.name = some nix_name := by
      rw [hmt3, hidx3, List.getElem?_concat_length]
      rfl
    obtain ⟨s3, hs3, hr9⟩ := bindE_ok_elim hr8
    clear hr8
    obtain ⟨_, _, _, hgmt, _, _, _⟩ := group_append_multi_tag_spec hs3
    have hN1 : (s3.multi_tags[pmt.2]?).map NMultiTag.name = some nix_name := by
      rw [hgmt]
      exact mt_name_modifyDA hN0
    obtain ⟨s5, hs5, hr10⟩ := bindE_ok_elim hr9
    clear hr9
    have hN2 : (s5.multi_tags[pmt.2]?).map NMultiTag.name = some nix_name := by
      revert hs5
      split
      · intro hs5
        injection hs5 with hs5
        rw [← hs5]
        exact mt_name_modifyMT_def hN1
      · intro hs5
        obtain ⟨rr, hrr, hs5⟩ := bindE_ok_elim hs5
        injection hs5 with hs5
        rw [← hs5, create_property_multi_tags,
          mt_name_of_shape ((gom_frame hrr).1.mt_shape_meta pmt.2)]
        exact mt_name_modifyMT_def hN1
    obtain ⟨s6, hs6, hr11⟩ := bindE_ok_elim hr10
    clear hr10
    have hN3 : (s6.multi_tags[pmt.2]?).map NMultiTag.name = some nix_name := by
      rw [mt_name_of_shape ((copy_annotations_annframe hs6).mt_shape_ann pmt.2)]
      exact hN2
    obtain ⟨contained, _hcont, hfin⟩ := bindE_ok_elim hr11
    clear hr11
    injection hfin with hfin
    injection hfin with hw2 hres
    subst hw2
    subst hres
    refine ⟨by rw [hmtlen], ?_⟩
    show (((s6.modifyMT pmt.2
      (fun m => { m with references := m.references ++ contained })).multi_tags[w.store.multi_tags.length]?).map
        NMultiTag.name = _)
    rw [← hmtlen, mt_name_modifyMT_refs hN3, hnval]
  · intro aid x pp w w2 refs hp bi b hrun hhd hblk hb
    rw [write_analogsignal] at hrun
    obtain ⟨pg, _hpg, hr1⟩ := bindE_ok_elim hrun
    clear hrun
    obtain ⟨parent_group, _hpgo, hr2⟩ := bindE_ok_elim hr1
    clear hr1
    obtain ⟨hp2, hhp2, hr3⟩ := bindE_ok_elim hr2
    clear hr2
    rw [hhd] at hhp2
    injection hhp2 with hhp2
    subst hhp2
    obtain ⟨pb, hpb, hr4⟩ := bindE_ok_elim hr3
    clear hr3
    rw [hblk] at hpb
    injection hpb with hpb
    subst hpb
    obtain ⟨parent_block, hpbo, hr5⟩ := bindE_ok_elim hr4
    clear hr4
    injection hpbo with hpbo
    subst hpbo
    obtain ⟨nix_name, hname, hr6⟩ := bindE_ok_elim hr5
    clear hr5
    have hnval : nix_name = if x.name = ""
        then b.name ++ ".AnalogSignal" ++ toString b.data_arrays.length
        else x.name := by
      by_cases hnm : x.name = ""
      · rw [if_pos hnm] at hname
        rw [if_pos hnm]
        simp only [Store.data_arrays_of, Store.nix_name_of, getArena, hb,
          bindE] at hname
        injection hname with hname
        exact hname.symm
      · rw [if_neg hnm] at hname
        rw [if_neg hnm]
        injection hname with hname
        exact hname.symm
    obtain ⟨pm, hpm, hr7⟩ := bindE_ok_elim hr6
    clear hr6
    obtain ⟨res, hloop, hr8⟩ := bindE_ok_elim hr7
    clear hr7
    injection hr8 with hr8
    injection hr8 with hw2 hrefs
    subst hw2
    subst hrefs
    obtain ⟨l2, _l1, _lsec, _lacc, _lpres, lnew⟩ :=
      analogsignal_loop_arrays x.signal_columns _ _ parent_group
        nix_name _ _ _ _ _ _ _ 0 [] res hloop
    refine ⟨by simpa using l2, ?_⟩
    intro k hk
    obtain ⟨d, hd1, hd2⟩ := lnew k hk
    rw [show ([] : List NixRef).length + k = k from by simp] at hd1
    rw [show 0 + k = k from Nat.zero_add k] at hd2
    refine ⟨d, hd1, ?_⟩
    show ((res.1.data_arrays[d]?).map NDataArray.name = _)
    rw [da_name_of_meta hd2, hnval]
  · intro aid x pp w w2 refs hp bi b hrun hhd hblk hb
    rw [write_irregularlysampledsignal] at hrun
    obtain ⟨pg, _hpg, hr1⟩ := bindE_ok_elim hrun
    clear hrun
    obtain ⟨parent_group, _hpgo, hr2⟩ := bindE_ok_elim hr1
    clear hr1
    obtain ⟨hp2, hhp2, hr3⟩ := bindE_ok_elim hr2
    clear hr2
    rw [hhd] at hhp2
    injection hhp2 with hhp2
    subst hhp2
    obtain ⟨pb, hpb, hr4⟩ := bindE_ok_elim hr3
    clear hr3
    rw [hblk] at hpb
    injection hpb with hpb
    subst hpb
    obtain ⟨parent_block, hpbo, hr5⟩ := bindE_ok_elim hr4
    clear hr4
    injection hpbo with hpbo
    subst hpbo
    obtain ⟨nix_name, hname, hr6⟩ := bindE_ok_elim hr5
    clear hr5
    have hnval : nix_name = if x.name = ""
        then b.name ++ ".IrregularlySampledSignal" ++
          toString b.data_arrays.length
        else x.name := by
      by_cases hnm : x.name = ""
      · rw [if_pos hnm] at hname
        rw [if_pos hnm]
        simp only [Store.data_arrays_of, Store.nix_name_of, getArena, hb,
          bindE] at hname
        injection hname with hname
        exact hname.symm
      · rw [if_neg hnm] at hname
        rw [if_neg hnm]
        injection hname with hname
        exact hname.symm
    obtain ⟨pm, hpm, hr7⟩ := bindE_ok_elim hr6
    clear hr6
    obtain ⟨res, hloop, hr8⟩ := bindE_ok_elim hr7
    clear hr7
    injection hr8 with hr8
    injection hr8 with hw2 hrefs
    subst hw2
    subst hrefs
    obtain ⟨l2, _l1, _lsec, _lacc, _lpres, lnew⟩ :=
      irregularsignal_loop_arrays x.signal_columns _ _ parent_group
        nix_name _ _ _ _ _ _ 0 [] res hloop
    refine ⟨by simpa using l2, ?_⟩
    intro k hk
    obtain ⟨d, hd1, hd2⟩ := lnew k hk
    rw [show ([] : List NixRef).length + k = k from by simp] at hd1
    rw [show 0 + k = k from Nat.zero_add k] at hd2
    refine ⟨d, hd1, ?_⟩
    show ((res.1.data_arrays[d]?).map NDataArray.name = _)
    rw [da_name_of_meta hd2, hnval]
  · intro aid seg pp w w2 res bi b hrun hblk hb
    rw [write_segment] at hrun
    obtain ⟨pb, hpb, hr1⟩ := bindE_ok_elim hrun
    clear hrun
    rw [hblk] at hpb
    injection hpb with hpb
    subst hpb
    obtain ⟨parent_block, hpbo, hr2⟩ := bindE_ok_elim hr1
    clear hr1
    injection hpbo with hpbo
    subst hpbo
    obtain ⟨nix_name, hname, hr3⟩ := bindE_ok_elim hr2
    clear hr2
    have hnval : nix_name = if seg.name = ""
        then b.name ++ ".Segment" ++ toString b.groups.length
        else seg.name := by
      by_cases hnm : seg.name = ""
      · rw [if_pos hnm] at hname
        rw [if_pos hnm]
        simp only [Store.groups_of, Store.nix_name_of, getArena, hb,
          bindE] at hname
        injection hname with hname
        exact hname.symm
      · rw [if_neg hnm] at hname
        rw [if_neg hnm]
        injection hname with hname
        exact hname.symm
    obtain ⟨p, hp, hr4⟩ := bindE_ok_elim hr3
    clear hr3
    obtain ⟨hidx, hgrps, _, _, _, _, _⟩ := create_group_spec hp
    have hG0 : (p.1.groups[p.2]?).map NGroup.name = some nix_name := by
      rw [hgrps, hidx, List.getElem?_concat_length]
      rfl
    have hgdef : ((p.1.modifyGroup p.2 fun gg =>
        { gg with definition := seg.description }).groups[p.2]?).map
          NGroup.name = some nix_name :=
      gname_modifyGroup (fun x => Eq.refl _) hG0
    obtain ⟨s3, hs3, hr5⟩ := bindE_ok_elim hr4
    clear hr4
    have hG3 : (s3.groups[p.2]?).map NGroup.name = some nix_name := by
      revert hs3
      split
      · intro hs3
        obtain ⟨r, hr, hs3⟩ := bindE_ok_elim hs3
        injection hs3 with hs3
        rw [← hs3]
        refine gname_create_property (gname_metaframe (gom_frame hr).1 ?_)
        rcases seg.rec_datetime with _ | dt
        · exact hgdef
        · exact gname_modifyGroup (fun x => Eq.refl _) hgdef
      · intro hs3
        injection hs3 with hs3
        rw [← hs3]
        rcases seg.rec_datetime with _ | dt
        · exact hgdef
        · exact gname_modifyGroup (fun x => Eq.refl _) hgdef
    obtain ⟨s4, hs4, hr6⟩ := bindE_ok_elim hr5
    clear hr5
    have hG4 : (s4.groups[p.2]?).map NGroup.name = some nix_name := by
      revert hs4
      split
      · intro hs4
        injection hs4 with hs4
        rw [← hs4]
        exact hG3
      · intro hs4
        obtain ⟨r, hr, hs4⟩ := bindE_ok_elim hs4
        injection hs4 with hs4
        rw [← hs4]
        exact gname_create_property (gname_metaframe (gom_frame hr).1 hG3)
    obtain ⟨s5, hs5, hr7⟩ := bindE_ok_elim hr6
    clear hr6
    have hG5 : (s5.groups[p.2]?).map NGroup.name = some nix_name :=
      gname_annframe (copy_annotations_annframe hs5) hG4
    obtain ⟨w1, hw1, hr8⟩ := bindE_ok_elim hr7
    clear hr7
    have hG6 : (w1.store.groups[p.2]?).map NGroup.name = some nix_name :=
      ana_list_gname seg.analogsignals aid _ _ w1 p.2 nix_name hw1 hG5
    obtain ⟨w2m, hw2m, hr9⟩ := bindE_ok_elim hr8
    clear hr8
    have hG7 : (w2m.store.groups[p.2]?).map NGroup.name = some nix_name :=
      irr_list_gname seg.irregularlysampledsignals aid _ _ w2m p.2 nix_name
        hw2m hG6
    obtain ⟨w3m, hw3m, hr10⟩ := bindE_ok_elim hr9
    clear hr9
    have hG8 : (w3m.store.groups[p.2]?).map NGroup.name = some nix_name :=
      epoch_list_gname seg.epochs aid _ _ w3m p.2 nix_name hw3m hG7
    obtain ⟨w4m, hw4m, hr11⟩ := bindE_ok_elim hr10
    clear hr10
    have hG9 : (w4m.store.groups[p.2]?).map NGroup.name = some nix_name :=
      event_list_gname seg.events aid _ _ w4m p.2 nix_name hw4m hG8
    obtain ⟨w5m, hw5m, hfin⟩ := bindE_ok_elim hr11
    clear hr11
    have hG10 : (w5m.store.groups[p.2]?).map NGroup.name = some nix_name :=
      sptr_list_gname seg.spiketrains aid _ _ w5m p.2 nix_name hw5m hG9
    injection hfin with hfin
    injection hfin with hw2e hrese
    subst hw2e
    subst hrese
    refine ⟨by rw [hidx], ?_⟩
    show ((w5m.store.groups[w.store.groups.length]?).map NGroup.name = _)
    rw [← hidx, hG10, hnval]
  · intro aid rcg pp w w2 res bi b hrun hblk hb
    rw [write_recordingchannelgroup] at hrun
    obtain ⟨pb, hpb, hr1⟩ := bindE_ok_elim hrun
    clear hrun
    rw [hblk] at hpb
    injection hpb with hpb
    subst hpb
    obtain ⟨parent_block, hpbo, hr2⟩ := bindE_ok_elim hr1
    clear hr1
    injection hpbo with hpbo
    subst hpbo
    obtain ⟨nix_name, hname, hr3⟩ := bindE_ok_elim hr2
    clear hr2
    have hnval : nix_name = if rcg.name = ""
        then b.name ++ ".RecordingChannelGroup" ++ toString b.sources.length
        else rcg.name := by
      by_cases hnm : rcg.name = ""
      · rw [if_pos hnm] at hname
        rw [if_pos hnm]
        simp only [Store.sources_of, Store.nix_name_of, getArena, hb,
          bindE] at hname
        injection hname with hname
        exact hname.symm
      · rw [if_neg hnm] at hname
        rw [if_neg hnm]
        injection hname with hname
        exact hname.symm
    obtain ⟨p, hp, hr4⟩ := bindE_ok_elim hr3
    clear hr3
    have hidx : p.2 = w.store.sources.length := (create_source_spec hp).1
    have hS0 : (p.1.sources[p.2]?).map NSource.name = some nix_name := by
      rw [(create_source_spec hp).2.1]
      rfl
    have hlen0 : p.2 < p.1.sources.length := by
      rw [create_source_srclen hp, hidx]
      omega
    obtain ⟨s2, hs2, hr5⟩ := bindE_ok_elim hr4
    clear hr4
    have h2pair : (s2.sources[p.2]?).map NSource.name = some nix_name ∧
        p.2 < s2.sources.length := by
      revert hs2
      split
      · intro hs2
        injection hs2 with hs2
        subst hs2
        refine ⟨sname_modifySrc (fun x => Eq.refl _) hS0, ?_⟩
        rw [(modifySrc_arenas _ _ _).2.2.2.2.2]
        exact hlen0
      · intro hs2
        obtain ⟨r, hr, hs2⟩ := bindE_ok_elim hs2
        injection hs2 with hs2
        subst hs2
        refine ⟨sname_create_property (sname_metaframe (gom_frame hr).1
          (sname_modifySrc (fun x => Eq.refl _) hS0)), ?_⟩
        rw [create_property_sources, (gom_frame hr).1.2.2.2.2.1,
          (modifySrc_arenas _ _ _).2.2.2.2.2]
        exact hlen0
    obtain ⟨s3, hs3, hr6⟩ := bindE_ok_elim hr5
    clear hr5
    have h3pair : (s3.sources[p.2]?).map NSource.name = some nix_name ∧
        p.2 < s3.sources.length := by
      refine ⟨sname_annframe (copy_annotations_annframe hs3) h2pair.1, ?_⟩
      rw [(copy_annotations_annframe hs3).2.2.2.2.1]
      exact h2pair.2
    obtain ⟨s4, hs4, hr7⟩ := bindE_ok_elim hr6
    clear hr6
    obtain ⟨hc1, hc2⟩ := rcg_channels_sname rcg.channel_indexes s3 rcg
      (.source p.2) nix_name _ _ 0 s4 hs4
    have h4pair : (s4.sources[p.2]?).map NSource.name = some nix_name ∧
        p.2 < s4.sources.length :=
      ⟨hc2 p.2 nix_name h3pair.2 h3pair.1, lt_of_lt_of_le h3pair.2 hc1⟩
    obtain ⟨w2u, hw2u, hr8⟩ := bindE_ok_elim hr7
    clear hr7
    obtain ⟨hu1, hu2⟩ := unit_list_sname rcg.units aid _ _ w2u hw2u
    have h5pair : (w2u.store.sources[p.2]?).map NSource.name = some nix_name ∧
        p.2 < w2u.store.sources.length :=
      ⟨hu2 p.2 nix_name h4pair.2 h4pair.1, lt_of_lt_of_le h4pair.2 hu1⟩
    obtain ⟨avals, _hav, hr9⟩ := bindE_ok_elim hr8
    clear hr8
    obtain ⟨s5b, hs5b, hr10⟩ := bindE_ok_elim hr9
    clear hr9
    obtain ⟨_hx1, hx2⟩ := rcg_backrefs_sname avals w2u.store (.source p.2)
      s5b hs5b
    obtain ⟨ivals, _hiv, hr11⟩ := bindE_ok_elim hr10
    clear hr10
    obtain ⟨s6b, hs6b, hfin⟩ := bindE_ok_elim hr11
    clear hr11
    obtain ⟨_hy1, hy2⟩ := rcg_backrefs_sname ivals s5b (.source p.2) s6b hs6b
    injection hfin with hfin
    injection hfin with hw2e hrese
    subst hw2e
    subst hrese
    refine ⟨by rw [hidx], ?_⟩
    show ((s6b.sources[w.store.sources.length]?).map NSource.name = _)
    rw [← hidx, hy2 p.2 nix_name (hx2 p.2 nix_name h5pair.1), hnval]
  · intro aid ut pp w w2 res si xsrc hrun hpath hx
    rw [write_unit] at hrun
    obtain ⟨ps, hps, hr1⟩ := bindE_ok_elim hrun
    clear hrun
    rw [hpath] at hps
    injection hps with hps
    subst hps
    obtain ⟨parent_source, hpso, hr2⟩ := bindE_ok_elim hr1
    clear hr1
    injection hpso with hpso
    subst hpso
    obtain ⟨nix_name, hname, hr3⟩ := bindE_ok_elim hr2
    clear hr2
    have hnval : nix_name = if ut.name = ""
        then xsrc.name ++ ".Unit" ++ toString xsrc.sources.length
        else ut.name := by
      by_cases hnm : ut.name = ""
      · rw [if_pos hnm] at hname
        rw [if_pos hnm]
        simp only [Store.sources_of, Store.nix_name_of, getArena, hx,
          bindE] at hname
        injection hname with hname
        exact hname.symm
      · rw [if_neg hnm] at hname
        rw [if_neg hnm]
        injection hname with hname
        exact hname.symm
    obtain ⟨p, hp, hr4⟩ := bindE_ok_elim hr3
    clear hr3
    have hidx : p.2 = w.store.sources.length := (create_source_spec hp).1
    have hS0 : (p.1.sources[p.2]?).map NSource.name = some nix_name := by
      rw [(create_source_spec hp).2.1]
      rfl
    obtain ⟨s2, hs2, hr5⟩ := bindE_ok_elim hr4
    clear hr4
    have hS2 : (s2.sources[p.2]?).map NSource.name = some nix_name :=
      sname_annframe (copy_annotations_annframe hs2)
        (sname_modifySrc (fun x => Eq.refl _) hS0)
    obtain ⟨s3, hs3, hr6⟩ := bindE_ok_elim hr5
    clear hr5
    have hS3 : (s3.sources[p.2]?).map NSource.name = some nix_name := by
      revert hs3
      split
      · intro hs3
        injection hs3 with hs3
        subst hs3
        exact hS2
      · intro hs3
        obtain ⟨r, hr, hs3⟩ := bindE_ok_elim hs3
        injection hs3 with hs3
        subst hs3
        exact sname_create_property (sname_metaframe (gom_frame hr).1 hS2)
    obtain ⟨vals, _hv, hr7⟩ := bindE_ok_elim hr6
    clear hr6
    obtain ⟨s4, hs4, hfin⟩ := bindE_ok_elim hr7
    clear hr7
    injection hfin with hfin
    injection hfin with hw2e hrese
    subst hw2e
    subst hrese
    refine ⟨by rw [hidx], ?_⟩
    show ((s4.sources[w.store.sources.length]?).map NSource.name = _)
    rw [← hidx, (backrefs_sname vals s3 s4 (.source si)
      (.source p.2) hs4).2 p.2 nix_name hS3, hnval]

/-- Unit of seconds for the C4 runs. -/
def c4U : UnitQ := ⟨"s", 1, "s", 1⟩

/-- Anonymous spike train for the C4 runs. -/
def c4Train : NeoSpikeTrain :=
  ⟨21, "", none, "", [], [1], c4U, ⟨1, c4U⟩, ⟨2, c4U⟩, ⟨1, c4U⟩, none, none⟩

/-- Store for the C4 runs: exactly the state reached when a block mapping
has already written one multi tag (an epoch of a first segment) into the
block and descends into a second, still empty segment group.  The block
owns one multi tag while the segment group owns none. -/
def c4Store : Store :=
  ⟨[⟨"blk", "neo.block", none, none, [0], [], [0], [0], none⟩],
   [⟨"seg", "neo.segment", none, none, [], [], none⟩],
   [],
   [⟨"x.times", "neo.epoch.times", .one [], "", none, [], none, []⟩],
   [⟨"x", "neo.epoch", 0, none, none, none, [], [], []⟩],
   []⟩

set_option maxHeartbeats 1000000 in
/-- Counterexample to C4 as stated: the anonymous spike train written into
the segment group seg of block blk is named blk.SpikeTrain1 from the root
block name and the block-level multi-tag count, not seg.SpikeTrain0 from
its structural parent group and that group sibling count as the claim
predicts. -/
theorem claim_C4_counterexample :
    (write_spiketrain (fun t => t) c4Train [("block", "blk"), ("group", "seg")]
        ⟨c4Store, []⟩).map
      (fun pr => (pr.1.store.multi_tags[1]?).map NMultiTag.name) =
      .ok (some ("blk.SpikeTrain1")) ∧
    (write_spiketrain (fun t => t) c4Train [("block", "blk"), ("group", "seg")]
        ⟨c4Store, []⟩).map
      (fun pr => (pr.1.store.multi_tags.map NMultiTag.name).contains
        ("seg.SpikeTrain0")) = .ok false :=
  ⟨by decide, by decide⟩

/-- Witness for the amended C4: the concrete anonymous spike train is
named from the block name and the block multi-tag count. -/
theorem claim_C4_witness :
    ∃ pr : WState × NixRef,
      write_spiketrain (fun t => t) c4Train [("block", "blk"), ("group", "seg")]
        ⟨c4Store, []⟩ = .ok pr ∧
      pr.2 = .multiTag c4Store.multi_tags.length ∧
      (pr.1.store.multi_tags[c4Store.multi_tags.length]?).map NMultiTag.name =
        some (if c4Train.name = ""
          then (⟨"blk", "neo.block", none, none, [0], [], [0], [0],
            none⟩ : NBlock).name ++ ".SpikeTrain" ++
            toString (⟨"blk", "neo.block", none, none, [0], [], [0], [0],
              none⟩ : NBlock).multi_tags.length
          else c4Train.name) := by
  have hok : (write_spiketrain (fun t => t) c4Train
      [("block", "blk"), ("group", "seg")] ⟨c4Store, []⟩).isOk = true := by decide
  match hrun : write_spiketrain (fun t => t) c4Train
      [("block", "blk"), ("group", "seg")] ⟨c4Store, []⟩ with
  | .error e => rw [hrun] at hok; simp [Except.isOk, Except.toBool] at hok
  | .ok pr =>
    exact ⟨pr, rfl, claim_C4_anonymous_names.1 (fun t => t) c4Train
      [("block", "blk"), ("group", "seg")] ⟨c4Store, []⟩ pr.1 pr.2
      [("block", "blk")] 0
      ⟨"blk", "neo.block", none, none, [0], [], [0], [0], none⟩
      hrun (by decide) (by decide) (by decide)⟩

/- ================================================================== -/
/- C7.  Storage of t_start and t_stop on spike-train metadata. -/

/-- Point updates that keep the metadata pointer keep every projected
metadata lookup. -/
theorem modifyMT_map_meta (s : Store) (i : Nat) (f : NMultiTag → NMultiTag)
    (hf : ∀ x, (f x).metadata = x.metadata) (j : Nat) :
    ((s.modifyMT i f).multi_tags[j]?).map NMultiTag.metadata =
      (s.multi_tags[j]?).map NMultiTag.metadata := by
  rw [Store.modifyMT]
  cases hx : s.multi_tags[i]? with
  | none => rfl
  | some x => exact getElem?_map_set NMultiTag.metadata hx (hf x) j

/-- Appending sources to a multi tag keeps every metadata lookup. -/
theorem mt_meta_modifyMT_sources {s : Store} {i : Nat} {ss : List Nat}
    {j : Nat} {t : Option Nat}
    (h : (s.multi_tags[j]?).map NMultiTag.metadata = some t) :
    (((s.modifyMT i fun m => { m with sources := m.sources ++ ss }).multi_tags[j]?).map
      NMultiTag.metadata) = some t := by
  rw [modifyMT_map_meta s i (fun m => { m with sources := m.sources ++ ss })
    (fun x => Eq.refl _) j]
  exact h

/-- Setting the definition of a multi tag keeps every metadata lookup. -/
theorem mt_meta_modifyMT_def {s : Store} {i : Nat} {d : Option String}
    {j : Nat} {t : Option Nat}
    (h : (s.multi_tags[j]?).map NMultiTag.metadata = some t) :
    (((s.modifyMT i fun m => { m with definition := d }).multi_tags[j]?).map
      NMultiTag.metadata) = some t := by
  rw [modifyMT_map_meta s i (fun m => { m with definition := d })
    (fun x => Eq.refl _) j]
  exact h

/-- A multi tag with no metadata pointer reads back none. -/
theorem metadata_of_mt_none {s : Store} {i : Nat}
    (h : (s.multi_tags[i]?).map NMultiTag.metadata = some none) :
    s.metadata_of (.multiTag i) = .ok none := by
  cases hx : s.multi_tags[i]? with
  | none => rw [hx] at h; simp at h
  | some m =>
    rw [hx] at h
    injection h with h
    simp [Store.metadata_of, getArena, hx, h]

/-- A readable metadata pointer comes from the stored multi tag. -/
theorem mt_meta_of_metadata_of {s : Store} {i : Nat} {m : Nat}
    (h : s.metadata_of (.multiTag i) = .ok (some m)) :
    (s.multi_tags[i]?).map NMultiTag.metadata = some (some m) := by
  cases hx : s.multi_tags[i]? with
  | none => simp [Store.metadata_of, getArena, hx] at h
  | some x =>
    simp only [Store.metadata_of, getArena, hx, bindE] at h
    injection h with h
    simp [h]

/-- A metadata node created by the mirror starts with no properties and is
attached to its object. -/
theorem gom_created_spec :
    ∀ (p : Path) (s : Store) (r : NixRef) (s2 : Store) (sec : Nat),
    s.metadata_of r = .ok none →
    _get_or_init_metadata s r p = .ok (s2, sec) →
    (s2.sections[sec]?).map NSection.props = some [] ∧
    s2.metadata_of r = .ok (some sec) := by
  intro p s r s2 sec hmd h
  obtain ⟨rec, hrec⟩ := go_exists_body p.length
  rw [_get_or_init_metadata, hrec] at h
  rw [_get_or_init_metadata_body, hmd] at h
  simp only [bindE_ok] at h
  split at h
  · obtain ⟨nm, _hnm, h⟩ := bindE_ok_elim h
    obtain ⟨ty, _hty, h⟩ := bindE_ok_elim h
    obtain ⟨s3, hset, h⟩ := bindE_ok_elim h
    injection h with h
    injection h with h1 h2
    subst h1
    subst h2
    refine ⟨?_, metadata_of_set_metadata hset⟩
    rw [set_metadata_sections hset, create_section_get]
    rfl
  · obtain ⟨pobj?, _hpobj, h⟩ := bindE_ok_elim h
    match pobj? with
    | none => simp at h
    | some pobj =>
      obtain ⟨rr, _hrec2, h⟩ := bindE_ok_elim h
      obtain ⟨nm, _hnm, h⟩ := bindE_ok_elim h
      obtain ⟨ty, _hty, h⟩ := bindE_ok_elim h
      obtain ⟨s3, hset, h⟩ := bindE_ok_elim h
      injection h with h
      injection h with h1 h2
      subst h1
      subst h2
      refine ⟨?_, metadata_of_set_metadata hset⟩
      rw [set_metadata_sections hset, create_section_get]
      rfl

/-- Annotation writing never touches the multi tags. -/
theorem add_annotations_multi_tags (ann : List (String × PyVal)) :
    ∀ s md, (_add_annotations s ann md).multi_tags = s.multi_tags := by
  induction ann with
  | nil => intro s md; rw [_add_annotations]
  | cons kv rest ih =>
    intro s md
    rw [_add_annotations, ih, create_property_multi_tags]

/-- Property creation appends the entry to the target property list. -/
theorem props_create_property {s : Store} {sec : Nat} {k : String}
    {v : PropVal} {ps : List (String × PropVal)}
    (h : (s.sections[sec]?).map NSection.props = some ps) :
    ((s.create_property sec k v).sections[sec]?).map NSection.props =
      some (ps ++ [(k, v)]) := by
  cases hx : s.sections[sec]? with
  | none => rw [hx] at h; simp at h
  | some x =>
    rw [create_property_target s sec k v x hx]
    rw [hx] at h
    injection h with h
    simp [h]

/-- Property creation keeps every multi-tag lookup. -/
theorem mtlookup_create_property (s : Store) (sec : Nat) (k : String)
    (v : PropVal) (j : Nat) :
    (s.create_property sec k v).multi_tags[j]? = s.multi_tags[j]? := by
  rw [create_property_multi_tags]

/-- Arena reads succeed exactly on present entries. -/
theorem getArena_ok_elim {α : Type} {xs : List α} {i : Nat} {x : α}
    (h : getArena xs i = .ok x) : xs[i]? = some x := by
  cases hx : xs[i]? with
  | none => simp [getArena, hx] at h
  | some y =>
    simp only [getArena, hx] at h
    injection h with h
    rw [h]

/-- Setting the metadata pointer of any object other than multi tag j
keeps the metadata lookup of multi tag j. -/
theorem set_metadata_keeps_mt_meta {s : Store} {r : NixRef} {m : Nat}
    {s2 : Store} {j : Nat} {m0 : Nat}
    (h : s.set_metadata r m = .ok s2)
    (hr : r ≠ .multiTag j)
    (hj : (s.multi_tags[j]?).map NMultiTag.metadata = some (some m0)) :
    (s2.multi_tags[j]?).map NMultiTag.metadata = some (some m0) := by
  rcases r with _ | i | i | i | i | i
  · simp [Store.set_metadata] at h
  · simp only [Store.set_metadata] at h
    obtain ⟨b, _hb, h⟩ := bindE_ok_elim h
    injection h with h
    rw [← h]
    exact hj
  · simp only [Store.set_metadata] at h
    obtain ⟨g, _hg, h⟩ := bindE_ok_elim h
    injection h with h
    rw [← h]
    exact hj
  · simp only [Store.set_metadata] at h
    obtain ⟨x, _hx, h⟩ := bindE_ok_elim h
    injection h with h
    rw [← h]
    exact hj
  · simp only [Store.set_metadata] at h
    obtain ⟨d, _hd, h⟩ := bindE_ok_elim h
    injection h with h
    rw [← h]
    exact hj
  · simp only [Store.set_metadata] at h
    obtain ⟨mt, _hmt, h⟩ := bindE_ok_elim h
    injection h with h
    have hij : i ≠ j := fun he => hr (by rw [he])
    rw [← h]
    show ((s.multi_tags.set i { mt with metadata := some m })[j]?).map
      NMultiTag.metadata = some (some m0)
    rw [List.getElem?_set_ne hij]
    exact hj

/-- The metadata mirror body keeps every already-attached multi-tag
metadata pointer whenever its recursion continuation does. -/
theorem gom_body_keeps_mt_meta
    {recurse : Store → NixRef → Path → Except PyErr (Store × Nat)}
    (hrec : ∀ (s : Store) (r : NixRef) (p : Path) (out : Store × Nat)
      (j m0 : Nat), recurse s r p = .ok out →
      (s.multi_tags[j]?).map NMultiTag.metadata = some (some m0) →
      (out.1.multi_tags[j]?).map NMultiTag.metadata = some (some m0))
    (s : Store) (r : NixRef) (p : Path) (out : Store × Nat) (j m0 : Nat)
    (h : _get_or_init_metadata_body recurse s r p = .ok out)
    (hj : (s.multi_tags[j]?).map NMultiTag.metadata = some (some m0)) :
    (out.1.multi_tags[j]?).map NMultiTag.metadata = some (some m0) := by
  rw [_get_or_init_metadata_body] at h
  obtain ⟨md, hmd, h⟩ := bindE_ok_elim h
  match md with
  | some m =>
    injection h with h
    subst h
    exact hj
  | none =>
    have hrne : r ≠ .multiTag j := by
      intro he
      subst he
      cases hx : s.multi_tags[j]? with
      | none => rw [hx] at hj; simp at hj
      | some x =>
        rw [hx] at hj
        injection hj with hj
        simp [Store.metadata_of, getArena, hx, hj] at hmd
    by_cases hlen : p.length ≤ 1
    · rw [if_pos hlen] at h
      obtain ⟨nm, _hnm, h⟩ := bindE_ok_elim h
      obtain ⟨ty, _hty, h⟩ := bindE_ok_elim h
      obtain ⟨s3, hset, h⟩ := bindE_ok_elim h
      injection h with h
      subst h
      exact set_metadata_keeps_mt_meta hset hrne hj
    · rw [if_neg hlen] at h
      obtain ⟨pobj?, _hpo, h⟩ := bindE_ok_elim h
      match pobj? with
      | none => simp at h
      | some pobj =>
        obtain ⟨rr, hrecur, h⟩ := bindE_ok_elim h
        have hjr := hrec s pobj p.dropLast rr j m0 hrecur hj
        obtain ⟨nm, _hnm, h⟩ := bindE_ok_elim h
        obtain ⟨ty, _hty, h⟩ := bindE_ok_elim h
        obtain ⟨s3, hset, h⟩ := bindE_ok_elim h
        injection h with h
        subst h
        exact set_metadata_keeps_mt_meta hset hrne hjr

/-- The metadata mirror worker keeps attached multi-tag metadata pointers
at any fuel. -/
theorem gom_go_keeps_mt_meta (fuel : Nat) :
    ∀ (s : Store) (r : NixRef) (p : Path) (out : Store × Nat) (j m0 : Nat),
      _get_or_init_metadata_go fuel s r p = .ok out →
      (s.multi_tags[j]?).map NMultiTag.metadata = some (some m0) →
      (out.1.multi_tags[j]?).map NMultiTag.metadata = some (some m0) := by
  induction fuel with
  | zero =>
    intro s r p out j m0 h hj
    exact gom_body_keeps_mt_meta
      (fun s r p out j m0 h hj => absurd h (by simp)) s r p out j m0 h hj
  | succ n ih =>
    intro s r p out j m0 h hj
    exact gom_body_keeps_mt_meta ih s r p out j m0 h hj

/-- The metadata mirror keeps attached multi-tag metadata pointers. -/
theorem gom_keeps_mt_meta {s : Store} {r : NixRef} {p : Path}
    {out : Store × Nat} {j m0 : Nat}
    (h : _get_or_init_metadata s r p = .ok out)
    (hj : (s.multi_tags[j]?).map NMultiTag.metadata = some (some m0)) :
    (out.1.multi_tags[j]?).map NMultiTag.metadata = some (some m0) :=
  gom_go_keeps_mt_meta p.length s r p out j m0 h hj

/-- Appending a feature to a multi tag keeps every metadata lookup. -/
theorem mt_meta_modifyMT_features {s : Store} {i : Nat} {d : Nat}
    {j : Nat} {t : Option Nat}
    (h : (s.multi_tags[j]?).map NMultiTag.metadata = some t) :
    (((s.modifyMT i fun m => { m with features := m.features ++ [d] }).multi_tags[j]?).map
      NMultiTag.metadata) = some t := by
  rw [modifyMT_map_meta s i (fun m => { m with features := m.features ++ [d] })
    (fun x => Eq.refl _) j]
  exact h

/-- Data-array point updates keep every multi-tag metadata lookup. -/
theorem mt_meta_modifyDA {s : Store} {i : Nat} {f : NDataArray → NDataArray}
    {j : Nat} {t : Option Nat}
    (h : (s.multi_tags[j]?).map NMultiTag.metadata = some t) :
    (((s.modifyDA i f).multi_tags[j]?).map NMultiTag.metadata) = some t := by
  rw [modifyDA_multi_tags]
  exact h

/-- A data array with no metadata pointer reads back none. -/
theorem metadata_of_da_none {s : Store} {i : Nat}
    (h : (s.data_arrays[i]?).map NDataArray.metadata = some none) :
    s.metadata_of (.dataArray i) = .ok none := by
  cases hx : s.data_arrays[i]? with
  | none => rw [hx] at h; simp at h
  | some d =>
    rw [hx] at h
    injection h with h
    simp [Store.metadata_of, getArena, hx, h]

/-- Point updates that keep the metadata pointer keep every projected
data-array metadata lookup. -/
theorem modifyDA_map_meta (s : Store) (i : Nat) (f : NDataArray → NDataArray)
    (hf : ∀ x, (f x).metadata = x.metadata) (j : Nat) :
    ((s.modifyDA i f).data_arrays[j]?).map NDataArray.metadata =
      (s.data_arrays[j]?).map NDataArray.metadata := by
  rw [Store.modifyDA]
  cases hx : s.data_arrays[i]? with
  | none => rfl
  | some x => exact getElem?_map_set NDataArray.metadata hx (hf x) j

/-- Setting the unit of a data array keeps every data-array metadata
lookup. -/
theorem da_meta_modifyDA_unit {s : Store} {i : Nat} {un : String} {j : Nat}
    {t : Option Nat}
    (h : (s.data_arrays[j]?).map NDataArray.metadata = some t) :
    (((s.modifyDA i fun da => { da with unit := un }).data_arrays[j]?).map
      NDataArray.metadata) = some t := by
  rw [modifyDA_map_meta s i (fun da => { da with unit := un })
    (fun x => Eq.refl _) j]
  exact h

/-- Appending a dimension to a data array keeps every data-array metadata
lookup. -/
theorem da_meta_modifyDA_dim {s : Store} {i : Nat} {d : NDim} {j : Nat}
    {t : Option Nat}
    (h : (s.data_arrays[j]?).map NDataArray.metadata = some t) :
    (((s.modifyDA i fun da => { da with dims := da.dims ++ [d] }).data_arrays[j]?).map
      NDataArray.metadata) = some t := by
  rw [modifyDA_map_meta s i (fun da => { da with dims := da.dims ++ [d] })
    (fun x => Eq.refl _) j]
  exact h

/-- Multi-tag point updates keep every data-array metadata lookup. -/
theorem da_meta_modifyMT {s : Store} {i : Nat} {f : NMultiTag → NMultiTag}
    {j : Nat} {t : Option Nat}
    (h : (s.data_arrays[j]?).map NDataArray.metadata = some t) :
    (((s.modifyMT i f).data_arrays[j]?).map NDataArray.metadata) = some t := by
  rw [(modifyMT_arenas s i f).2.2.2.1]
  exact h

/-- Property creation keeps the section-arena length. -/
theorem create_property_sections_length (s : Store) (sec : Nat) (k : String)
    (v : PropVal) :
    (s.create_property sec k v).sections.length = s.sections.length := by
  rw [Store.create_property]
  cases hx : s.sections[sec]? with
  | none => rfl
  | some x => simp

/-- Setting a data-array metadata pointer keeps the multi-tag arena. -/
theorem set_metadata_da_multi_tags {s : Store} {i m : Nat} {s2 : Store}
    (h : s.set_metadata (.dataArray i) m = .ok s2) :
    s2.multi_tags = s.multi_tags := by
  simp only [Store.set_metadata] at h
  obtain ⟨d, _hd, h⟩ := bindE_ok_elim h
  injection h with h
  rw [← h]

/-- Effect of the optional file-origin and t_start writes and the
mandatory t_stop write of write_spiketrain on the metadata section, its
pointer and the section-arena length. -/
theorem spiketrain_props_step (sptr : NeoSpikeTrain) (sec mtIdx : Nat)
    (t : Store) {u : Store} {A : List (String × PropVal)}
    (hu : u =
      (if sptr.t_start.mag = 0 then
        (if sptr.file_origin = "" then t
          else t.create_property sec ("file_origin")
            (.single (.str sptr.file_origin)))
       else
        (if sptr.file_origin = "" then t
          else t.create_property sec ("file_origin")
            (.single (.str sptr.file_origin))).create_property sec ("t_start")
          (.single (.rat ((sptr.t_start.rescale sptr.times_unit).mag)))).create_property
        sec ("t_stop")
        (.single (.rat ((sptr.t_stop.rescale sptr.times_unit).mag))))
    (hprops : (t.sections[sec]?).map NSection.props = some A)
    (hM : (t.multi_tags[mtIdx]?).map NMultiTag.metadata = some (some sec)) :
    (u.sections[sec]?).map NSection.props =
      some (A ++
        (if sptr.file_origin = "" then []
          else [("file_origin", PropVal.single (.str sptr.file_origin))]) ++
        (if sptr.t_start.mag = 0 then []
          else [("t_start", PropVal.single
            (.rat ((sptr.t_start.rescale sptr.times_unit).mag)))]) ++
        [("t_stop", PropVal.single
          (.rat ((sptr.t_stop.rescale sptr.times_unit).mag)))]) ∧
    (u.multi_tags[mtIdx]?).map NMultiTag.metadata = some (some sec) ∧
    u.sections.length = t.sections.length := by
  subst hu
  refine ⟨?_, ?_, ?_⟩
  · by_cases hfo : sptr.file_origin = ""
    · by_cases hts : sptr.t_start.mag = 0
      · simp only [if_pos hfo, if_pos hts, List.append_nil]
        exact props_create_property hprops
      · simp only [if_pos hfo, if_neg hts, List.append_nil]
        exact props_create_property (props_create_property hprops)
    · by_cases hts : sptr.t_start.mag = 0
      · simp only [if_neg hfo, if_pos hts, List.append_nil]
        exact props_create_property (props_create_property hprops)
      · simp only [if_neg hfo, if_neg hts]
        exact props_create_property (props_create_property
          (props_create_property hprops))
  · rw [mtlookup_create_property]
    split
    · split
      · exact hM
      · rw [mtlookup_create_property]; exact hM
    · rw [mtlookup_create_property]
      split
      · exact hM
      · rw [mtlookup_create_property]; exact hM
  · rw [create_property_sections_length]
    split
    · split
      · rfl
      · rw [create_property_sections_length]
    · rw [create_property_sections_length]
      split
      · rfl
      · rw [create_property_sections_length]

/-- C7 (amended): for every spike train written, with or without
waveforms, write_spiketrain stores t_stop on the multi-tag metadata
section, rescaled into the unit of the positions array, but stores
t_start only when its magnitude is truthy — a present t_start equal to
zero is silently skipped.  The section holds exactly the annotation
entries, the optional file origin, the conditional t_start and the
mandatory t_stop. -/
theorem claim_C7_time_bounds
    (aid : Nat → Nat) (sptr : NeoSpikeTrain) (pp : Path) (w w2 : WState)
    (res : NixRef)
    (hrun : write_spiketrain aid sptr pp w = .ok (w2, res)) :
    ∃ sec,
      (w2.store.multi_tags[w.store.multi_tags.length]?).map NMultiTag.metadata =
        some (some sec) ∧
      (w2.store.sections[sec]?).map NSection.props =
        some ((sptr.annotations.map (fun kv => (kv.1, PropVal.single kv.2))) ++
          (if sptr.file_origin = "" then []
            else [("file_origin", PropVal.single (.str sptr.file_origin))]) ++
          (if sptr.t_start.mag = 0 then []
            else [("t_start", PropVal.single
              (.rat ((sptr.t_start.rescale sptr.times_unit).mag)))]) ++
          [("t_stop", PropVal.single
            (.rat ((sptr.t_stop.rescale sptr.times_unit).mag)))]) := by
  rw [write_spiketrain] at hrun
  obtain ⟨po, _hpo, hr1⟩ := bindE_ok_elim hrun
  clear hrun
  obtain ⟨parent_obj, _hobj, hr2⟩ := bindE_ok_elim hr1
  clear hr1
  obtain ⟨hp2, _hhp, hr3⟩ := bindE_ok_elim hr2
  clear hr2
  obtain ⟨pb, _hpb, hr4⟩ := bindE_ok_elim hr3
  clear hr3
  obtain ⟨parent_block, _hpbo, hr5⟩ := bindE_ok_elim hr4
  clear hr4
  obtain ⟨nix_name, _hname, hr6⟩ := bindE_ok_elim hr5
  clear hr5
  obtain ⟨pda, hpda, hr7⟩ := bindE_ok_elim hr6
  clear hr6
  obtain ⟨_, _, _, _, hmts1, _, _⟩ := create_data_array_spec hpda
  obtain ⟨pmt, hpmt, hr8⟩ := bindE_ok_elim hr7
  clear hr7
  obtain ⟨hidx3, hmt3, _, _, _, _, _⟩ := create_multi_tag_spec hpmt
  have hmtlen : pmt.2 = w.store.multi_tags.length := by
    rw [hidx3, modifyDA_multi_tags, hmts1]
  have hM0 : (pmt.1.multi_tags[pmt.2]?).map NMultiTag.metadata = some none := by
    rw [hmt3, hidx3, List.getElem?_concat_length]
    rfl
  obtain ⟨s2, hs2, hr9⟩ := bindE_ok_elim hr8
  clear hr8
  have hM1 : (s2.multi_tags[pmt.2]?).map NMultiTag.metadata = some none := by
    rcases parent_obj with _ | bi2 | gi | si | di | mi
    · injection hs2 with hs2; rw [← hs2]; exact hM0
    · injection hs2 with hs2; rw [← hs2]; exact hM0
    · obtain ⟨_, _, _, hgmt, _, _, _⟩ := group_append_multi_tag_spec hs2
      rw [hgmt]; exact hM0
    · injection hs2 with hs2
      rw [← hs2]
      exact mt_meta_modifyMT_sources hM0
    · injection hs2 with hs2; rw [← hs2]; exact hM0
    · injection hs2 with hs2; rw [← hs2]; exact hM0
  have hM2 : ((s2.modifyMT pmt.2
      (fun m => { m with definition := sptr.description })).multi_tags[pmt.2]?).map
        NMultiTag.metadata = some none :=
    mt_meta_modifyMT_def hM1
  have hmdnone := metadata_of_mt_none hM2
  obtain ⟨rmd, hrmd, hr10⟩ := bindE_ok_elim hr9
  clear hr9
  obtain ⟨hprops0, hattach⟩ := gom_created_spec _ _ _ _ _ hmdnone hrmd
  have hMptr := mt_meta_of_metadata_of hattach
  obtain ⟨s4, hs4, hr11⟩ := bindE_ok_elim hr10
  clear hr10
  have hpair : (s4.sections[rmd.2]?).map NSection.props =
      some (sptr.annotations.map (fun kv => (kv.1, PropVal.single kv.2))) ∧
      (s4.multi_tags[pmt.2]?).map NMultiTag.metadata = some (some rmd.2) := by
    rw [_copy_annotations] at hs4
    split at hs4
    · rename_i hemp
      injection hs4 with hs4
      have hannnil : sptr.annotations = [] := by
        cases hann : sptr.annotations with
        | nil => rfl
        | cons a l => rw [hann] at hemp; simp [List.isEmpty] at hemp
      rw [← hs4, hannnil]
      exact ⟨hprops0, hMptr⟩
    · rw [gom_attached _ hattach] at hs4
      simp only [bindE_ok] at hs4
      injection hs4 with hs4
      rw [← hs4]
      constructor
      · rw [add_annotations_target]
        cases hx0 : rmd.1.sections[rmd.2]? with
        | none => rw [hx0] at hprops0; simp at hprops0
        | some x0 =>
          rw [hx0] at hprops0
          injection hprops0 with hprops0
          show some (x0.props ++ _) = _
          rw [hprops0]
          rfl
      · rw [add_annotations_multi_tags]
        exact hMptr
  obtain ⟨hprops4, hM4⟩ := hpair
  have hfreshmd := (gom_frame hrmd).2 hmdnone
  have hlen4 : rmd.2 < s4.sections.length :=
    lt_of_lt_of_le hfreshmd.2 (copy_annotations_annframe hs4).1
  obtain ⟨hp7, hM7, hlen7⟩ :=
    spiketrain_props_step sptr rmd.2 pmt.2 s4 rfl hprops4 hM4
  rcases hwfs : sptr.waveforms with _ | wfs <;> rw [hwfs] at hr11
  · obtain ⟨s8, hs8, hfin⟩ := bindE_ok_elim hr11
    clear hr11
    injection hfin with hfin
    injection hfin with hw2 hres
    subst hw2
    subst hres
    injection hs8 with hs8
    refine ⟨rmd.2, ?_, ?_⟩
    · show ((s8.multi_tags[w.store.multi_tags.length]?).map NMultiTag.metadata = _)
      rw [← hmtlen, ← hs8]
      exact hM7
    · show ((s8.sections[rmd.2]?).map NSection.props = _)
      rw [← hs8]
      exact hp7
  · obtain ⟨s8, hs8, hfin⟩ := bindE_ok_elim hr11
    clear hr11
    injection hfin with hfin
    injection hfin with hw2 hres
    subst hw2
    subst hres
    obtain ⟨pwf, hpwf, hs8b⟩ := bindE_ok_elim hs8
    clear hs8
    obtain ⟨hidxw, hdasw, _hgw, _hsw, hmtsw, hsecw, _hbw⟩ :=
      create_data_array_spec hpwf
    have hda0 : (pwf.1.data_arrays[pwf.2]?).map NDataArray.metadata =
        some none := by
      rw [hdasw, hidxw, List.getElem?_concat_length]
      rfl
    have hM7b : (pwf.1.multi_tags[pmt.2]?).map NMultiTag.metadata =
        some (some rmd.2) := by
      rw [hmtsw]
      exact hM7
    have hlen7b : rmd.2 < pwf.1.sections.length := by
      rw [hsecw]
      exact lt_of_lt_of_le hlen4 (le_of_eq hlen7.symm)
    have hp7b : (pwf.1.sections[rmd.2]?).map NSection.props =
        some ((sptr.annotations.map (fun kv => (kv.1, PropVal.single kv.2))) ++
          (if sptr.file_origin = "" then []
            else [("file_origin", PropVal.single (.str sptr.file_origin))]) ++
          (if sptr.t_start.mag = 0 then []
            else [("t_start", PropVal.single
              (.rat ((sptr.t_start.rescale sptr.times_unit).mag)))]) ++
          [("t_stop", PropVal.single
            (.rat ((sptr.t_stop.rescale sptr.times_unit).mag)))]) := by
      rw [hsecw]
      exact hp7
    obtain ⟨rwf, hrwf, hs8c⟩ := bindE_ok_elim hs8b
    clear hs8b
    have hMrwf : (rwf.1.multi_tags[pmt.2]?).map NMultiTag.metadata =
        some (some rmd.2) := by
      refine gom_keeps_mt_meta hrwf ?_
      exact mt_meta_modifyDA (mt_meta_modifyDA (mt_meta_modifyDA
        (mt_meta_modifyMT_features (mt_meta_modifyDA hM7b))))
    have hprwf : (rwf.1.sections[rmd.2]?).map NSection.props =
        some ((sptr.annotations.map (fun kv => (kv.1, PropVal.single kv.2))) ++
          (if sptr.file_origin = "" then []
            else [("file_origin", PropVal.single (.str sptr.file_origin))]) ++
          (if sptr.t_start.mag = 0 then []
            else [("t_start", PropVal.single
              (.rat ((sptr.t_start.rescale sptr.times_unit).mag)))]) ++
          [("t_stop", PropVal.single
            (.rat ((sptr.t_stop.rescale sptr.times_unit).mag)))]) := by
      rw [(gom_frame hrwf).1.2.1 rmd.2 (by
        rw [modifyDA_sections, modifyDA_sections, modifyDA_sections,
          (modifyMT_arenas _ _ _).2.2.2.2.1, modifyDA_sections]
        exact hlen7b)]
      rw [modifyDA_sections, modifyDA_sections, modifyDA_sections,
        (modifyMT_arenas _ _ _).2.2.2.2.1, modifyDA_sections]
      exact hp7b
    have hge := (gom_frame hrwf).2 (metadata_of_da_none
      (da_meta_modifyDA_dim (da_meta_modifyDA_dim (da_meta_modifyDA_dim
        (da_meta_modifyMT (da_meta_modifyDA_unit hda0))))))
    have hne : rmd.2 ≠ rwf.2 := by
      intro he
      have h1 := hge.1
      rw [← he] at h1
      rw [modifyDA_sections, modifyDA_sections, modifyDA_sections,
        (modifyMT_arenas _ _ _).2.2.2.2.1, modifyDA_sections] at h1
      exact absurd hlen7b (Nat.not_lt.mpr h1)
    obtain ⟨sf, hsf, hs8d⟩ := bindE_ok_elim hs8c
    clear hs8c
    have hMsf : (sf.multi_tags[pmt.2]?).map NMultiTag.metadata =
        some (some rmd.2) := by
      rw [set_metadata_da_multi_tags hsf]
      exact hMrwf
    have hpsf : (sf.sections[rmd.2]?).map NSection.props =
        some ((sptr.annotations.map (fun kv => (kv.1, PropVal.single kv.2))) ++
          (if sptr.file_origin = "" then []
            else [("file_origin", PropVal.single (.str sptr.file_origin))]) ++
          (if sptr.t_start.mag = 0 then []
            else [("t_start", PropVal.single
              (.rat ((sptr.t_start.rescale sptr.times_unit).mag)))]) ++
          [("t_stop", PropVal.single
            (.rat ((sptr.t_stop.rescale sptr.times_unit).mag)))]) := by
      rw [set_metadata_sections hsf]
      exact hprwf
    refine ⟨rmd.2, ?_, ?_⟩
    · show ((s8.multi_tags[w.store.multi_tags.length]?).map NMultiTag.metadata = _)
      rw [← hmtlen]
      rcases hls : sptr.left_sweep with _ | ls <;> rw [hls] at hs8d
      · injection hs8d with hs8d
        rw [← hs8d]
        exact hMsf
      · split at hs8d
        · split at hs8d <;> injection hs8d with hs8d <;> rw [← hs8d] <;>
            (try rw [create_property_multi_tags]) <;> exact hMsf
        · injection hs8d with hs8d
          rw [← hs8d]
          exact hMsf
    · show ((s8.sections[rmd.2]?).map NSection.props = _)
      rcases hls : sptr.left_sweep with _ | ls <;> rw [hls] at hs8d
      · injection hs8d with hs8d
        rw [← hs8d]
        exact hpsf
      · split at hs8d
        · split at hs8d <;> injection hs8d with hs8d <;> rw [← hs8d] <;>
            (try rw [create_property_other _ _ _ _ _ hne]) <;> exact hpsf
        · injection hs8d with hs8d
          rw [← hs8d]
          exact hpsf

/-- Unit of seconds for the C7 runs. -/
def c7U : UnitQ := ⟨"s", 1, "s", 1⟩

/-- Spike train with a present t_start equal to zero. -/
def c7Train : NeoSpikeTrain :=
  ⟨30, "st", none, "", [], [1], c7U, ⟨0, c7U⟩, ⟨2, c7U⟩, ⟨1, c7U⟩, none, none⟩

/-- One-block-one-group store for the C7 runs. -/
def c7Store : Store :=
  ⟨[⟨"blk", "neo.block", none, none, [0], [], [], [], none⟩],
   [⟨"seg", "neo.segment", none, none, [], [], none⟩],
   [], [], [], []⟩

/-- Counterexample to C7 as stated: the spike train carries a present
t_start (the quantity 0 seconds), yet its metadata section — section 2,
pointed to by the created multi tag — holds only the t_stop property and
no t_start property. -/
theorem claim_C7_counterexample :
    (write_spiketrain (fun t => t) c7Train [("block", "blk"), ("group", "seg")]
        ⟨c7Store, []⟩).map
      (fun pr => (pr.1.store.sections[2]?).map (fun x => x.props.map Prod.fst)) =
      .ok (some (["t_stop"])) ∧
    (write_spiketrain (fun t => t) c7Train [("block", "blk"), ("group", "seg")]
        ⟨c7Store, []⟩).map
      (fun pr => (pr.1.store.multi_tags[0]?).map NMultiTag.metadata) =
      .ok (some (some 2)) :=
  ⟨by decide, by decide⟩

/-- Witness for the amended C7 at the concrete zero t_start run. -/
theorem claim_C7_witness :
    ∃ pr : WState × NixRef,
      write_spiketrain (fun t => t) c7Train [("block", "blk"), ("group", "seg")]
        ⟨c7Store, []⟩ = .ok pr ∧
      ∃ sec,
        (pr.1.store.multi_tags[c7Store.multi_tags.length]?).map NMultiTag.metadata =
          some (some sec) ∧
        (pr.1.store.sections[sec]?).map NSection.props =
          some ((c7Train.annotations.map (fun kv => (kv.1, PropVal.single kv.2))) ++
            (if c7Train.file_origin = "" then []
              else [("file_origin", PropVal.single (.str c7Train.file_origin))]) ++
            (if c7Train.t_start.mag = 0 then []
              else [("t_start", PropVal.single
                (.rat ((c7Train.t_start.rescale c7Train.times_unit).mag)))]) ++
            [("t_stop", PropVal.single
              (.rat ((c7Train.t_stop.rescale c7Train.times_unit).mag)))]) := by
  have hok : (write_spiketrain (fun t => t) c7Train
      [("block", "blk"), ("group", "seg")] ⟨c7Store, []⟩).isOk = true := by decide
  match hrun : write_spiketrain (fun t => t) c7Train
      [("block", "blk"), ("group", "seg")] ⟨c7Store, []⟩ with
  | .error e => rw [hrun] at hok; simp [Except.isOk, Except.toBool] at hok
  | .ok pr =>
    exact ⟨pr, rfl, claim_C7_time_bounds (fun t => t) c7Train
      [("block", "blk"), ("group", "seg")] ⟨c7Store, []⟩ pr.1 pr.2 hrun⟩

/- ================================================================== -/
/- C8.  Determinism of the whole mapping in the ambient id assignment. -/

/-- Renaming of identity-table keys along an ambient id assignment. -/
def liftMap (aid : Nat → Nat) (m : List (Nat × MappedVal)) :
    List (Nat × MappedVal) :=
  m.map fun kv => (aid kv.1, kv.2)

/-- Renaming of a mapper state along an ambient id assignment: the store
is untouched, only the table keys are renamed. -/
def liftW (aid : Nat → Nat) (w : WState) : WState :=
  ⟨w.store, liftMap aid w.neo_nix_map⟩

/-- Renaming of a run result carrying a state and a value. -/
def liftE (aid : Nat → Nat) {β : Type} (e : Except PyErr (WState × β)) :
    Except PyErr (WState × β) :=
  e.map fun pr => (liftW aid pr.1, pr.2)

/-- Renaming of a run result carrying a bare state. -/
def liftEW (aid : Nat → Nat) (e : Except PyErr WState) : Except PyErr WState :=
  e.map (liftW aid)

/-- Congruence of sequencing under renaming: equal first steps. -/
theorem bindE_sim_pair {aid : Nat → Nat} {α β : Type} {X X2 : Except PyErr α}
    {f g : α → Except PyErr (WState × β)} (hX : X = X2)
    (h : ∀ a, f a = liftE aid (g a)) :
    bindE X f = liftE aid (bindE X2 g) := by
  subst hX
  cases X with
  | error e => rfl
  | ok a => exact h a

/-- Congruence of sequencing under renaming: first step a renamed run
carrying a state and a value. -/
theorem bindE_sim_pair_pairleft {aid : Nat → Nat} {γ β : Type}
    {XL X2 : Except PyErr (WState × γ)}
    {f g : WState × γ → Except PyErr (WState × β)}
    (hX : XL = liftE aid X2)
    (h : ∀ pr : WState × γ, f (liftW aid pr.1, pr.2) = liftE aid (g pr)) :
    bindE XL f = liftE aid (bindE X2 g) := by
  subst hX
  cases X2 with
  | error e => rfl
  | ok pr => exact h pr

/-- Congruence of sequencing under renaming: first step a renamed run
carrying a bare state. -/
theorem bindE_sim_pair_wleft {aid : Nat → Nat} {β : Type}
    {XL X2 : Except PyErr WState}
    {f g : WState → Except PyErr (WState × β)}
    (hX : XL = liftEW aid X2)
    (h : ∀ w : WState, f (liftW aid w) = liftE aid (g w)) :
    bindE XL f = liftE aid (bindE X2 g) := by
  subst hX
  cases X2 with
  | error e => rfl
  | ok w => exact h w

/-- Congruence of sequencing under renaming, producing a bare state. -/
theorem bindE_sim_w_pairleft {aid : Nat → Nat} {γ : Type}
    {XL X2 : Except PyErr (WState × γ)}
    {f g : WState × γ → Except PyErr WState}
    (hX : XL = liftE aid X2)
    (h : ∀ pr : WState × γ, f (liftW aid pr.1, pr.2) = liftEW aid (g pr)) :
    bindE XL f = liftEW aid (bindE X2 g) := by
  subst hX
  cases X2 with
  | error e => rfl
  | ok pr => exact h pr

/-- Table lookups are invariant under injective key renaming. -/
theorem mapLookup_lift (aid : Nat → Nat) (hinj : Function.Injective aid) :
    ∀ (m : List (Nat × MappedVal)) (k : Nat),
    mapLookup (liftMap aid m) (aid k) = mapLookup m k := by
  intro m
  induction m with
  | nil => intro k; rfl
  | cons kv rest ih =>
    obtain ⟨k2, v⟩ := kv
    intro k
    show (if aid k2 = aid k then some v else mapLookup (liftMap aid rest) (aid k)) =
      (if k2 = k then some v else mapLookup rest k)
    rcases eq_or_ne k2 k with he | he
    · subst he
      rw [if_pos rfl, if_pos rfl]
    · rw [if_neg (fun hh => he (hinj hh)), if_neg he, ih k]

/-- Single mapped lookups are invariant under injective key renaming. -/
theorem mapped_object_lift (aid : Nat → Nat) (hinj : Function.Injective aid)
    (m : List (Nat × MappedVal)) (k : Nat) :
    _get_mapped_object (liftMap aid m) (aid k) = _get_mapped_object m k := by
  rw [_get_mapped_object, _get_mapped_object, mapLookup_lift aid hinj m k]

/-- Bulk mapped lookups are invariant under injective key renaming. -/
theorem mapped_objects_lift (aid : Nat → Nat) (hinj : Function.Injective aid)
    (m : List (Nat × MappedVal)) :
    ∀ ks : List Nat,
    _get_mapped_objects (liftMap aid m) (ks.map aid) =
      _get_mapped_objects m (ks.map (fun t => t)) := by
  intro ks
  induction ks with
  | nil => rfl
  | cons k rest ih =>
    simp only [List.map_cons, _get_mapped_objects]
    rw [mapped_object_lift aid hinj m k, ih]

/-- write_analogsignal commutes with key renaming. -/
theorem write_analogsignal_sim (aid : Nat → Nat) (x : NeoAnalogSignal)
    (p : Path) (w : WState) :
    write_analogsignal aid x p (liftW aid w) =
      liftE aid (write_analogsignal (fun t => t) x p w) := by
  simp only [write_analogsignal]
  repeat (refine bindE_sim_pair rfl ?_; intro a)
  rfl

/-- write_irregularlysampledsignal commutes with key renaming. -/
theorem write_irregularlysampledsignal_sim (aid : Nat → Nat)
    (x : NeoIrregularlySampledSignal) (p : Path) (w : WState) :
    write_irregularlysampledsignal aid x p (liftW aid w) =
      liftE aid (write_irregularlysampledsignal (fun t => t) x p w) := by
  simp only [write_irregularlysampledsignal]
  repeat (refine bindE_sim_pair rfl ?_; intro a)
  rfl

/-- write_epoch commutes with key renaming. -/
theorem write_epoch_sim (aid : Nat → Nat) (x : NeoEpoch) (p : Path)
    (w : WState) :
    write_epoch aid x p (liftW aid w) =
      liftE aid (write_epoch (fun t => t) x p w) := by
  simp only [write_epoch]
  repeat (refine bindE_sim_pair rfl ?_; intro a)
  rfl

/-- write_event commutes with key renaming. -/
theorem write_event_sim (aid : Nat → Nat) (x : NeoEvent) (p : Path)
    (w : WState) :
    write_event aid x p (liftW aid w) =
      liftE aid (write_event (fun t => t) x p w) := by
  simp only [write_event]
  repeat (refine bindE_sim_pair rfl ?_; intro a)
  rfl

/-- write_spiketrain commutes with key renaming. -/
theorem write_spiketrain_sim (aid : Nat → Nat) (x : NeoSpikeTrain) (p : Path)
    (w : WState) :
    write_spiketrain aid x p (liftW aid w) =
      liftE aid (write_spiketrain (fun t => t) x p w) := by
  simp only [write_spiketrain]
  repeat (refine bindE_sim_pair rfl ?_; intro a)
  rfl

/-- write_unit commutes with injective key renaming. -/
theorem write_unit_sim (aid : Nat → Nat) (hinj : Function.Injective aid)
    (ut : NeoUnit) (p : Path) (w : WState) :
    write_unit aid ut p (liftW aid w) =
      liftE aid (write_unit (fun t => t) ut p w) := by
  simp only [write_unit]
  refine bindE_sim_pair rfl ?_
  intro ps
  refine bindE_sim_pair rfl ?_
  intro parent_source
  refine bindE_sim_pair rfl ?_
  intro nix_name
  refine bindE_sim_pair rfl ?_
  intro p2
  refine bindE_sim_pair rfl ?_
  intro s2
  refine bindE_sim_pair rfl ?_
  intro s3
  refine bindE_sim_pair (mapped_objects_lift aid hinj
    (mapInsert w.neo_nix_map ut.tag (.single (.source p2.2)))
    ut.spiketrains) ?_
  intro vals
  refine bindE_sim_pair rfl ?_
  intro s4
  rfl

/-- The unit loop commutes with injective key renaming. -/
theorem write_unit_list_sim (aid : Nat → Nat) (hinj : Function.Injective aid) :
    ∀ (us : List NeoUnit) (p : Path) (w : WState),
    write_unit_list aid us p (liftW aid w) =
      liftEW aid (write_unit_list (fun t => t) us p w) := by
  intro us
  induction us with
  | nil => intro p w; rfl
  | cons u rest ih =>
    intro p w
    simp only [write_unit_list]
    refine bindE_sim_w_pairleft (write_unit_sim aid hinj u p w) ?_
    intro pr
    exact ih p pr.1

/-- write_recordingchannelgroup commutes with injective key renaming. -/
theorem write_recordingchannelgroup_sim (aid : Nat → Nat)
    (hinj : Function.Injective aid) (rcg : NeoRCG) (p : Path) (w : WState) :
    write_recordingchannelgroup aid rcg p (liftW aid w) =
      liftE aid (write_recordingchannelgroup (fun t => t) rcg p w) := by
  simp only [write_recordingchannelgroup]
  refine bindE_sim_pair rfl ?_
  intro pb
  refine bindE_sim_pair rfl ?_
  intro parent_block
  refine bindE_sim_pair rfl ?_
  intro nix_name
  refine bindE_sim_pair rfl ?_
  intro p2
  refine bindE_sim_pair rfl ?_
  intro s2
  refine bindE_sim_pair rfl ?_
  intro s3
  refine bindE_sim_pair rfl ?_
  intro s4
  refine bindE_sim_pair_wleft (write_unit_list_sim aid hinj rcg.units _
    ⟨s4, mapInsert w.neo_nix_map rcg.tag (.single (.source p2.2))⟩) ?_
  intro w2
  refine bindE_sim_pair (mapped_objects_lift aid hinj w2.neo_nix_map
    rcg.analogsignals) ?_
  intro avals
  refine bindE_sim_pair rfl ?_
  intro s5
  refine bindE_sim_pair (mapped_objects_lift aid hinj w2.neo_nix_map
    rcg.irregularlysampledsignals) ?_
  intro ivals
  refine bindE_sim_pair rfl ?_
  intro s6
  rfl

/-- The analog-signal loop commutes with key renaming. -/
theorem write_analogsignal_list_sim (aid : Nat → Nat) :
    ∀ (xs : List NeoAnalogSignal) (p : Path) (w : WState),
    write_analogsignal_list aid xs p (liftW aid w) =
      liftEW aid (write_analogsignal_list (fun t => t) xs p w) := by
  intro xs
  induction xs with
  | nil => intro p w; rfl
  | cons x rest ih =>
    intro p w
    simp only [write_analogsignal_list]
    refine bindE_sim_w_pairleft (write_analogsignal_sim aid x p w) ?_
    intro pr
    exact ih p pr.1

/-- The irregular-signal loop commutes with key renaming. -/
theorem write_irregularlysampledsignal_list_sim (aid : Nat → Nat) :
    ∀ (xs : List NeoIrregularlySampledSignal) (p : Path) (w : WState),
    write_irregularlysampledsignal_list aid xs p (liftW aid w) =
      liftEW aid (write_irregularlysampledsignal_list (fun t => t) xs p w) := by
  intro xs
  induction xs with
  | nil => intro p w; rfl
  | cons x rest ih =>
    intro p w
    simp only [write_irregularlysampledsignal_list]
    refine bindE_sim_w_pairleft (write_irregularlysampledsignal_sim aid x p w) ?_
    intro pr
    exact ih p pr.1

/-- The epoch loop commutes with key renaming. -/
theorem write_epoch_list_sim (aid : Nat → Nat) :
    ∀ (xs : List NeoEpoch) (p : Path) (w : WState),
    write_epoch_list aid xs p (liftW aid w) =
      liftEW aid (write_epoch_list (fun t => t) xs p w) := by
  intro xs
  induction xs with
  | nil => intro p w; rfl
  | cons x rest ih =>
    intro p w
    simp only [write_epoch_list]
    refine bindE_sim_w_pairleft (write_epoch_sim aid x p w) ?_
    intro pr
    exact ih p pr.1

/-- The event loop commutes with key renaming. -/
theorem write_event_list_sim (aid : Nat → Nat) :
    ∀ (xs : List NeoEvent) (p : Path) (w : WState),
    write_event_list aid xs p (liftW aid w) =
      liftEW aid (write_event_list (fun t => t) xs p w) := by
  intro xs
  induction xs with
  | nil => intro p w; rfl
  | cons x rest ih =>
    intro p w
    simp only [write_event_list]
    refine bindE_sim_w_pairleft (write_event_sim aid x p w) ?_
    intro pr
    exact ih p pr.1

/-- The spike-train loop commutes with key renaming. -/
theorem write_spiketrain_list_sim (aid : Nat → Nat) :
    ∀ (xs : List NeoSpikeTrain) (p : Path) (w : WState),
    write_spiketrain_list aid xs p (liftW aid w) =
      liftEW aid (write_spiketrain_list (fun t => t) xs p w) := by
  intro xs
  induction xs with
  | nil => intro p w; rfl
  | cons x rest ih =>
    intro p w
    simp only [write_spiketrain_list]
    refine bindE_sim_w_pairleft (write_spiketrain_sim aid x p w) ?_
    intro pr
    exact ih p pr.1

/-- write_segment commutes with injective key renaming. -/
theorem write_segment_sim (aid : Nat → Nat) (seg : NeoSegment) (p : Path)
    (w : WState) :
    write_segment aid seg p (liftW aid w) =
      liftE aid (write_segment (fun t => t) seg p w) := by
  simp only [write_segment]
  refine bindE_sim_pair rfl ?_
  intro pb
  refine bindE_sim_pair rfl ?_
  intro parent_block
  refine bindE_sim_pair rfl ?_
  intro nix_name
  refine bindE_sim_pair rfl ?_
  intro pg
  refine bindE_sim_pair rfl ?_
  intro s3
  refine bindE_sim_pair rfl ?_
  intro s4
  refine bindE_sim_pair rfl ?_
  intro s5
  refine bindE_sim_pair_wleft
    (write_analogsignal_list_sim aid seg.analogsignals _
      ⟨s5, mapInsert w.neo_nix_map seg.tag (.single (.group pg.2))⟩) ?_
  intro w1
  refine bindE_sim_pair_wleft
    (write_irregularlysampledsignal_list_sim aid
      seg.irregularlysampledsignals _ _) ?_
  intro w2
  refine bindE_sim_pair_wleft (write_epoch_list_sim aid seg.epochs _ _) ?_
  intro w3
  refine bindE_sim_pair_wleft (write_event_list_sim aid seg.events _ _) ?_
  intro w4
  refine bindE_sim_pair_wleft
    (write_spiketrain_list_sim aid seg.spiketrains _ _) ?_
  intro w5
  rfl

/-- The segment loop commutes with injective key renaming. -/
theorem write_segment_list_sim (aid : Nat → Nat) :
    ∀ (xs : List NeoSegment) (p : Path) (w : WState),
    write_segment_list aid xs p (liftW aid w) =
      liftEW aid (write_segment_list (fun t => t) xs p w) := by
  intro xs
  induction xs with
  | nil => intro p w; rfl
  | cons x rest ih =>
    intro p w
    simp only [write_segment_list]
    refine bindE_sim_w_pairleft (write_segment_sim aid x p w) ?_
    intro pr
    exact ih p pr.1

/-- The channel-group loop commutes with injective key renaming. -/
theorem write_rcg_list_sim (aid : Nat → Nat) (hinj : Function.Injective aid) :
    ∀ (xs : List NeoRCG) (p : Path) (w : WState),
    write_rcg_list aid xs p (liftW aid w) =
      liftEW aid (write_rcg_list (fun t => t) xs p w) := by
  intro xs
  induction xs with
  | nil => intro p w; rfl
  | cons x rest ih =>
    intro p w
    simp only [write_rcg_list]
    refine bindE_sim_w_pairleft
      (write_recordingchannelgroup_sim aid hinj x p w) ?_
    intro pr
    exact ih p pr.1

/-- write_block commutes with injective key renaming. -/
theorem write_block_sim (aid : Nat → Nat) (hinj : Function.Injective aid)
    (b : NeoBlock) (w : WState) :
    write_block aid b (liftW aid w) =
      liftE aid (write_block (fun t => t) b w) := by
  simp only [write_block]
  refine bindE_sim_pair rfl ?_
  intro s3
  refine bindE_sim_pair rfl ?_
  intro s4
  refine bindE_sim_pair rfl ?_
  intro s5
  refine bindE_sim_pair_wleft (write_segment_list_sim aid b.segments _
    ⟨s5, mapInsert w.neo_nix_map b.tag (.single (.block
      (w.store.create_block (if b.name = "" then
        "neo.Block" ++ toString w.store.blocks.length else b.name)
        ("neo.block")).2))⟩) ?_
  intro w1
  refine bindE_sim_pair_wleft
    (write_rcg_list_sim aid hinj b.recordingchannelgroups _ _) ?_
  intro w2
  rfl

/-- write_all_blocks commutes with injective key renaming. -/
theorem write_all_blocks_sim (aid : Nat → Nat) (hinj : Function.Injective aid) :
    ∀ (bs : List NeoBlock) (w : WState),
    write_all_blocks aid bs (liftW aid w) =
      liftE aid (write_all_blocks (fun t => t) bs w) := by
  intro bs
  induction bs with
  | nil => intro w; rfl
  | cons b rest ih =>
    intro w
    simp only [write_all_blocks]
    refine bindE_sim_pair_pairleft (write_block_sim aid hinj b w) ?_
    intro pr
    refine bindE_sim_pair_pairleft (ih pr.1) ?_
    intro pr2
    rfl

/-- All entity names of a store, arena by arena. -/
def storeNames (s : Store) : List (List String) :=
  [s.blocks.map NBlock.name, s.groups.map NGroup.name,
   s.sources.map NSource.name, s.data_arrays.map NDataArray.name,
   s.multi_tags.map NMultiTag.name, s.sections.map NSection.name]

/-- The store of a run sees through the renaming. -/
theorem liftE_store (aid : Nat → Nat) (e : Except PyErr (WState × List NixRef)) :
    (liftE aid e).map (fun pr => pr.1.store) = e.map (fun pr => pr.1.store) := by
  cases e <;> rfl

/-- Store projections of a run see through the renaming. -/
theorem liftE_store_proj {γ : Type} (aid : Nat → Nat) (f : Store → γ)
    (e : Except PyErr (WState × List NixRef)) :
    (liftE aid e).map (fun pr => f pr.1.store) =
      e.map (fun pr => f pr.1.store) := by
  cases e <;> rfl

/-- C8: the whole mapping from a fresh empty store is deterministic in the
ambient id assignment — two runs under any two injective assignments of
object identities produce the same store, and in particular identical
synthesized names position for position. -/
theorem claim_C8_deterministic_names
    (aid1 aid2 : Nat → Nat) (h1 : Function.Injective aid1)
    (h2 : Function.Injective aid2) (bs : List NeoBlock) :
    (write_all_blocks aid1 bs emptyWState).map (fun pr => pr.1.store) =
      (write_all_blocks aid2 bs emptyWState).map (fun pr => pr.1.store) ∧
    (write_all_blocks aid1 bs emptyWState).map (fun pr => storeNames pr.1.store) =
      (write_all_blocks aid2 bs emptyWState).map (fun pr => storeNames pr.1.store) := by
  have e1 : write_all_blocks aid1 bs emptyWState =
      liftE aid1 (write_all_blocks (fun t => t) bs emptyWState) :=
    write_all_blocks_sim aid1 h1 bs emptyWState
  have e2 : write_all_blocks aid2 bs emptyWState =
      liftE aid2 (write_all_blocks (fun t => t) bs emptyWState) :=
    write_all_blocks_sim aid2 h2 bs emptyWState
  constructor
  · rw [e1, e2, liftE_store, liftE_store]
  · rw [e1, e2, liftE_store_proj, liftE_store_proj]

/-- Anonymous block for the C8 witness. -/
def c8Block : NeoBlock := ⟨1, "", none, none, none, "", [], [], []⟩

/-- Witness for C8 under two concrete injective ambient assignments. -/
theorem claim_C8_witness :
    (write_all_blocks (fun t => t) [c8Block] emptyWState).map
        (fun pr => pr.1.store) =
      (write_all_blocks (fun t => t + 5) [c8Block] emptyWState).map
        (fun pr => pr.1.store) ∧
    (write_all_blocks (fun t => t) [c8Block] emptyWState).map
        (fun pr => storeNames pr.1.store) =
      (write_all_blocks (fun t => t + 5) [c8Block] emptyWState).map
        (fun pr => storeNames pr.1.store) :=
  claim_C8_deterministic_names (fun t => t) (fun t => t + 5)
    (fun a b h => h) (fun a b h => by simpa using h) [c8Block]

/- ================================================================== -/
/- C9.  Conversion routines never mutate a received path in place. -/

/-- C9: every path computation performed by the conversion routines
(appending a group, source, multi_tag or data_array step when descending,
taking the head singleton for the root block, and the parent slice inside
_get_or_init_metadata) allocates a fresh list and leaves every list that
already existed on the heap — in particular the path received from the
caller — unchanged. -/
theorem claim_C9_paths_never_mutated :
    (∀ (h : ListHeap) (r : Nat) (nm : String) (r0 : Nat),
      r0 < h.cells.length →
      (path_step_write_segment h r nm).1.get r0 = h.get r0) ∧
    (∀ (h : ListHeap) (r : Nat) (nm : String) (r0 : Nat),
      r0 < h.cells.length → (path_step_source h r nm).1.get r0 = h.get r0) ∧
    (∀ (h : ListHeap) (r : Nat) (nm : String) (r0 : Nat),
      r0 < h.cells.length → (path_step_multi_tag h r nm).1.get r0 = h.get r0) ∧
    (∀ (h : ListHeap) (r : Nat) (nm : String) (r0 : Nat),
      r0 < h.cells.length → (path_step_data_array h r nm).1.get r0 = h.get r0) ∧
    (∀ (h : ListHeap) (r : Nat) (r0 : Nat),
      r0 < h.cells.length → (path_step_head h r).1.get r0 = h.get r0) ∧
    (∀ (h : ListHeap) (r : Nat) (r0 : Nat),
      r0 < h.cells.length → (path_step_parent_slice h r).1.get r0 = h.get r0) :=
  ⟨fun h _r _nm r0 hr => ListHeap.get_alloc_lt h _ r0 hr,
   fun h _r _nm r0 hr => ListHeap.get_alloc_lt h _ r0 hr,
   fun h _r _nm r0 hr => ListHeap.get_alloc_lt h _ r0 hr,
   fun h _r _nm r0 hr => ListHeap.get_alloc_lt h _ r0 hr,
   fun h _r r0 hr => ListHeap.get_alloc_lt h _ r0 hr,
   fun h _r r0 hr => ListHeap.get_alloc_lt h _ r0 hr⟩

/-- Heap with one existing path cell, used as the C9 witness input. -/
def oneCellHeap : ListHeap := ⟨[[("block", "b")]]⟩

/-- Witness for C9 on a one-cell heap. -/
theorem claim_C9_witness :
    0 < oneCellHeap.cells.length ∧
    (path_step_write_segment oneCellHeap 0 ("seg")).1.get 0 = oneCellHeap.get 0 ∧
    (path_step_parent_slice oneCellHeap 0).1.get 0 = oneCellHeap.get 0 :=
  ⟨by decide,
   claim_C9_paths_never_mutated.1 oneCellHeap 0 ("seg") 0 (by decide),
   claim_C9_paths_never_mutated.2.2.2.2.2 oneCellHeap 0 0 (by decide)⟩

end NeoNix
